import Mathlib

/-!
# FAT12 reader: a shallow embedding of `file_reader.c`

The C program is modelled by pure functions over explicit state.

* Bytes and machine integers are natural numbers (or integers for `int`);
  every place where the C arithmetic wraps is written with an explicit
  reduction modulo `2 ^ 32` or `2 ^ 16`.
* A heap buffer is a `List Nat` holding the bytes that have a defined value.
* A call either returns a value (`Res.ok`), returns its failure indicator
  (`NULL` or `-1`) with `errno` set (`Res.error`), runs into undefined
  behaviour such as an out-of-bounds access, a division by zero, a signed
  overflow or a read of an indeterminate value (`Res.fault`), or is still
  looping when the iteration budget of the model is used up (`Res.timeout`).
* `NULL` arguments are excluded by the types; `malloc` is taken to succeed.
-/

namespace Fat12

/-! ## Definitions -/

/-- Outcome of a modelled C call. -/
inductive Res (α : Type) where
  | ok (a : α)
  | error (errno : Nat)
  | fault
  | timeout
  deriving DecidableEq, Repr

/-! ### Constants of `file_reader.h`, `errno.h` and `stdio.h` -/

def SUCCESS : Nat := 0
def NOMEM : Nat := 1
def CORRUPTED : Nat := 2
def DISK_READ_FAULT : Nat := 3

def ENOENT : Nat := 2
def ENXIO : Nat := 6
def ENOMEM : Nat := 12
def EFAULT : Nat := 14
def EISDIR : Nat := 21
def EINVAL : Nat := 22
def ERANGE : Nat := 34

def SEEK_SET : Int := 0
def SEEK_CUR : Int := 1
def SEEK_END : Int := 2

def FAT_ATTRIB_LABEL : Nat := 0x08
def FAT_ATTRIB_DIR : Nat := 0x10

/-- The value of `sizeof(struct fat_sfn_t)`: the packed 8.3 entry has
11 + 1 + 1 + 1 + 7 * 2 + 4 = 32 bytes. -/
def sizeof_fat_sfn_t : Nat := 32

/-- The value of `sizeof(struct fat_super_t)`: the packed boot sector. -/
def sizeof_fat_super_t : Nat := 512

/-! ### Machine integers -/

/-- Reduction of an integer to `uint32_t`. -/
def wrap32 (z : Int) : Nat := (z % 4294967296).toNat

/-- Conversion of a `uint32_t` value to `int32_t` (two's complement). -/
def toInt32 (n : Nat) : Int :=
  if n % 4294967296 < 2147483648 then ((n % 4294967296 : Nat) : Int)
  else ((n % 4294967296 : Nat) : Int) - 4294967296

/-- Upper bound (exclusive) of `int`. -/
def INT_LIMIT : Int := 2147483648

/-- Little-endian 16-bit field at offset `off` of a byte buffer. -/
def le16 (b : List Nat) (off : Nat) : Nat :=
  b.getD off 0 + 256 * b.getD (off + 1) 0

/-- Little-endian 32-bit field at offset `off` of a byte buffer. -/
def le32 (b : List Nat) (off : Nat) : Nat :=
  b.getD off 0 + 256 * b.getD (off + 1) 0 + 65536 * b.getD (off + 2) 0
    + 16777216 * b.getD (off + 3) 0

/-! ### The super-sector -/

/-- The fields of `struct fat_super_t` that the program reads. -/
structure fat_super_t where
  bytes_per_sector : Nat
  sectors_per_cluster : Nat
  reserved_sectors : Nat
  fat_count : Nat
  root_dir_capacity : Nat
  logical_sectors16 : Nat
  sectors_per_fat : Nat
  logical_sectors32 : Nat
  deriving DecidableEq, Repr

/-- Every field fits its C type (`uint8_t`, `uint16_t` or `uint32_t`). -/
def fat_super_t.in_range (s : fat_super_t) : Prop :=
  s.bytes_per_sector < 65536 ∧ s.sectors_per_cluster < 256 ∧
  s.reserved_sectors < 65536 ∧ s.fat_count < 256 ∧
  s.root_dir_capacity < 65536 ∧ s.logical_sectors16 < 65536 ∧
  s.sectors_per_fat < 65536 ∧ s.logical_sectors32 < 4294967296

instance (s : fat_super_t) : Decidable s.in_range := by
  unfold fat_super_t.in_range; infer_instance

/-- The packed `struct fat_super_t` laid over the 512 bytes of sector 0
(little-endian fields at the offsets the packed declaration gives). -/
def fat_super_t.of_bytes (b : List Nat) : fat_super_t where
  bytes_per_sector := le16 b 11
  sectors_per_cluster := b.getD 13 0
  reserved_sectors := le16 b 14
  fat_count := b.getD 16 0
  root_dir_capacity := le16 b 17
  logical_sectors16 := le16 b 19
  sectors_per_fat := le16 b 22
  logical_sectors32 := le32 b 32

/-- `validate_super_sector`: 0 when the super-sector is accepted, 1 otherwise. -/
def validate_super_sector (super : fat_super_t) : Nat :=
  if super.sectors_per_cluster < 1 ∨ super.sectors_per_cluster > 128 then 1
  else if super.reserved_sectors ≤ 0 then 1
  else if super.fat_count < 1 ∨ super.fat_count > 2 then 1
  else if ¬ (xor (decide (super.logical_sectors32 = 0))
      (decide (super.logical_sectors16 = 0)) = true) then 1
  else 0

/-! ### Geometry -/

/-- `struct volume_geometry`; every field is a `uint32_t`. -/
structure volume_geometry where
  volume_start : Nat
  fat_1_position : Nat
  fat_2_position : Nat
  rootdir_position : Nat
  rootdir_size : Nat
  cluster2_position : Nat
  volume_size : Nat
  user_space : Nat
  total_clusters : Nat
  deriving DecidableEq, Repr

/-- `calculate_volume_geometry`, as a function of the super-sector of the
volume. The two divisions fault on a zero divisor; sums and differences of
`lba_t` values wrap modulo `2 ^ 32`. -/
def calculate_volume_geometry (s : fat_super_t) : Res volume_geometry :=
  let volume_start : Nat := 0
  let fat_1_position := wrap32 ((volume_start : Int) + s.reserved_sectors)
  let fat_2_position := wrap32 ((fat_1_position : Int) + s.sectors_per_fat)
  let rootdir_position :=
    wrap32 ((volume_start : Int) + s.reserved_sectors + s.fat_count * s.sectors_per_fat)
  if s.bytes_per_sector = 0 then Res.fault
  else
    let rootdir_size0 :=
      wrap32 ((s.root_dir_capacity * sizeof_fat_sfn_t / s.bytes_per_sector : Nat))
    let rootdir_size :=
      if s.root_dir_capacity * sizeof_fat_sfn_t % s.bytes_per_sector ≠ 0
      then wrap32 ((rootdir_size0 : Int) + 1) else rootdir_size0
    let cluster2_position := wrap32 ((rootdir_position : Int) + rootdir_size)
    let volume_size :=
      if s.logical_sectors16 = 0 then s.logical_sectors32 else s.logical_sectors16
    let user_space :=
      wrap32 ((volume_size : Int) - s.reserved_sectors
        - s.fat_count * s.sectors_per_fat - rootdir_size)
    if s.sectors_per_cluster = 0 then Res.fault
    else
      Res.ok
        { volume_start := volume_start
          fat_1_position := fat_1_position
          fat_2_position := fat_2_position
          rootdir_position := rootdir_position
          rootdir_size := rootdir_size
          cluster2_position := cluster2_position
          volume_size := volume_size
          user_space := user_space
          total_clusters := wrap32 ((user_space / s.sectors_per_cluster : Nat) + 1) }

/-! ### The block device -/

/-- `struct disk_t`: `disk` holds the bytes of the opened image file. -/
structure disk_t where
  disk : List Nat
  size_of_block : Nat
  num_of_blocks : Nat
  deriving DecidableEq, Repr

/-- `calc_num_of_blocks`: every `fread` consumes one block and `feof` only
becomes true once a read has fallen short, so the body runs
`len / size_of_block + 1` times; the counter is a `uint16_t`. (The only call
site has `size_of_block = 512`; with a zero block size the C loop does not
end.) -/
def calc_num_of_blocks (d : disk_t) : Nat :=
  (d.disk.length / d.size_of_block + 1) % 65536

/-- `disk_open_from_file` on an existing file with the given contents. -/
def disk_open_from_file (volume_file : List Nat) : disk_t :=
  { disk := volume_file
    size_of_block := 512
    num_of_blocks :=
      calc_num_of_blocks { disk := volume_file, size_of_block := 512, num_of_blocks := 0 } }

/-- `disk_read`: on success the value returned by `fread` (the number of
complete blocks read) together with the bytes of those blocks, which is what
the call leaves defined in `buffer`. The product handed to `fseek` is an
`int` multiplication. -/
def disk_read (pdisk : disk_t) (first_sector : Int) (sectors_to_read : Int) :
    Res (Int × List Nat) :=
  if sectors_to_read ≤ 0 ∨ first_sector < 0 then Res.error EFAULT
  else if (pdisk.num_of_blocks : Int) - first_sector < sectors_to_read then Res.error ERANGE
  else if INT_LIMIT ≤ first_sector * pdisk.size_of_block then Res.fault
  else
    let rest := pdisk.disk.drop (first_sector.toNat * pdisk.size_of_block)
    let result := min sectors_to_read.toNat (rest.length / pdisk.size_of_block)
    Res.ok ((result : Int), rest.take (result * pdisk.size_of_block))

/-- `memcmp(a, b, n)` on two buffers: `none` when the comparison would have to
read a byte that is not defined before a difference is met. -/
def memcmp : List Nat → List Nat → Nat → Option Int
  | _, _, 0 => some 0
  | x :: a, y :: b, n + 1 =>
    if x = y then memcmp a b n else some (if x < y then -1 else 1)
  | _, _, _ + 1 => none

/-! ### Root-directory entries -/

/-- The fields of `struct fat_sfn_t` that the program reads; `file_name` is
the 11-byte array. -/
structure fat_sfn_t where
  file_name : List Nat
  file_attribute : Nat
  file_creation_time : Nat
  file_creation_date : Nat
  file_first_low : Nat
  file_size : Nat
  deriving DecidableEq, Repr

/-- The packed `struct fat_sfn_t` laid over 32 bytes. -/
def fat_sfn_t.of_bytes (b : List Nat) : fat_sfn_t where
  file_name := b.take 11
  file_attribute := b.getD 11 0
  file_creation_time := le16 b 14
  file_creation_date := le16 b 16
  file_first_low := le16 b 26
  file_size := le32 b 28

/-- A byte buffer seen as an array of `struct fat_sfn_t`: its complete
32-byte records, in order. -/
def root_entries (bytes : List Nat) : List fat_sfn_t :=
  (List.range (bytes.length / sizeof_fat_sfn_t)).map
    (fun i => fat_sfn_t.of_bytes ((bytes.drop (sizeof_fat_sfn_t * i)).take sizeof_fat_sfn_t))

/-! ### The mounted volume -/

/-- `struct volume_t`. Each buffer holds the bytes (or records, or decoded
entries) that have been stored in it. -/
structure volume_t where
  super_sector : fat_super_t
  geometry : volume_geometry
  fat_1 : List Nat
  fat_2 : List Nat
  root_directory : List fat_sfn_t
  data_area : List Nat
  fat_data : List Nat
  deriving DecidableEq, Repr

/-- Result of one of the loading steps of `fat_open`: the step returned
`SUCCESS` and stored `a` in the volume, or it returned the non-zero status
`err_code` with `errno` as the step left it, or it ran into undefined
behaviour. -/
inductive Step (α : Type) where
  | done (a : α)
  | code (err_code : Nat) (errno : Nat)
  | fault
  deriving DecidableEq, Repr

/-- `read_super_sector`: one block read into the 512-byte `super_sector`.
A short read leaves the structure indeterminate and a larger block does not
fit it. -/
def read_super_sector (pdisk : disk_t) (_errno : Nat) : Step fat_super_t :=
  match disk_read pdisk 0 1 with
  | Res.error e => Step.code DISK_READ_FAULT e
  | Res.ok (_, bytes) =>
    if bytes.length = sizeof_fat_super_t then Step.done (fat_super_t.of_bytes bytes)
    else Step.fault
  | _ => Step.fault

/-- `read_fats`: both copies are read into buffers of
`sectors_per_fat * bytes_per_sector` bytes (an `int` product) and compared
over that many bytes. -/
def read_fats (pdisk : disk_t) (super : fat_super_t) (geometry : volume_geometry)
    (errno : Nat) : Step (List Nat × List Nat) :=
  if INT_LIMIT ≤ (super.sectors_per_fat : Int) * super.bytes_per_sector then Step.fault
  else
    let bytes_per_fat := super.sectors_per_fat * super.bytes_per_sector
    match disk_read pdisk (toInt32 geometry.fat_1_position) super.sectors_per_fat with
    | Res.error e => Step.code DISK_READ_FAULT e
    | Res.ok (_, fat_1) =>
      if bytes_per_fat < fat_1.length then Step.fault
      else
        match disk_read pdisk (toInt32 geometry.fat_2_position) super.sectors_per_fat with
        | Res.error e => Step.code DISK_READ_FAULT e
        | Res.ok (_, fat_2) =>
          if bytes_per_fat < fat_2.length then Step.fault
          else
            match memcmp fat_1 fat_2 bytes_per_fat with
            | none => Step.fault
            | some r => if r ≠ 0 then Step.code CORRUPTED errno else Step.done (fat_1, fat_2)
        | _ => Step.fault
    | _ => Step.fault

/-- `read_root_dir`: the buffer has `rootdir_size * bytes_per_sector` bytes
(a `uint32_t` product). -/
def read_root_dir (pdisk : disk_t) (super : fat_super_t) (geometry : volume_geometry)
    (_errno : Nat) : Step (List fat_sfn_t) :=
  let rootdir_bytes := wrap32 ((geometry.rootdir_size : Int) * super.bytes_per_sector)
  match disk_read pdisk (toInt32 geometry.rootdir_position) (toInt32 geometry.rootdir_size) with
  | Res.error e => Step.code DISK_READ_FAULT e
  | Res.ok (_, bytes) =>
    if rootdir_bytes < bytes.length then Step.fault else Step.done (root_entries bytes)
  | _ => Step.fault

/-- `read_data_area`: the buffer has `user_space * bytes_per_sector` bytes
(a `uint32_t` product). -/
def read_data_area (pdisk : disk_t) (super : fat_super_t) (geometry : volume_geometry)
    (_errno : Nat) : Step (List Nat) :=
  let dataarea_bytes := wrap32 ((geometry.user_space : Int) * super.bytes_per_sector)
  match disk_read pdisk (toInt32 geometry.cluster2_position) (toInt32 geometry.user_space) with
  | Res.error e => Step.code DISK_READ_FAULT e
  | Res.ok (_, bytes) =>
    if dataarea_bytes < bytes.length then Step.fault else Step.done bytes
  | _ => Step.fault

/-- The loop of `read_fat_data`: the slots it writes. `i` and `j` are the C
counters (`unsigned int`, wrapping modulo `2 ^ 32`). Slots are written in
increasing order from slot 0, so the written slots are collected by
appending. The first argument bounds the number of iterations left. A read
outside `fat_1` is a fault. -/
def read_fat_data_loop (fat_1 : List Nat) (total_clusters : Nat) :
    Nat → Nat → Nat → List Nat → Res (List Nat)
  | 0, i, _, fat_data => if i < total_clusters then Res.timeout else Res.ok fat_data
  | n + 1, i, j, fat_data =>
    if i < total_clusters then
      match fat_1[(j + 0) % 4294967296]?, fat_1[(j + 1) % 4294967296]?,
          fat_1[(j + 2) % 4294967296]? with
      | some b0, some b1, some b2 =>
        let c0 := (((b1 &&& 0x0F) <<< 8) ||| b0) % 65536
        let c1 := ((b2 <<< 4) ||| ((b1 &&& 0xF0) >>> 4)) % 65536
        read_fat_data_loop fat_1 total_clusters n ((i + 2) % 4294967296)
          ((j + 3) % 4294967296) (fat_data ++ [c0, c1])
      | _, _, _ => Res.fault
    else Res.ok fat_data

/-- `read_fat_data`: the decoded table `fat_data`, which is allocated with
`total_clusters` slots. When `total_clusters` is odd the last iteration
writes slot `total_clusters`, one past the allocation: a fault. -/
def read_fat_data (fat_1 : List Nat) (geometry : volume_geometry) : Res (List Nat) :=
  match read_fat_data_loop fat_1 geometry.total_clusters geometry.total_clusters 0 0 [] with
  | Res.ok fat_data =>
    if geometry.total_clusters < fat_data.length then Res.fault else Res.ok fat_data
  | Res.error e => Res.error e
  | Res.fault => Res.fault
  | Res.timeout => Res.timeout

/-- `handle_errno`: the value of `errno` after the call, given its value
before (`fat_close` on a non-null volume leaves `errno` alone). -/
def handle_errno (err_code : Nat) (errno : Nat) : Nat :=
  let errno1 := if err_code = CORRUPTED then EINVAL else errno
  if err_code = NOMEM then ENOMEM else errno1

/-- `fat_open`: `Res.ok volume` for a mounted volume, `Res.error e` when the
function returns `NULL` with `errno = e`. `errno` is the value of `errno` on
entry. -/
def fat_open (pdisk : disk_t) (_first_sector : Nat) (errno : Nat) : Res volume_t :=
  match read_super_sector pdisk errno with
  | Step.fault => Res.fault
  | Step.code err_code e => Res.error (handle_errno err_code e)
  | Step.done super_sector =>
    let err_code := validate_super_sector super_sector
    if err_code ≠ SUCCESS then Res.error (handle_errno err_code errno)
    else
      match calculate_volume_geometry super_sector with
      | Res.ok geometry =>
        match read_fats pdisk super_sector geometry errno with
        | Step.fault => Res.fault
        | Step.code err_code e => Res.error (handle_errno err_code e)
        | Step.done (fat_1, fat_2) =>
          match read_root_dir pdisk super_sector geometry errno with
          | Step.fault => Res.fault
          | Step.code err_code e => Res.error (handle_errno err_code e)
          | Step.done root_directory =>
            match read_data_area pdisk super_sector geometry errno with
            | Step.fault => Res.fault
            | Step.code err_code e => Res.error (handle_errno err_code e)
            | Step.done data_area =>
              match read_fat_data fat_1 geometry with
              | Res.ok fat_data =>
                Res.ok
                  { super_sector := super_sector
                    geometry := geometry
                    fat_1 := fat_1
                    fat_2 := fat_2
                    root_directory := root_directory
                    data_area := data_area
                    fat_data := fat_data }
              | Res.error e => Res.error e
              | Res.fault => Res.fault
              | Res.timeout => Res.timeout
      | _ => Res.fault

/-! ### Files -/

/-- `struct file_t`. `data` holds the bytes of the buffer that have been
written (the payload bytes copied by `file_open`, then the terminating zero);
`curr_position` and `size` are `int`s. -/
structure file_t where
  data : List Nat
  curr_position : Int
  size : Int
  deriving DecidableEq, Repr

/-- `strlen` of a C string given by its buffer: the bytes before the first
zero byte (the buffer is taken to end with one). -/
def strlen (s : List Nat) : Nat := (s.takeWhile (fun c => c ≠ 0)).length

/-- `make_name`: the characters stored before the terminating zero. The
first loop copies the bytes of the base up to the first space; the test on
`file_name[9]` decides whether a dot and the extension bytes up to the first
space follow. -/
def make_name (file_name : List Nat) : List Nat :=
  let base := (file_name.take 8).takeWhile (fun c => c ≠ 32)
  if file_name.getD 9 0 = 32 then base
  else base ++ [46] ++ ((file_name.drop 8).take 3).takeWhile (fun c => c ≠ 32)

/-- The loop of `search_for_file` from index `i`, with `n` iterations left
before `i` reaches `root_dir_capacity`. The result is the index of the entry
returned together with the entry, or `none` for `NULL`. -/
def search_for_file_loop (root_directory : List fat_sfn_t) (file_name : List Nat) :
    Nat → Nat → Res (Option (Nat × fat_sfn_t))
  | 0, _ => Res.ok none
  | n + 1, i =>
    match root_directory[i]? with
    | none => Res.fault
    | some entry =>
      if entry.file_name.getD 0 0 = 0 then Res.ok none
      else
        let full_filename := make_name entry.file_name
        match memcmp file_name (full_filename ++ [0]) (strlen file_name) with
        | none => Res.fault
        | some r =>
          if r = 0 then Res.ok (some (i, entry))
          else search_for_file_loop root_directory file_name n (i + 1)

/-- `search_for_file`. -/
def search_for_file (pvolume : volume_t) (file_name : List Nat) :
    Res (Option (Nat × fat_sfn_t)) :=
  search_for_file_loop pvolume.root_directory file_name
    pvolume.super_sector.root_dir_capacity 0

/-- Index into `data_area` of byte `i` of a cluster, computed in `uint32_t`. -/
def cluster_byte_index (pvolume : volume_t) (cluster : Nat) (i : Nat) : Nat :=
  wrap32 (((cluster : Int) - 2) * pvolume.super_sector.bytes_per_sector
    * pvolume.super_sector.sectors_per_cluster + i)

/-- One of the two `for` loops of `file_open`: the bytes `i, i + 1, ...`
(`count` of them) of a cluster, read from `data_area`. -/
def copy_cluster_bytes (pvolume : volume_t) (cluster : Nat) : Nat → Nat → Option (List Nat)
  | 0, _ => some []
  | count + 1, i =>
    match pvolume.data_area[cluster_byte_index pvolume cluster i]? with
    | none => none
    | some b =>
      match copy_cluster_bytes pvolume cluster count (i + 1) with
      | none => none
      | some bs => some (b :: bs)

/-- `get_next_cluster`. -/
def get_next_cluster (volume : volume_t) (current : Nat) : Option Nat :=
  volume.fat_data[current]?

/-- The `while` loop of `file_open`: `data` holds the bytes written so far
(`pos` is its length). The first argument bounds the number of iterations. -/
def file_open_walk (pvolume : volume_t) :
    Nat → Nat → Nat → List Nat → Res (List Nat)
  | 0, _, _, _ => Res.timeout
  | fuel + 1, bytes_to_read, cluster, data =>
    match pvolume.fat_data[1]? with
    | none => Res.fault
    | some sentinel =>
      if cluster ≠ sentinel then
        let cluster_bytes :=
          pvolume.super_sector.bytes_per_sector * pvolume.super_sector.sectors_per_cluster
        if bytes_to_read ≥ cluster_bytes then
          match copy_cluster_bytes pvolume cluster cluster_bytes 0 with
          | none => Res.fault
          | some bytes =>
            match get_next_cluster pvolume cluster with
            | none => Res.fault
            | some next =>
              file_open_walk pvolume fuel (bytes_to_read - cluster_bytes) next (data ++ bytes)
        else
          match copy_cluster_bytes pvolume cluster bytes_to_read 0 with
          | none => Res.fault
          | some bytes => Res.ok (data ++ bytes ++ [0])
      else Res.ok (data ++ [0])

/-- The part of `file_open` that follows a successful lookup. `size` is an
`int`: `size + 1` overflows for a 32-bit size of `2 ^ 31 - 1`, a negative
`size + 1` is a request `malloc` cannot meet, and `size = -1` gives a buffer
of no bytes, which the terminating zero already overruns. -/
def file_open_entry (pvolume : volume_t) (fuel : Nat) (file_entry : fat_sfn_t) : Res file_t :=
  if (file_entry.file_attribute &&& FAT_ATTRIB_LABEL) ≠ 0 ∨
      (file_entry.file_attribute &&& FAT_ATTRIB_DIR) ≠ 0 then Res.error EISDIR
  else
    let size := toInt32 file_entry.file_size
    if INT_LIMIT ≤ size + 1 then Res.fault
    else if size + 1 < 0 then Res.error ENOMEM
    else if size + 1 = 0 then Res.fault
    else
      match file_open_walk pvolume fuel (file_entry.file_size % 4294967296)
          file_entry.file_first_low [] with
      | Res.ok data => Res.ok { data := data, curr_position := 0, size := size }
      | Res.error e => Res.error e
      | Res.fault => Res.fault
      | Res.timeout => Res.timeout

/-- `file_open`; `fuel` bounds the number of iterations of the chain walk. -/
def file_open (pvolume : volume_t) (fuel : Nat) (file_name : List Nat) : Res file_t :=
  match search_for_file pvolume file_name with
  | Res.ok none => Res.error ENOENT
  | Res.ok (some (_, file_entry)) => file_open_entry pvolume fuel file_entry
  | Res.error e => Res.error e
  | Res.fault => Res.fault
  | Res.timeout => Res.timeout

/-- Inner loop of `file_read` for element `i`, from byte `j`, with `n`
bytes of the element left. The boolean is `false` when the loop left the
function through `return result`. -/
def file_read_bytes (data : List Nat) (size : Int) (i : Nat) :
    Nat → Nat → Int → List Nat → Res (Bool × Int × List Nat)
  | 0, _, curr_position, ptr => Res.ok (true, curr_position, ptr)
  | n + 1, j, curr_position, ptr =>
    if curr_position = size then Res.ok (false, curr_position, ptr)
    else if curr_position < 0 then Res.fault
    else
      match data[curr_position.toNat]? with
      | none => Res.fault
      | some b =>
        if ptr.length ≤ i + j then Res.fault
        else if INT_LIMIT ≤ curr_position + 1 then Res.fault
        else file_read_bytes data size i n (j + 1) (curr_position + 1) (ptr.set (i + j) b)

/-- Outer loop of `file_read` from element `i`, with `n` elements left
before `i` reaches `nmemb`; `result` is the `int` counter. -/
def file_read_elems (data : List Nat) (size : Int) (elem_size : Nat) :
    Nat → Nat → Int → List Nat → Int → Res (Int × Int × List Nat)
  | 0, _, curr_position, ptr, result => Res.ok (result, curr_position, ptr)
  | n + 1, i, curr_position, ptr, result =>
    if curr_position = size then Res.ok (result, curr_position, ptr)
    else
      match file_read_bytes data size i elem_size 0 curr_position ptr with
      | Res.ok (true, curr_position1, ptr1) =>
        if INT_LIMIT ≤ result + 1 then Res.fault
        else file_read_elems data size elem_size n (i + 1) curr_position1 ptr1 (result + 1)
      | Res.ok (false, curr_position1, ptr1) => Res.ok (result, curr_position1, ptr1)
      | Res.error e => Res.error e
      | Res.fault => Res.fault
      | Res.timeout => Res.timeout

/-- `file_read(ptr, size, nmemb, stream)`: the value returned, the contents
of the destination buffer and the stream afterwards. `ptr` is the
destination buffer with its contents before the call. -/
def file_read (ptr : List Nat) (size : Nat) (nmemb : Nat) (stream : file_t) :
    Res (Int × List Nat × file_t) :=
  match file_read_elems stream.data stream.size size nmemb 0 stream.curr_position ptr 0 with
  | Res.ok (result, curr_position, ptr1) =>
    Res.ok (result, ptr1, { stream with curr_position := curr_position })
  | Res.error e => Res.error e
  | Res.fault => Res.fault
  | Res.timeout => Res.timeout

/-- `file_seek(stream, offset, whence)`: the value returned, the stream and
`errno` afterwards. The two sums are `int` additions. -/
def file_seek (stream : file_t) (offset : Int) (whence : Int) (errno : Nat) :
    Res (Int × file_t × Nat) :=
  if whence ≠ SEEK_SET ∧ whence ≠ SEEK_CUR ∧ whence ≠ SEEK_END then
    Res.ok (-1, stream, EINVAL)
  else if whence = SEEK_SET then
    if offset > stream.size then Res.ok (-1, stream, ENXIO)
    else Res.ok (offset, { stream with curr_position := offset }, errno)
  else if whence = SEEK_CUR then
    if INT_LIMIT ≤ offset + stream.curr_position ∨ offset + stream.curr_position < -INT_LIMIT
    then Res.fault
    else if offset + stream.curr_position > stream.size then Res.ok (-1, stream, ENXIO)
    else
      Res.ok (stream.curr_position + offset,
        { stream with curr_position := stream.curr_position + offset }, errno)
  else
    if INT_LIMIT ≤ stream.size + offset ∨ stream.size + offset < -INT_LIMIT then Res.fault
    else if stream.size + offset < 0 then Res.ok (-1, stream, ENXIO)
    else
      Res.ok (stream.size + offset,
        { stream with curr_position := stream.size + offset }, errno)

/-! ### Reference formulas and sample inputs -/

/-- The even entry of a FAT12 group, in the words of the specification:
`((b1 & 0x0F) << 8) | b0`. -/
def fat12_entry_even (b0 b1 : Nat) : Nat := ((b1 &&& 0x0F) <<< 8) ||| b0

/-- The odd entry of a FAT12 group, in the words of the specification:
`(b2 << 4) | ((b1 & 0xF0) >> 4)`. -/
def fat12_entry_odd (b1 b2 : Nat) : Nat := (b2 <<< 4) ||| ((b1 &&& 0xF0) >>> 4)

/-- The super-sector of the specification's sample image. -/
def sample_super : fat_super_t :=
  { bytes_per_sector := 512, sectors_per_cluster := 1, reserved_sectors := 1,
    fat_count := 2, root_dir_capacity := 16, logical_sectors16 := 20,
    sectors_per_fat := 1, logical_sectors32 := 0 }

/-- A super-sector whose whole volume is user space: no reserved sector, no
FAT sector, no root directory, `2 ^ 32 - 1` sectors of one-sector clusters. -/
def all_user_super : fat_super_t :=
  { bytes_per_sector := 512, sectors_per_cluster := 1, reserved_sectors := 0,
    fat_count := 1, root_dir_capacity := 0, logical_sectors16 := 0,
    sectors_per_fat := 0, logical_sectors32 := 4294967295 }

/-- A geometry record in which only `total_clusters` matters. -/
def geometry_with_total (total_clusters : Nat) : volume_geometry :=
  { volume_start := 0, fat_1_position := 0, fat_2_position := 0, rootdir_position := 0,
    rootdir_size := 0, cluster2_position := 0, volume_size := 0, user_space := 0,
    total_clusters := total_clusters }

/-- The cluster chain of a file: `cluster_chain fat_data first i` is the
`i`-th cluster reached from `first` by following the decoded table, when all
the table look-ups on the way are inside the table. -/
def cluster_chain (fat_data : List Nat) (first : Nat) : Nat → Option Nat
  | 0 => some first
  | i + 1 =>
    match cluster_chain fat_data first i with
    | none => none
    | some c => fat_data[c]?

/-- Root entry `A.TXT`: 3 bytes, first cluster 4. -/
def entry_A_TXT : fat_sfn_t :=
  { file_name := [65, 32, 32, 32, 32, 32, 32, 32, 84, 88, 84], file_attribute := 0x20,
    file_creation_time := 0, file_creation_date := 0, file_first_low := 4, file_size := 3 }

/-- Root entry `B.BIN`: 6 bytes, first cluster 2. -/
def entry_B_BIN : fat_sfn_t :=
  { file_name := [66, 32, 32, 32, 32, 32, 32, 32, 66, 73, 78], file_attribute := 0x20,
    file_creation_time := 0, file_creation_date := 0, file_first_low := 2, file_size := 6 }

/-- The all-zero root entry that ends a directory. -/
def entry_end : fat_sfn_t :=
  { file_name := List.replicate 11 0, file_attribute := 0, file_creation_time := 0,
    file_creation_date := 0, file_first_low := 0, file_size := 0 }

/-- A small volume with 4-byte clusters: the data area holds clusters 2, 3
and 4; the chain of `B.BIN` is 2 → 3 → end (the sentinel is `0xFFF`), and
`A.TXT` lies in cluster 4. -/
def small_volume : volume_t :=
  { super_sector :=
      { bytes_per_sector := 4, sectors_per_cluster := 1, reserved_sectors := 1,
        fat_count := 2, root_dir_capacity := 3, logical_sectors16 := 32,
        sectors_per_fat := 2, logical_sectors32 := 0 }
    geometry :=
      { volume_start := 0, fat_1_position := 1, fat_2_position := 3, rootdir_position := 5,
        rootdir_size := 24, cluster2_position := 29, volume_size := 32, user_space := 3,
        total_clusters := 4 }
    fat_1 := [0xF0, 0xFF, 0xFF, 0x03, 0xF0, 0xFF, 0, 0]
    fat_2 := [0xF0, 0xFF, 0xFF, 0x03, 0xF0, 0xFF, 0, 0]
    root_directory := [entry_A_TXT, entry_B_BIN, entry_end]
    data_area := [11, 12, 13, 14, 21, 22, 23, 24, 31, 32, 33, 34]
    fat_data := [0xFF0, 0xFFF, 3, 0xFFF] }

/-- An open file of 4 bytes at position 0. -/
def four_byte_file : file_t :=
  { data := [10, 20, 30, 40, 0], curr_position := 0, size := 4 }

/-- An open file of 10 bytes at position 2. -/
def ten_byte_file : file_t :=
  { data := [1, 2, 3, 4, 5, 6, 7, 8, 9, 10, 0], curr_position := 2, size := 10 }

/-- The bytes of the `n` blocks of the device that start at block `first`. -/
def disk_sectors (pdisk : disk_t) (first n : Nat) : List Nat :=
  (pdisk.disk.drop (first * pdisk.size_of_block)).take (n * pdisk.size_of_block)

/-- The `n ≥ 1` blocks from block `first` pass the range check of `disk_read`
and are all present in the image file. -/
def sectors_readable (pdisk : disk_t) (first n : Nat) : Prop :=
  0 < n ∧ first + n ≤ pdisk.num_of_blocks ∧
  (first + n) * pdisk.size_of_block ≤ pdisk.disk.length

instance (pdisk : disk_t) (first n : Nat) : Decidable (sectors_readable pdisk first n) := by
  unfold sectors_readable; infer_instance

/-- A boot sector with the given `bytes_per_sector` (as two bytes), one
sector per cluster, one reserved sector, two FATs of one sector, 8 root
entries and 5 sectors in all. -/
def boot_sector (bps_low bps_high : Nat) : List Nat :=
  [0, 0, 0, 0, 0, 0, 0, 0, 0, 0, 0, bps_low, bps_high, 1, 1, 0, 2, 8, 0, 5, 0, 0xF8, 1, 0]
    ++ List.replicate 488 0

/-- A FAT sector that is zero except for the byte `1` at offset 300. -/
def fat_sector_marked : List Nat :=
  List.replicate 300 0 ++ [1] ++ List.replicate 211 0

/-- Image file of five blocks: a boot sector announcing 256-byte sectors,
an all-zero FAT1 block, a FAT2 block that differs from it at offset 300, and
two all-zero blocks for the root directory and the data area. -/
def image_256 : List Nat :=
  boot_sector 0 1 ++ (List.replicate 512 0 ++ (fat_sector_marked ++ List.replicate 1024 0))

/-- Image file of five blocks: a boot sector announcing 512-byte sectors,
an all-zero FAT1 block, a FAT2 block that differs from it at offset 300, and
two all-zero blocks for the root directory and the data area. -/
def image_512 : List Nat :=
  boot_sector 0 2 ++ (List.replicate 512 0 ++ (fat_sector_marked ++ List.replicate 1024 0))

/-! ### Directories -/

/-- `struct my_time_t`; the fields are `uint16_t`. -/
structure my_time_t where
  second : Nat
  minute : Nat
  hour : Nat
  deriving DecidableEq, Repr

/-- `struct my_date_t`; the fields are `uint16_t`. -/
structure my_date_t where
  year : Nat
  month : Nat
  day : Nat
  deriving DecidableEq, Repr

/-- `struct dir_entry_t`. `name` holds the characters stored before the
terminating zero. The field `cluster` is left out: no function writes or
reads it. -/
structure dir_entry_t where
  name : List Nat
  size : Nat
  is_archived : Nat
  is_readonly : Nat
  is_system : Nat
  is_hidden : Nat
  is_directory : Nat
  creation_date : my_date_t
  creation_time : my_time_t
  deriving DecidableEq, Repr

/-- `struct dir_t`; `current` and `num_of_elements` are `int`s. -/
structure dir_t where
  content : List dir_entry_t
  current : Int
  num_of_elements : Int
  deriving DecidableEq, Repr

/-- `extract_bits(number, k, p)`: `((1 << k) - 1) & (number >> (p - 1))`.
Every call passes a non-negative `number`, `1 ≤ p ≤ 12` and `k ≤ 7`, so
neither shift is out of range. -/
def extract_bits (number k p : Nat) : Nat :=
  ((1 <<< k) - 1) &&& (number >>> (p - 1))

/-- `fill_name`: the same two loops and the same test on `file_name[9]` as
`make_name`, writing into `entry->name`. -/
def fill_name (entry : dir_entry_t) (sfn : fat_sfn_t) : dir_entry_t :=
  let base := (sfn.file_name.take 8).takeWhile (fun c => c ≠ 32)
  if sfn.file_name.getD 9 0 = 32 then { entry with name := base }
  else
    { entry with
      name := base ++ [46] ++ ((sfn.file_name.drop 8).take 3).takeWhile (fun c => c ≠ 32) }

/-- `clear_attributes`. -/
def clear_attributes (entry : dir_entry_t) : dir_entry_t :=
  { entry with
    is_archived := 0, is_readonly := 0, is_system := 0, is_hidden := 0, is_directory := 0 }

/-- `fill_attributes`. -/
def fill_attributes (entry : dir_entry_t) (sfn : fat_sfn_t) : dir_entry_t :=
  let e0 := clear_attributes entry
  let e1 := if extract_bits sfn.file_attribute 1 1 ≠ 0 then { e0 with is_readonly := 1 } else e0
  let e2 := if extract_bits sfn.file_attribute 1 2 ≠ 0 then { e1 with is_hidden := 1 } else e1
  let e3 := if extract_bits sfn.file_attribute 1 3 ≠ 0 then { e2 with is_system := 1 } else e2
  let e4 := if extract_bits sfn.file_attribute 1 5 ≠ 0 then { e3 with is_directory := 1 } else e3
  if extract_bits sfn.file_attribute 1 6 ≠ 0 then { e4 with is_archived := 1 } else e4

/-- `fill_date`; the results are stored in `uint16_t` fields. -/
def fill_date (entry : dir_entry_t) (sfn : fat_sfn_t) : dir_entry_t :=
  { entry with
    creation_date :=
      { day := extract_bits sfn.file_creation_date 5 1 % 65536
        month := extract_bits sfn.file_creation_date 4 6 % 65536
        year := (extract_bits sfn.file_creation_date 7 10 + 1980) % 65536 } }

/-- `fill_time`; the results are stored in `uint16_t` fields. -/
def fill_time (entry : dir_entry_t) (sfn : fat_sfn_t) : dir_entry_t :=
  { entry with
    creation_time :=
      { hour := extract_bits sfn.file_creation_time 5 12 % 65536
        minute := extract_bits sfn.file_creation_time 6 6 % 65536
        second := extract_bits sfn.file_creation_time 5 1 % 65536 } }

/-- `fill_dir_entry`. -/
def fill_dir_entry (entry : dir_entry_t) (sfn : fat_sfn_t) : dir_entry_t :=
  fill_time (fill_date (fill_attributes { fill_name entry sfn with size := sfn.file_size } sfn)
    sfn) sfn

/-- Contents of a slot of `content` before `fill_dir_entry` writes it. Every
field of the model is overwritten, so the choice has no effect. -/
def blank_dir_entry : dir_entry_t :=
  { name := [], size := 0, is_archived := 0, is_readonly := 0, is_system := 0,
    is_hidden := 0, is_directory := 0,
    creation_date := { year := 0, month := 0, day := 0 },
    creation_time := { second := 0, minute := 0, hour := 0 } }

/-- The loop of `dir_open` from index `i`, with `n` iterations left before
`i` reaches `root_dir_capacity`; `content` holds the `num_of_elements`
entries filled so far. -/
def dir_open_loop (root_directory : List fat_sfn_t) :
    Nat → Nat → List dir_entry_t → Res (List dir_entry_t)
  | 0, _, content => Res.ok content
  | n + 1, i, content =>
    match root_directory[i]? with
    | none => Res.fault
    | some sfn =>
      if sfn.file_name.getD 0 0 = 0 then Res.ok content
      else if (sfn.file_attribute &&& FAT_ATTRIB_LABEL) ≠ 0 then
        dir_open_loop root_directory n (i + 1) content
      else if sfn.file_name.getD 0 0 = 0xe5 then
        dir_open_loop root_directory n (i + 1) content
      else
        dir_open_loop root_directory n (i + 1)
          (content ++ [fill_dir_entry blank_dir_entry sfn])

/-- `dir_open`; `dir_path` is compared as a C string with `"\\"`. -/
def dir_open (pvolume : volume_t) (dir_path : List Nat) : Res dir_t :=
  if dir_path.takeWhile (fun c => c ≠ 0) ≠ [92] then Res.error ENOENT
  else
    match dir_open_loop pvolume.root_directory pvolume.super_sector.root_dir_capacity 0 [] with
    | Res.ok content =>
      Res.ok { content := content, current := 0, num_of_elements := (content.length : Int) }
    | Res.error e => Res.error e
    | Res.fault => Res.fault
    | Res.timeout => Res.timeout

/-- `dir_read(pdir, pentry)`: the value returned, the directory handle and
the contents of `*pentry` afterwards. -/
def dir_read (pdir : dir_t) (pentry : dir_entry_t) : Res (Int × dir_t × dir_entry_t) :=
  if pdir.current = pdir.num_of_elements then Res.ok (1, pdir, pentry)
  else if pdir.current < 0 then Res.fault
  else
    match pdir.content[pdir.current.toNat]? with
    | none => Res.fault
    | some entry =>
      if INT_LIMIT ≤ pdir.current + 1 then Res.fault
      else Res.ok (0, { pdir with current := pdir.current + 1 }, entry)

/-- The result of the last of `k + 1` successive calls of `dir_read` on the
same handle and out-entry. -/
def dir_read_calls : Nat → dir_t → dir_entry_t → Res (Int × dir_t × dir_entry_t)
  | 0, pdir, pentry => dir_read pdir pentry
  | k + 1, pdir, pentry =>
    match dir_read pdir pentry with
    | Res.ok (_, pdir1, pentry1) => dir_read_calls k pdir1 pentry1
    | Res.error e => Res.error e
    | Res.fault => Res.fault
    | Res.timeout => Res.timeout

/-- Root entry whose name field is `A` with the one-letter extension `C`. -/
def entry_A_C : fat_sfn_t :=
  { file_name := [65, 32, 32, 32, 32, 32, 32, 32, 67, 32, 32], file_attribute := 0x20,
    file_creation_time := 0x0001, file_creation_date := 0, file_first_low := 2, file_size := 1 }

/-- A super-sector that passes validation with `bytes_per_sector = 0`. -/
def zero_sector_size_super : fat_super_t :=
  { bytes_per_sector := 0, sectors_per_cluster := 1, reserved_sectors := 1,
    fat_count := 2, root_dir_capacity := 16, logical_sectors16 := 20,
    sectors_per_fat := 1, logical_sectors32 := 0 }

/-- A byte string without its trailing spaces. -/
def strip_trailing_spaces (l : List Nat) : List Nat :=
  (l.reverse.dropWhile (fun c => c = 32)).reverse

/-- The reconstructed 8.3 name in the words of the specification: the first
8 bytes without trailing spaces, then, unless the next 3 bytes without
trailing spaces are empty, a dot and those bytes. -/
def reconstructed_name (file_name : List Nat) : List Nat :=
  let base := strip_trailing_spaces (file_name.take 8)
  let ext := strip_trailing_spaces ((file_name.drop 8).take 3)
  if ext = [] then base else base ++ [46] ++ ext

/-- Root entry created at 13:37:42, stored as `13 << 11 | 37 << 5 | 21`. -/
def entry_timed : fat_sfn_t :=
  { file_name := [65, 32, 32, 32, 32, 32, 32, 32, 84, 88, 84], file_attribute := 0x20,
    file_creation_time := 27829, file_creation_date := 0, file_first_low := 2, file_size := 1 }

/-- A root entry that a directory listing shows, in the words of the
specification: not deleted (first name byte `0xE5`), not a long-name fragment
(attribute byte `0x0F`) and not a volume label (attribute bit `0x08`). -/
def root_entry_listed (sfn : fat_sfn_t) : Bool :=
  decide (sfn.file_name.getD 0 0 ≠ 0xE5 ∧ sfn.file_attribute ≠ 0x0F ∧
    (sfn.file_attribute &&& 0x08) = 0)

/-- The root entries a listing shows: those with index below the capacity
that precede the first entry whose first name byte is zero and are listed,
in on-disk order. -/
def listed_entries (root_directory : List fat_sfn_t) (capacity : Nat) : List fat_sfn_t :=
  ((root_directory.take capacity).takeWhile (fun sfn => sfn.file_name.getD 0 0 ≠ 0)).filter
    root_entry_listed

/-- Root entry of a deleted file (first name byte `0xE5`). -/
def entry_deleted : fat_sfn_t :=
  { file_name := [0xE5, 69, 76, 32, 32, 32, 32, 32, 32, 32, 32], file_attribute := 0x20,
    file_creation_time := 0, file_creation_date := 0, file_first_low := 3, file_size := 9 }

/-- Root entry of a volume label (attribute `0x08`). -/
def entry_label : fat_sfn_t :=
  { file_name := [76, 65, 66, 69, 76, 32, 32, 32, 32, 32, 32], file_attribute := 0x08,
    file_creation_time := 0, file_creation_date := 0, file_first_low := 0, file_size := 0 }

/-- Root entry of a long-name fragment (attribute `0x0F`). -/
def entry_lfn : fat_sfn_t :=
  { file_name := [65, 97, 0, 98, 0, 99, 0, 100, 0, 101, 0], file_attribute := 0x0F,
    file_creation_time := 0, file_creation_date := 0, file_first_low := 0, file_size := 0 }

/-- Root entry of the directory `SUB` (attribute `0x10`). -/
def entry_SUB : fat_sfn_t :=
  { file_name := [83, 85, 66, 32, 32, 32, 32, 32, 32, 32, 32], file_attribute := 0x10,
    file_creation_time := 0, file_creation_date := 0, file_first_low := 3, file_size := 0 }

/-- The small volume with the root directory `A.TXT`, a deleted entry, a
long-name fragment, a label, `SUB`, the end marker and, after it, `B.BIN`. -/
def listing_volume : volume_t :=
  { small_volume with
    super_sector := { small_volume.super_sector with root_dir_capacity := 7 }
    root_directory :=
      [entry_A_TXT, entry_deleted, entry_lfn, entry_label, entry_SUB, entry_end, entry_B_BIN] }

/-- The decoded entries of the listing of the listing volume. -/
def listing_content : List dir_entry_t :=
  [fill_dir_entry blank_dir_entry entry_A_TXT, fill_dir_entry blank_dir_entry entry_SUB]

/-- The small volume with the chain of `B.BIN` ended by the end-of-chain
value `0xFF8` in the table entry of cluster 2, while table entry 1 holds
`0xFFF`. -/
def marker_volume : volume_t :=
  { small_volume with fat_data := [0xFF0, 0xFFF, 0xFF8, 0xFFF] }

/-- The small volume with the chain of `B.BIN` ended after its first cluster
by the value of table entry 1. -/
def short_chain_volume : volume_t :=
  { small_volume with fat_data := [0xFF0, 0xFFF, 0xFFF, 0xFFF] }

/-- A FAT sector whose three first bytes decode to the entries `0xFF8` and
`0xFFF`. -/
def fat_sector_chain : List Nat :=
  [0xF8, 0xFF, 0xFF] ++ List.replicate 509 0

/-- A root-directory sector with one record, `A.TXT`: archive attribute,
first cluster 2, size 5. -/
def root_sector_sample : List Nat :=
  [65, 32, 32, 32, 32, 32, 32, 32, 84, 88, 84, 0x20, 0, 0, 0, 0, 0, 0, 0, 0, 0, 0, 0, 0, 0, 0,
    2, 0, 5, 0, 0, 0] ++ List.replicate 480 0

/-- A data sector starting with the bytes of `hello`. -/
def data_sector_sample : List Nat :=
  [104, 101, 108, 108, 111] ++ List.replicate 507 0

/-- Image file of five blocks with 512-byte sectors: boot sector, two equal
FAT sectors, one root-directory sector and one data sector (cluster 2). -/
def image_mounted : List Nat :=
  boot_sector 0 2 ++ (fat_sector_chain ++ (fat_sector_chain
    ++ (root_sector_sample ++ data_sector_sample)))

/-- The volume that `fat_open` builds from `image_mounted`. -/
def mounted_sample : volume_t :=
  { super_sector :=
      { bytes_per_sector := 512, sectors_per_cluster := 1, reserved_sectors := 1,
        fat_count := 2, root_dir_capacity := 8, logical_sectors16 := 5,
        sectors_per_fat := 1, logical_sectors32 := 0 }
    geometry :=
      { volume_start := 0, fat_1_position := 1, fat_2_position := 2, rootdir_position := 3,
        rootdir_size := 1, cluster2_position := 4, volume_size := 5, user_space := 1,
        total_clusters := 2 }
    fat_1 := fat_sector_chain
    fat_2 := fat_sector_chain
    root_directory := root_entries root_sector_sample
    data_area := data_sector_sample
    fat_data := [0xFF8, 0xFFF] }

/-- The small volume with a cyclic table: cluster 2 leads to cluster 3 and
cluster 3 back to cluster 2; the value of table entry 1 is never reached. -/
def cyclic_volume : volume_t :=
  { small_volume with fat_data := [0xFF0, 0xFFF, 3, 2] }

/-- A name field that the specification's reconstruction and the source's
agree on: 11 bytes, no space inside the base or inside the extension (spaces
only pad them at the end), and an extension that is empty or has at least
two characters. -/
def name_field_regular (file_name : List Nat) : Prop :=
  file_name.length = 11 ∧
  32 ∉ strip_trailing_spaces (file_name.take 8) ∧
  32 ∉ strip_trailing_spaces ((file_name.drop 8).take 3) ∧
  (strip_trailing_spaces ((file_name.drop 8).take 3)).length ≠ 1

instance (file_name : List Nat) : Decidable (name_field_regular file_name) := by
  unfold name_field_regular; infer_instance

/-- What a directory listing holds for a root entry, field by field in the
words of the specification: the size, the five flags as bits `0x01`, `0x02`,
`0x04`, `0x10` and `0x20` of the attribute byte, the date as bits 0..4, 5..8
and 9..15 (plus 1980) of the stored date, hour and minute as bits 11..15 and
5..10 of the stored time. Two fields are given as the source stores them:
the second is bits 0..4 of the stored time, not doubled, and the name is the
one `make_name` builds, under which `search_for_file` looks the entry up. -/
def root_entry_snapshot (sfn : fat_sfn_t) : dir_entry_t :=
  { name := make_name sfn.file_name
    size := sfn.file_size
    is_archived := sfn.file_attribute / 32 % 2
    is_readonly := sfn.file_attribute % 2
    is_system := sfn.file_attribute / 4 % 2
    is_hidden := sfn.file_attribute / 2 % 2
    is_directory := sfn.file_attribute / 16 % 2
    creation_date :=
      { year := sfn.file_creation_date / 512 % 128 + 1980
        month := sfn.file_creation_date / 32 % 16
        day := sfn.file_creation_date % 32 }
    creation_time :=
      { second := sfn.file_creation_time % 32
        minute := sfn.file_creation_time / 32 % 64
        hour := sfn.file_creation_time / 2048 % 32 } }

/-- Root entry of `NOTES.MD`: read-only and archived, created on 2021-03-15
at 13:37:42 (stored date `41 << 9 | 3 << 5 | 15`, stored time
`13 << 11 | 37 << 5 | 21`), first cluster 2, size 6. -/
def entry_dated : fat_sfn_t :=
  { file_name := [78, 79, 84, 69, 83, 32, 32, 32, 77, 68, 32], file_attribute := 0x21,
    file_creation_time := 27829, file_creation_date := 21103, file_first_low := 2,
    file_size := 6 }

/-- The small volume with the root directory `NOTES.MD`, a deleted entry, a
long-name fragment, a label, `SUB`, the end marker and, after it, `B.BIN`. -/
def dated_listing_volume : volume_t :=
  { small_volume with
    super_sector := { small_volume.super_sector with root_dir_capacity := 7 }
    root_directory :=
      [entry_dated, entry_deleted, entry_lfn, entry_label, entry_SUB, entry_end, entry_B_BIN] }

/-! ## Theorems -/


/-! ### Arithmetic helpers -/

theorem wrap32_of_lt (n : Nat) (h : n < 4294967296) : wrap32 (n : Int) = n := by
  unfold wrap32
  omega

theorem wrap32_eq_mod (n : Nat) : wrap32 (n : Int) = n % 4294967296 := by
  unfold wrap32
  omega

theorem ceil_div_cases (a b : Nat) (hb : 0 < b) :
    (a + b - 1) / b = if a % b ≠ 0 then a / b + 1 else a / b := by
  have h1 := Nat.div_add_mod a b
  have h2 := Nat.mod_lt a hb
  split_ifs with h
  · have : a + b - 1 = (a % b - 1) + b * (a / b + 1) := by
      rw [Nat.mul_add]; omega
    rw [this, Nat.add_mul_div_left _ _ hb, Nat.div_eq_of_lt (by omega)]
    omega
  · simp only [ne_eq, not_not] at h
    have : a + b - 1 = (b - 1) + b * (a / b) := by omega
    rw [this, Nat.add_mul_div_left _ _ hb, Nat.div_eq_of_lt (by omega)]
    omega

/-! ### Super-sector validation and geometry -/

/-- An accepted super-sector has at least one FAT. -/
theorem validate_super_sector_zero_count (super : fat_super_t)
    (h : validate_super_sector super = 0) : 1 ≤ super.fat_count := by
  unfold validate_super_sector at h
  by_cases h1 : super.sectors_per_cluster < 1 ∨ super.sectors_per_cluster > 128
  · rw [if_pos h1] at h
    exact absurd h (by decide)
  · rw [if_neg h1] at h
    by_cases h2 : super.reserved_sectors ≤ 0
    · rw [if_pos h2] at h
      exact absurd h (by decide)
    · rw [if_neg h2] at h
      by_cases h3 : super.fat_count < 1 ∨ super.fat_count > 2
      · rw [if_pos h3] at h
        exact absurd h (by decide)
      · omega

/-- An accepted super-sector has at least one sector per cluster. -/
theorem validate_super_sector_zero_cluster (super : fat_super_t)
    (h : validate_super_sector super = 0) : 1 ≤ super.sectors_per_cluster := by
  unfold validate_super_sector at h
  by_cases h1 : super.sectors_per_cluster < 1 ∨ super.sectors_per_cluster > 128
  · rw [if_pos h1] at h
    exact absurd h (by decide)
  · omega

/-- C2: `validate_super_sector` returns 0 exactly when
`1 ≤ sectors_per_cluster ≤ 128`, `reserved_sectors ≥ 1`, `1 ≤ fat_count ≤ 2`
and exactly one of `logical_sectors16`, `logical_sectors32` is zero; in every
other case it returns a non-zero value. -/
theorem validate_super_sector_accepts_iff (super : fat_super_t) :
    (validate_super_sector super = 0 ↔
      (1 ≤ super.sectors_per_cluster ∧ super.sectors_per_cluster ≤ 128) ∧
      1 ≤ super.reserved_sectors ∧
      (1 ≤ super.fat_count ∧ super.fat_count ≤ 2) ∧
      ((super.logical_sectors16 = 0 ∧ super.logical_sectors32 ≠ 0) ∨
        (super.logical_sectors16 ≠ 0 ∧ super.logical_sectors32 = 0))) ∧
    (validate_super_sector super ≠ 0 ↔
      ¬ ((1 ≤ super.sectors_per_cluster ∧ super.sectors_per_cluster ≤ 128) ∧
      1 ≤ super.reserved_sectors ∧
      (1 ≤ super.fat_count ∧ super.fat_count ≤ 2) ∧
      ((super.logical_sectors16 = 0 ∧ super.logical_sectors32 ≠ 0) ∨
        (super.logical_sectors16 ≠ 0 ∧ super.logical_sectors32 = 0)))) := by
  have key : validate_super_sector super = 0 ↔
      (1 ≤ super.sectors_per_cluster ∧ super.sectors_per_cluster ≤ 128) ∧
      1 ≤ super.reserved_sectors ∧
      (1 ≤ super.fat_count ∧ super.fat_count ≤ 2) ∧
      ((super.logical_sectors16 = 0 ∧ super.logical_sectors32 ≠ 0) ∨
        (super.logical_sectors16 ≠ 0 ∧ super.logical_sectors32 = 0)) := by
    unfold validate_super_sector
    have hx : (xor (decide (super.logical_sectors32 = 0))
        (decide (super.logical_sectors16 = 0)) = true) ↔
        ((super.logical_sectors16 = 0 ∧ super.logical_sectors32 ≠ 0) ∨
          (super.logical_sectors16 ≠ 0 ∧ super.logical_sectors32 = 0)) := by
      by_cases h16 : super.logical_sectors16 = 0 <;>
        by_cases h32 : super.logical_sectors32 = 0 <;> simp [h16, h32]
    by_cases h1 : super.sectors_per_cluster < 1 ∨ super.sectors_per_cluster > 128
    · rw [if_pos h1]
      exact ⟨fun h => absurd h (by decide), fun h => by omega⟩
    rw [if_neg h1]
    by_cases h2 : super.reserved_sectors ≤ 0
    · rw [if_pos h2]
      exact ⟨fun h => absurd h (by decide), fun h => by omega⟩
    rw [if_neg h2]
    by_cases h3 : super.fat_count < 1 ∨ super.fat_count > 2
    · rw [if_pos h3]
      exact ⟨fun h => absurd h (by decide), fun h => by omega⟩
    rw [if_neg h3]
    by_cases h4 : xor (decide (super.logical_sectors32 = 0))
        (decide (super.logical_sectors16 = 0)) = true
    · rw [if_neg (not_not.mpr h4)]
      exact ⟨fun _ => ⟨by omega, by omega, by omega, hx.mp h4⟩, fun _ => rfl⟩
    · rw [if_pos h4]
      exact ⟨fun h => absurd h (by decide), fun h => absurd (hx.mpr h.2.2.2) h4⟩
  exact ⟨key, not_congr key⟩

/-- C5 (as amended): for every super-sector whose fields fit their C types,
with `bytes_per_sector ≥ 1`, `sectors_per_cluster ≥ 1` and
`volume_sectors ≥ reserved_sectors + fat_count * sectors_per_fat + rootdir_sectors`,
`calculate_volume_geometry` yields the stated positions and sizes, and
`total_clusters = (user_sectors / sectors_per_cluster + 1) mod 2 ^ 32`; the
sample super-sector 512/1/1/2/1/16/20 gives 1, 2, 3, 1, 4, 16, 17. -/
theorem calculate_volume_geometry_values (s : fat_super_t) (hr : s.in_range)
    (hb : 1 ≤ s.bytes_per_sector) (hc : 1 ≤ s.sectors_per_cluster)
    (hv : s.reserved_sectors + s.fat_count * s.sectors_per_fat
        + (s.root_dir_capacity * 32 + s.bytes_per_sector - 1) / s.bytes_per_sector
        ≤ (if s.logical_sectors16 ≠ 0 then s.logical_sectors16 else s.logical_sectors32)) :
    calculate_volume_geometry s = Res.ok
      { volume_start := 0
        fat_1_position := s.reserved_sectors
        fat_2_position := s.reserved_sectors + s.sectors_per_fat
        rootdir_position := s.reserved_sectors + s.fat_count * s.sectors_per_fat
        rootdir_size :=
          (s.root_dir_capacity * 32 + s.bytes_per_sector - 1) / s.bytes_per_sector
        cluster2_position := s.reserved_sectors + s.fat_count * s.sectors_per_fat
          + (s.root_dir_capacity * 32 + s.bytes_per_sector - 1) / s.bytes_per_sector
        volume_size :=
          if s.logical_sectors16 ≠ 0 then s.logical_sectors16 else s.logical_sectors32
        user_space :=
          (if s.logical_sectors16 ≠ 0 then s.logical_sectors16 else s.logical_sectors32)
            - s.reserved_sectors - s.fat_count * s.sectors_per_fat
            - (s.root_dir_capacity * 32 + s.bytes_per_sector - 1) / s.bytes_per_sector
        total_clusters :=
          (((if s.logical_sectors16 ≠ 0 then s.logical_sectors16 else s.logical_sectors32)
            - s.reserved_sectors - s.fat_count * s.sectors_per_fat
            - (s.root_dir_capacity * 32 + s.bytes_per_sector - 1) / s.bytes_per_sector)
            / s.sectors_per_cluster + 1) % 4294967296 } ∧
    calculate_volume_geometry sample_super = Res.ok
      { volume_start := 0, fat_1_position := 1, fat_2_position := 2, rootdir_position := 3,
        rootdir_size := 1, cluster2_position := 4, volume_size := 20, user_space := 16,
        total_clusters := 17 } := by
  refine ⟨?_, by decide⟩
  obtain ⟨h1, h2, h3, h4, h5, h6, h7, h8⟩ := hr
  have hp : s.fat_count * s.sectors_per_fat ≤ 255 * 65535 :=
    Nat.mul_le_mul (by omega) (by omega)
  have hceil := ceil_div_cases (s.root_dir_capacity * 32) s.bytes_per_sector hb
  have hq : s.root_dir_capacity * 32 / s.bytes_per_sector ≤ s.root_dir_capacity * 32 :=
    Nat.div_le_self _ _
  generalize hvs : (if s.logical_sectors16 ≠ 0 then s.logical_sectors16
    else s.logical_sectors32) = vs at hv ⊢
  have hvs2 : (if s.logical_sectors16 = 0 then s.logical_sectors32
      else s.logical_sectors16) = vs := by
    rw [← hvs]; split_ifs <;> simp_all
  have hvs3 : vs < 4294967296 := by
    rw [← hvs]; split_ifs <;> omega
  generalize hc0 : (s.root_dir_capacity * 32 + s.bytes_per_sector - 1) / s.bytes_per_sector
    = c at hv hceil ⊢
  generalize hp0 : s.fat_count * s.sectors_per_fat = p at hv hp ⊢
  unfold calculate_volume_geometry
  simp only [sizeof_fat_sfn_t]
  have hrs : (if s.root_dir_capacity * 32 % s.bytes_per_sector ≠ 0 then
        wrap32 (((wrap32 ((s.root_dir_capacity * 32 / s.bytes_per_sector : Nat) : Int) : Nat)
          : Int) + 1)
      else wrap32 ((s.root_dir_capacity * 32 / s.bytes_per_sector : Nat) : Int)) = c := by
    rw [hceil]
    generalize s.root_dir_capacity * 32 / s.bytes_per_sector = q at hq ⊢
    generalize s.root_dir_capacity * 32 % s.bytes_per_sector = r
    split_ifs <;> (unfold wrap32; omega)
  have hprod : ((s.fat_count : Int) * (s.sectors_per_fat : Int)) = (p : Int) := by
    rw [← hp0]; push_cast; rfl
  rw [if_neg (by omega), if_neg (by omega), hrs, hvs2, hprod]
  have hus : wrap32 ((vs : Int) - s.reserved_sectors - p - c)
      = vs - s.reserved_sectors - p - c := by
    unfold wrap32; omega
  rw [hus]
  generalize (vs - s.reserved_sectors - p - c) / s.sectors_per_cluster = d
  refine congrArg Res.ok ?_
  simp only [volume_geometry.mk.injEq, true_and]
  refine ⟨?_, ?_, ?_, ?_, ?_⟩ <;> (unfold wrap32; omega)

/-- Witness for `calculate_volume_geometry_values`: the sample super-sector. -/
theorem calculate_volume_geometry_values_witness :
    sample_super.in_range ∧ 1 ≤ sample_super.bytes_per_sector ∧
    1 ≤ sample_super.sectors_per_cluster ∧
    calculate_volume_geometry sample_super = Res.ok
      { volume_start := 0, fat_1_position := 1, fat_2_position := 2, rootdir_position := 3,
        rootdir_size := 1, cluster2_position := 4, volume_size := 20, user_space := 16,
        total_clusters := 17 } :=
  ⟨by decide, by decide, by decide,
    (calculate_volume_geometry_values sample_super (by decide) (by decide) (by decide)
      (by decide)).2⟩

/-- C5, as stated, fails twice. On the sample super-sector 512/1/1/2/1/16/20
the code gives `user_sectors = 16` and `total_clusters = 17`, not 15 and 16.
On a super-sector that meets the stated premises with
`user_sectors = 2 ^ 32 - 1` and one-sector clusters, `total_clusters` wraps
to 0 instead of being `user_sectors / sectors_per_cluster + 1 = 2 ^ 32`. -/
theorem calculate_volume_geometry_counterexample :
    calculate_volume_geometry sample_super = Res.ok
      { volume_start := 0, fat_1_position := 1, fat_2_position := 2, rootdir_position := 3,
        rootdir_size := 1, cluster2_position := 4, volume_size := 20, user_space := 16,
        total_clusters := 17 } ∧
    calculate_volume_geometry sample_super ≠ Res.ok
      { volume_start := 0, fat_1_position := 1, fat_2_position := 2, rootdir_position := 3,
        rootdir_size := 1, cluster2_position := 4, volume_size := 20, user_space := 15,
        total_clusters := 16 } ∧
    all_user_super.in_range ∧ 1 ≤ all_user_super.bytes_per_sector ∧
    1 ≤ all_user_super.sectors_per_cluster ∧
    all_user_super.reserved_sectors
      + all_user_super.fat_count * all_user_super.sectors_per_fat + 0
      ≤ all_user_super.logical_sectors32 ∧
    calculate_volume_geometry all_user_super = Res.ok
      { volume_start := 0, fat_1_position := 0, fat_2_position := 0, rootdir_position := 0,
        rootdir_size := 0, cluster2_position := 0, volume_size := 4294967295,
        user_space := 4294967295, total_clusters := 0 } ∧
    (0 : Nat) ≠ 4294967295 / all_user_super.sectors_per_cluster + 1 := by
  decide

/-! ### FAT12 decoding -/

theorem fat12_entry_even_lt (b0 b1 : Nat) (h0 : b0 < 256) :
    fat12_entry_even b0 b1 < 65536 := by
  unfold fat12_entry_even
  have h1 : b1 &&& 0x0F < 2 ^ 4 := Nat.and_lt_two_pow b1 (by decide)
  have h2 : (b1 &&& 0x0F) <<< 8 < 2 ^ 16 := by
    rw [Nat.shiftLeft_eq]; omega
  exact Nat.or_lt_two_pow h2 (by omega)

theorem fat12_entry_odd_lt (b1 b2 : Nat) (h2 : b2 < 256) :
    fat12_entry_odd b1 b2 < 65536 := by
  unfold fat12_entry_odd
  have h1 : b1 &&& 0xF0 < 2 ^ 8 := Nat.and_lt_two_pow b1 (by decide)
  have h3 : (b1 &&& 0xF0) >>> 4 < 2 ^ 16 := by
    rw [Nat.shiftRight_eq_div_pow]; omega
  have h4 : b2 <<< 4 < 2 ^ 16 := by
    rw [Nat.shiftLeft_eq]; omega
  exact Nat.or_lt_two_pow h4 h3

/-- Invariant of the decoding loop: started at group `k` with the `2 * k`
slots of the earlier groups written, it returns, keeps those slots and
writes the two entries of every later group. -/
theorem read_fat_data_loop_spec (fat_1 : List Nat) (total : Nat)
    (hbytes : ∀ b ∈ fat_1, b < 256)
    (hlen : 3 * ((total + 1) / 2) ≤ fat_1.length)
    (h32 : fat_1.length ≤ 4294967296) :
    ∀ (n k : Nat) (acc : List Nat), total ≤ 2 * k + 2 * n → 2 * k ≤ total + 1 →
      acc.length = 2 * k →
      ∃ slots, read_fat_data_loop fat_1 total n (2 * k) (3 * k) acc = Res.ok slots ∧
        slots.length = 2 * ((total + 1) / 2) ∧
        (∀ m, m < acc.length → slots[m]? = acc[m]?) ∧
        ∀ g, k ≤ g → 2 * g < total →
          slots[2 * g]? = some (fat12_entry_even (fat_1.getD (3 * g) 0)
            (fat_1.getD (3 * g + 1) 0)) ∧
          slots[2 * g + 1]? = some (fat12_entry_odd (fat_1.getD (3 * g + 1) 0)
            (fat_1.getD (3 * g + 2) 0)) := by
  intro n
  induction n with
  | zero =>
    intro k acc hn hk hacc
    refine ⟨acc, ?_, by omega, fun m _ => rfl, fun g hg hg2 => by omega⟩
    simp only [read_fat_data_loop]
    rw [if_neg (by omega)]
  | succ n ih =>
    intro k acc hn hk hacc
    by_cases hlt : 2 * k < total
    · have hj0 : (3 * k + 0) % 4294967296 = 3 * k := by omega
      have hj1 : (3 * k + 1) % 4294967296 = 3 * k + 1 := by omega
      have hj2 : (3 * k + 2) % 4294967296 = 3 * k + 2 := by omega
      have hi : (2 * k + 2) % 4294967296 = 2 * (k + 1) := by omega
      have hj : (3 * k + 3) % 4294967296 = 3 * (k + 1) := by omega
      have e0 : fat_1[3 * k]? = some (fat_1.getD (3 * k) 0) := by
        rw [List.getD_eq_getElem?_getD, List.getElem?_eq_getElem (by omega)]; rfl
      have e1 : fat_1[3 * k + 1]? = some (fat_1.getD (3 * k + 1) 0) := by
        rw [List.getD_eq_getElem?_getD, List.getElem?_eq_getElem (by omega)]; rfl
      have e2 : fat_1[3 * k + 2]? = some (fat_1.getD (3 * k + 2) 0) := by
        rw [List.getD_eq_getElem?_getD, List.getElem?_eq_getElem (by omega)]; rfl
      have hb0 : fat_1.getD (3 * k) 0 < 256 := by
        rw [List.getD_eq_getElem?_getD, List.getElem?_eq_getElem (by omega)]
        exact hbytes _ (List.getElem_mem _)
      have hb2 : fat_1.getD (3 * k + 2) 0 < 256 := by
        rw [List.getD_eq_getElem?_getD, List.getElem?_eq_getElem (by omega)]
        exact hbytes _ (List.getElem_mem _)
      have hc0 := fat12_entry_even_lt (fat_1.getD (3 * k) 0) (fat_1.getD (3 * k + 1) 0) hb0
      have hc1 := fat12_entry_odd_lt (fat_1.getD (3 * k + 1) 0) (fat_1.getD (3 * k + 2) 0) hb2
      obtain ⟨slots, hrun, hl, hkeep, hlater⟩ :=
        ih (k + 1)
          (acc ++ [fat12_entry_even (fat_1.getD (3 * k) 0) (fat_1.getD (3 * k + 1) 0),
            fat12_entry_odd (fat_1.getD (3 * k + 1) 0) (fat_1.getD (3 * k + 2) 0)])
          (by omega) (by omega) (by simp [hacc]; omega)
      refine ⟨slots, ?_, hl, ?_, ?_⟩
      · simp only [read_fat_data_loop]
        rw [if_pos hlt, hj0, hj1, hj2, e0, e1, e2, hi, hj]
        simp only []
        rw [← hrun]
        unfold fat12_entry_even at hc0
        unfold fat12_entry_odd at hc1
        unfold fat12_entry_even fat12_entry_odd
        rw [Nat.mod_eq_of_lt hc0, Nat.mod_eq_of_lt hc1]
      · intro m hm
        rw [hkeep m (by simp; omega), List.getElem?_append_left hm]
      · intro g hg hg2
        by_cases hgk : g = k
        · subst hgk
          constructor
          · rw [hkeep (2 * g) (by simp; omega), List.getElem?_append_right (by omega)]
            simp [hacc]
          · rw [hkeep (2 * g + 1) (by simp; omega), List.getElem?_append_right (by omega)]
            simp [hacc]
        · exact hlater g (by omega) hg2
    · refine ⟨acc, ?_, by omega, fun m _ => rfl, fun g hg hg2 => by omega⟩
      simp only [read_fat_data_loop]
      rw [if_neg hlt]

/-- C6: for every FAT byte array (bytes below 256, holding the three bytes of
every group the loop visits) and every group `g` whose two slots `2 * g` and
`2 * g + 1` lie inside the `total_clusters` slots of the table, the loop of
`read_fat_data` returns and has set slot `2 * g` to `((b1 & 0x0F) << 8) | b0`
and slot `2 * g + 1` to `(b2 << 4) | ((b1 & 0xF0) >> 4)`, where `b0, b1, b2`
are the FAT bytes at offsets `3 * g`, `3 * g + 1`, `3 * g + 2`; these slots
are the table `read_fat_data` returns when `total_clusters` is even. The
bytes `0x34, 0x12, 0xAB` decode to `0x234, 0xAB1`. -/
theorem read_fat_data_decodes_group (fat_1 : List Nat) (geometry : volume_geometry) (g : Nat)
    (hbytes : ∀ b ∈ fat_1, b < 256)
    (hlen : 3 * ((geometry.total_clusters + 1) / 2) ≤ fat_1.length)
    (h32 : fat_1.length ≤ 4294967296)
    (hg : 2 * g + 1 < geometry.total_clusters) :
    (∃ slots b0 b1 b2,
      read_fat_data_loop fat_1 geometry.total_clusters geometry.total_clusters 0 0 []
        = Res.ok slots ∧
      fat_1[3 * g]? = some b0 ∧ fat_1[3 * g + 1]? = some b1 ∧ fat_1[3 * g + 2]? = some b2 ∧
      slots[2 * g]? = some (fat12_entry_even b0 b1) ∧
      slots[2 * g + 1]? = some (fat12_entry_odd b1 b2) ∧
      (geometry.total_clusters % 2 = 0 → read_fat_data fat_1 geometry = Res.ok slots)) ∧
    read_fat_data [0x34, 0x12, 0xAB] (geometry_with_total 2) = Res.ok [0x234, 0xAB1] := by
  refine ⟨?_, by decide⟩
  obtain ⟨slots, hrun, hl, -, hlater⟩ :=
    read_fat_data_loop_spec fat_1 geometry.total_clusters hbytes hlen h32
      geometry.total_clusters 0 [] (by omega) (by omega) rfl
  have hin0 : 3 * g < fat_1.length := by omega
  have hin1 : 3 * g + 1 < fat_1.length := by omega
  have hin2 : 3 * g + 2 < fat_1.length := by omega
  refine ⟨slots, fat_1.getD (3 * g) 0, fat_1.getD (3 * g + 1) 0, fat_1.getD (3 * g + 2) 0,
    hrun, ?_, ?_, ?_, (hlater g (by omega) (by omega)).1, (hlater g (by omega) (by omega)).2, ?_⟩
  · rw [List.getD_eq_getElem?_getD, List.getElem?_eq_getElem hin0]; rfl
  · rw [List.getD_eq_getElem?_getD, List.getElem?_eq_getElem hin1]; rfl
  · rw [List.getD_eq_getElem?_getD, List.getElem?_eq_getElem hin2]; rfl
  · intro heven
    unfold read_fat_data
    rw [hrun]
    simp only []
    rw [if_neg (by omega)]

/-- Witness for `read_fat_data_decodes_group`: the three bytes of the
specification's decoding example, as a table of two slots. -/
theorem read_fat_data_decodes_group_witness :
    (∀ b ∈ [0x34, 0x12, 0xAB], b < 256) ∧
    2 * 0 + 1 < (geometry_with_total 2).total_clusters ∧
    ∃ slots b0 b1 b2,
      read_fat_data_loop [0x34, 0x12, 0xAB] (geometry_with_total 2).total_clusters
        (geometry_with_total 2).total_clusters 0 0 [] = Res.ok slots ∧
      [0x34, 0x12, 0xAB][3 * 0]? = some b0 ∧ [0x34, 0x12, 0xAB][3 * 0 + 1]? = some b1 ∧
      [0x34, 0x12, 0xAB][3 * 0 + 2]? = some b2 ∧
      slots[2 * 0]? = some (fat12_entry_even b0 b1) ∧
      slots[2 * 0 + 1]? = some (fat12_entry_odd b1 b2) ∧
      ((geometry_with_total 2).total_clusters % 2 = 0 →
        read_fat_data [0x34, 0x12, 0xAB] (geometry_with_total 2) = Res.ok slots) :=
  ⟨by decide, by decide,
    (read_fat_data_decodes_group [0x34, 0x12, 0xAB] (geometry_with_total 2) 0
      (by decide) (by decide) (by decide) (by decide)).1⟩

/-! ### Reading and seeking -/

/-- C7: reading two elements of two bytes from the payload `10, 20, 30, 40`
returns 2 but leaves `10, 30, 40` in the first three bytes of the destination
and does not touch the fourth: byte `j` of element `i` is stored at offset
`i + j`, not `i * size + j`. -/
theorem file_read_two_byte_elements_overlap :
    file_read [0, 0, 0, 0] 2 2 four_byte_file =
      Res.ok (2, [10, 30, 40, 0], { four_byte_file with curr_position := 4 }) ∧
    [10, 30, 40, 0] ≠ four_byte_file.data.take 4 := by
  decide

/-- C9: on a file of 10 bytes, `SEEK_SET` with offset -5 is accepted and
moves the position to -5, `SEEK_END` with offset 5 is accepted and moves the
position to 15, and `SEEK_CUR` with offset -3 from position 2 moves the
position to -1; none of the three sets `errno`. -/
theorem file_seek_accepts_positions_outside_file :
    file_seek ten_byte_file (-5) SEEK_SET 0 =
      Res.ok (-5, { ten_byte_file with curr_position := -5 }, 0) ∧
    file_seek ten_byte_file 5 SEEK_END 0 =
      Res.ok (15, { ten_byte_file with curr_position := 15 }, 0) ∧
    file_seek ten_byte_file (-3) SEEK_CUR 0 =
      Res.ok (-1, { ten_byte_file with curr_position := -1 }, 0) := by
  decide

/-- The inner loop of `file_read` on a position inside the payload: it
copies the whole element when `n` bytes are left before the end of the file,
and otherwise stops at the end of the file and leaves the function. -/
theorem file_read_bytes_spec (data : List Nat) (sz i : Nat)
    (hdata : sz ≤ data.length) (hint : sz < 2147483648) :
    ∀ (n j p : Nat) (ptr : List Nat), p ≤ sz → i + j + n ≤ ptr.length →
      ∃ ptr1, ptr1.length = ptr.length ∧
        file_read_bytes data (sz : Int) i n j (p : Int) ptr
          = Res.ok (decide (p + n ≤ sz), ((min (p + n) sz : Nat) : Int), ptr1) := by
  intro n
  induction n with
  | zero =>
    intro j p ptr hp _
    refine ⟨ptr, rfl, ?_⟩
    simp only [file_read_bytes, Nat.add_zero, hp, decide_True, Nat.min_eq_left]
  | succ n ih =>
    intro j p ptr hp hroom
    simp only [file_read_bytes]
    by_cases heq : p = sz
    · subst heq
      refine ⟨ptr, rfl, ?_⟩
      rw [if_pos rfl]
      have h1 : ¬ (p + (n + 1) ≤ p) := by omega
      have h2 : min (p + (n + 1)) p = p := by omega
      rw [h2]
      simp only [h1, decide_False]
    · have hlt : p < sz := by omega
      rw [if_neg (by omega), if_neg (by omega)]
      have hget : data[((p : Nat) : Int).toNat]? = some (data.getD p 0) := by
        rw [Int.toNat_ofNat, List.getD_eq_getElem?_getD,
          List.getElem?_eq_getElem (by omega)]
        rfl
      rw [hget]
      simp only [INT_LIMIT]
      rw [if_neg (by omega), if_neg (by omega)]
      obtain ⟨ptr1, hl, hrun⟩ := ih (j + 1) (p + 1) (ptr.set (i + j) (data.getD p 0))
        (by omega) (by rw [List.length_set]; omega)
      refine ⟨ptr1, by rw [hl, List.length_set], ?_⟩
      have e1 : ((p : Int) + 1) = ((p + 1 : Nat) : Int) := by push_cast; rfl
      rw [e1, hrun]
      have e2 : p + 1 + n = p + (n + 1) := by omega
      rw [e2]

/-- The outer loop of `file_read` on a position inside the payload returns
the counter increased by the number of whole elements left, at most `n`. -/
theorem file_read_elems_spec (data : List Nat) (sz es : Nat)
    (hdata : sz ≤ data.length) (hint : sz < 2147483648) (hes : 1 ≤ es) :
    ∀ (n i p : Nat) (ptr : List Nat) (r : Nat), p ≤ sz → r + (sz - p) < 2147483648 →
      (n = 0 ∨ i + n + es ≤ ptr.length + 1) →
      ∃ ptr1 p1, ptr1.length = ptr.length ∧ p ≤ p1 ∧ p1 ≤ sz ∧
        file_read_elems data (sz : Int) es n i (p : Int) ptr (r : Int)
          = Res.ok (((r + min n ((sz - p) / es) : Nat) : Int), ((p1 : Nat) : Int), ptr1) := by
  intro n
  induction n with
  | zero =>
    intro i p ptr r hp _ _
    exact ⟨ptr, p, rfl, Nat.le_refl _, hp, by simp [file_read_elems]⟩
  | succ n ih =>
    intro i p ptr r hp hr hroom
    simp only [file_read_elems]
    by_cases heq : p = sz
    · subst heq
      refine ⟨ptr, p, rfl, Nat.le_refl _, Nat.le_refl _, ?_⟩
      rw [if_pos rfl]
      simp
    · have hlt : p < sz := by omega
      rw [if_neg (by omega)]
      obtain ⟨ptr1, hl1, hrun⟩ :=
        file_read_bytes_spec data sz i hdata hint es 0 p ptr hp (by omega)
      rw [hrun]
      by_cases hfit : p + es ≤ sz
      · have hdiv : (sz - p) / es = (sz - (p + es)) / es + 1 := by
          rw [Nat.div_eq (sz - p) es, if_pos ⟨by omega, by omega⟩]
          congr 2
          omega
        simp only [hfit, decide_True, INT_LIMIT]
        rw [if_neg (by omega), Nat.min_eq_left hfit]
        obtain ⟨ptr2, p2, hl2, hp2, hp2s, hrun2⟩ :=
          ih (i + 1) (p + es) ptr1 (r + 1) hfit (by omega) (by omega)
        refine ⟨ptr2, p2, by rw [hl2, hl1], by omega, hp2s, ?_⟩
        have e1 : ((r : Int) + 1) = ((r + 1 : Nat) : Int) := by push_cast; rfl
        rw [e1, hrun2, hdiv]
        congr 3
        omega
      · have hdiv : (sz - p) / es = 0 := Nat.div_eq_of_lt (by omega)
        simp only [hfit, decide_False]
        refine ⟨ptr1, min (p + es) sz, hl1, by omega, by omega, ?_⟩
        rw [hdiv]
        simp

/-- The inner loop of `file_read` only depends on the bytes of the buffer
below `size`. -/
theorem file_read_bytes_congr (data data1 : List Nat) (sz i : Nat)
    (hsame : ∀ k, k < sz → data[k]? = data1[k]?) :
    ∀ (n j p : Nat) (ptr : List Nat), p ≤ sz →
      file_read_bytes data (sz : Int) i n j (p : Int) ptr
        = file_read_bytes data1 (sz : Int) i n j (p : Int) ptr := by
  intro n
  induction n with
  | zero => intro j p ptr _; rfl
  | succ n ih =>
    intro j p ptr hp
    simp only [file_read_bytes]
    by_cases heq : p = sz
    · subst heq
      rw [if_pos rfl, if_pos rfl]
    · have e1 : ((p : Int) + 1) = ((p + 1 : Nat) : Int) := by push_cast; rfl
      rw [if_neg (by omega), if_neg (by omega), if_neg (by omega), if_neg (by omega),
        Int.toNat_ofNat, hsame p (by omega), e1]
      cases data1[p]? with
      | none => rfl
      | some b =>
        simp only []
        rw [ih (j + 1) (p + 1) (ptr.set (i + j) b) (by omega)]

/-- The outer loop of `file_read` only depends on the bytes of the buffer
below `size`. -/
theorem file_read_elems_congr (data data1 : List Nat) (sz es : Nat)
    (hdata : sz ≤ data1.length) (hint : sz < 2147483648)
    (hsame : ∀ k, k < sz → data[k]? = data1[k]?) :
    ∀ (n i p : Nat) (ptr : List Nat) (r : Int), p ≤ sz →
      (n = 0 ∨ i + n + es ≤ ptr.length + 1) →
      file_read_elems data (sz : Int) es n i (p : Int) ptr r
        = file_read_elems data1 (sz : Int) es n i (p : Int) ptr r := by
  intro n
  induction n with
  | zero => intro i p ptr r _ _; rfl
  | succ n ih =>
    intro i p ptr r hp hroom
    simp only [file_read_elems]
    rw [file_read_bytes_congr data data1 sz i hsame es 0 p ptr hp]
    by_cases heq : p = sz
    · subst heq
      rw [if_pos rfl, if_pos rfl]
    · rw [if_neg (by omega), if_neg (by omega)]
      obtain ⟨ptr1, hl1, hrun⟩ :=
        file_read_bytes_spec data1 sz i hdata hint es 0 p ptr hp (by omega)
      rw [hrun]
      by_cases hfit : p + es ≤ sz
      · simp only [hfit, decide_True]
        rw [Nat.min_eq_left hfit, ih (i + 1) (p + es) ptr1 (r + 1) hfit (by omega)]
      · simp only [hfit, decide_False]

/-- C8: for every file handle with `0 ≤ pos ≤ size` whose buffer holds the
`size` payload bytes, every element size `sz ≥ 1` and every count `n` (the
destination having room for `n * sz` bytes), `file_read` returns exactly
`min n ((size - pos) / sz)`. It reads no payload byte at an index `≥ size`:
the call gives the same result on the handle whose buffer is cut down to its
first `size` bytes, where such a read would be a fault. -/
theorem file_read_returns_whole_elements (ptr : List Nat) (size nmemb : Nat)
    (stream : file_t)
    (hpos : 0 ≤ stream.curr_position) (hle : stream.curr_position ≤ stream.size)
    (hint : stream.size < 2147483648)
    (hdata : stream.size ≤ stream.data.length)
    (hsz : 1 ≤ size) (hroom : nmemb * size ≤ ptr.length) :
    ∃ ptr1 pos1,
      file_read ptr size nmemb stream =
        Res.ok (((min nmemb ((stream.size - stream.curr_position).toNat / size) : Nat) : Int),
          ptr1, { stream with curr_position := pos1 }) ∧
      file_read ptr size nmemb { stream with data := stream.data.take stream.size.toNat } =
        Res.ok (((min nmemb ((stream.size - stream.curr_position).toNat / size) : Nat) : Int),
          ptr1, { stream with data := stream.data.take stream.size.toNat,
                              curr_position := pos1 }) ∧
      stream.curr_position ≤ pos1 ∧ pos1 ≤ stream.size := by
  obtain ⟨data, pos, sz⟩ := stream
  simp only at hpos hle hint hdata ⊢
  obtain ⟨p, rfl⟩ := Int.eq_ofNat_of_zero_le hpos
  obtain ⟨s, rfl⟩ := Int.eq_ofNat_of_zero_le (le_trans hpos hle)
  have hps : p ≤ s := by omega
  have hs : s < 2147483648 := by omega
  have hd : s ≤ data.length := by omega
  have hroom2 : nmemb = 0 ∨ 0 + nmemb + size ≤ ptr.length + 1 := by
    rcases Nat.eq_zero_or_pos nmemb with h0 | h0
    · exact Or.inl h0
    · right
      obtain ⟨a, rfl⟩ : ∃ a, nmemb = a + 1 := ⟨nmemb - 1, by omega⟩
      obtain ⟨b, rfl⟩ : ∃ b, size = b + 1 := ⟨size - 1, by omega⟩
      have : (a + 1) * (b + 1) = a * b + a + b + 1 := by ring
      have hab : 0 ≤ a * b := Nat.zero_le _
      omega
  obtain ⟨ptr1, p1, -, hp1, hp1s, hrun⟩ :=
    file_read_elems_spec data s size hd hs hsz nmemb 0 p ptr 0 hps (by omega) hroom2
  have hsub : ((s : Int) - (p : Int)).toNat = s - p := by omega
  have htake : ∀ k, k < s → data[k]? = (data.take s)[k]? := by
    intro k hk
    rw [List.getElem?_take_of_lt hk]
  have hrun2 := file_read_elems_congr data (data.take s) s size
    (by rw [List.length_take]; omega) hs htake nmemb 0 p ptr 0 hps hroom2
  refine ⟨ptr1, (p1 : Int), ?_, ?_, by omega, by omega⟩
  · unfold file_read
    simp only [hsub]
    have e0 : ((0 : Nat) : Int) = 0 := rfl
    rw [e0] at hrun
    rw [hrun]
    simp
  · unfold file_read
    simp only [hsub, Int.toNat_ofNat]
    have e0 : ((0 : Nat) : Int) = 0 := rfl
    rw [e0] at hrun
    rw [← hrun2, hrun]
    simp

/-- Witness for `file_read_returns_whole_elements`: three 3-byte elements
asked of the 10-byte file at position 2; two whole elements are left. -/
theorem file_read_returns_whole_elements_witness :
    (0 ≤ ten_byte_file.curr_position ∧ ten_byte_file.curr_position ≤ ten_byte_file.size) ∧
    file_read (List.replicate 9 0) 3 3 ten_byte_file =
      Res.ok (2, [3, 6, 9, 10, 0, 0, 0, 0, 0], { ten_byte_file with curr_position := 10 }) ∧
    ∃ ptr1 pos1,
      file_read (List.replicate 9 0) 3 3 ten_byte_file =
        Res.ok (((min 3 ((ten_byte_file.size - ten_byte_file.curr_position).toNat / 3)
          : Nat) : Int), ptr1, { ten_byte_file with curr_position := pos1 }) ∧
      file_read (List.replicate 9 0) 3 3
          { ten_byte_file with data := ten_byte_file.data.take ten_byte_file.size.toNat } =
        Res.ok (((min 3 ((ten_byte_file.size - ten_byte_file.curr_position).toNat / 3)
          : Nat) : Int), ptr1,
          { ten_byte_file with data := ten_byte_file.data.take ten_byte_file.size.toNat,
                               curr_position := pos1 }) ∧
      ten_byte_file.curr_position ≤ pos1 ∧ pos1 ≤ ten_byte_file.size :=
  ⟨by decide, by decide,
    file_read_returns_whole_elements (List.replicate 9 0) 3 3 ten_byte_file
      (by decide) (by decide) (by decide) (by decide) (by decide) (by decide)⟩

/-! ### Lookup by name -/

/-- C10: in a root directory whose first entry is `A.TXT`, the query `A`, a
proper prefix of that name, is answered with that entry. -/
theorem search_for_file_matches_proper_prefix :
    make_name entry_A_TXT.file_name = [65, 46, 84, 88, 84] ∧
    search_for_file small_volume [65] = Res.ok (some (0, entry_A_TXT)) ∧
    search_for_file small_volume [] = Res.ok (some (0, entry_A_TXT)) := by
  decide

/-! ### Building the payload of a file -/

/-- The sample volume is what its super-sector and FAT bytes decode to. -/
theorem small_volume_consistent :
    validate_super_sector small_volume.super_sector = 0 ∧
    calculate_volume_geometry small_volume.super_sector = Res.ok small_volume.geometry ∧
    read_fat_data small_volume.fat_1 small_volume.geometry = Res.ok small_volume.fat_data := by
  decide

theorem cluster_byte_index_eq (pvolume : volume_t) (c i : Nat) (hc : 2 ≤ c)
    (h : (c - 2) * (pvolume.super_sector.bytes_per_sector
      * pvolume.super_sector.sectors_per_cluster) + i < 4294967296) :
    cluster_byte_index pvolume c i =
      (c - 2) * (pvolume.super_sector.bytes_per_sector
        * pvolume.super_sector.sectors_per_cluster) + i := by
  unfold cluster_byte_index
  have e : ((c : Int) - 2) * pvolume.super_sector.bytes_per_sector
      * pvolume.super_sector.sectors_per_cluster + i
      = (((c - 2) * (pvolume.super_sector.bytes_per_sector
        * pvolume.super_sector.sectors_per_cluster) + i : Nat) : Int) := by
    push_cast [Nat.cast_sub hc]
    ring
  rw [e, wrap32_of_lt _ h]

/-- The copy loop returns the bytes of the cluster when they all lie inside
the data area. -/
theorem copy_cluster_bytes_spec (pvolume : volume_t) (c : Nat) (hc : 2 ≤ c)
    (h32 : pvolume.data_area.length ≤ 4294967296) :
    ∀ (count i : Nat),
      (∀ r, r < count → (c - 2) * (pvolume.super_sector.bytes_per_sector
        * pvolume.super_sector.sectors_per_cluster) + (i + r) < pvolume.data_area.length) →
      ∃ bs, copy_cluster_bytes pvolume c count i = some bs ∧ bs.length = count ∧
        ∀ r, r < count → bs[r]? = pvolume.data_area[(c - 2)
          * (pvolume.super_sector.bytes_per_sector
            * pvolume.super_sector.sectors_per_cluster) + (i + r)]? := by
  intro count
  induction count with
  | zero =>
    intro i _
    exact ⟨[], rfl, rfl, fun r hr => by omega⟩
  | succ n ih =>
    intro i hin
    have h0 := hin 0 (by omega)
    obtain ⟨bs, hbs, hl, hget⟩ := ih (i + 1) (fun r hr => by
      have := hin (r + 1) (by omega)
      rw [show i + 1 + r = i + (r + 1) by omega]
      exact this)
    have hidx := cluster_byte_index_eq pvolume c i hc (by omega)
    simp only [Nat.add_zero] at h0
    refine ⟨pvolume.data_area[(c - 2) * (pvolume.super_sector.bytes_per_sector
      * pvolume.super_sector.sectors_per_cluster) + i] :: bs, ?_, by simp [hl], ?_⟩
    · simp only [copy_cluster_bytes]
      rw [hidx, List.getElem?_eq_getElem h0, hbs]
    · intro r hr
      cases r with
      | zero => simp [List.getElem?_eq_getElem h0]
      | succ r =>
        have := hget r (by omega)
        simp only [List.getElem?_cons_succ]
        rw [this, show i + 1 + r = i + (r + 1) by omega]

theorem toInt32_of_lt (n : Nat) (h : n < 2147483648) : toInt32 n = (n : Int) := by
  unfold toInt32
  rw [Nat.mod_eq_of_lt (by omega), if_pos h]

/-- `memcmp` over `n` bytes that both buffers hold returns a value, which is
zero exactly when the two ranges are equal. -/
theorem memcmp_spec : ∀ (n : Nat) (a b : List Nat), n ≤ a.length → n ≤ b.length →
    ∃ r, memcmp a b n = some r ∧ (r = 0 ↔ a.take n = b.take n) := by
  intro n
  induction n with
  | zero => intro a b _ _; exact ⟨0, by simp [memcmp], by simp⟩
  | succ n ih =>
    intro a b ha hb
    cases a with
    | nil => simp at ha
    | cons x a =>
      cases b with
      | nil => simp at hb
      | cons y b =>
        simp only [List.length_cons] at ha hb
        by_cases hxy : x = y
        · subst hxy
          obtain ⟨r, hr, hiff⟩ := ih a b (by omega) (by omega)
          refine ⟨r, by simp [memcmp, hr], ?_⟩
          simp [hiff]
        · refine ⟨if x < y then -1 else 1, by simp [memcmp, hxy], ?_⟩
          constructor
          · intro h; split_ifs at h; omega
          · intro h
            simp only [List.take_succ_cons, List.cons.injEq] at h
            exact absurd h.1 hxy

/-- When `memcmp` returns zero, both buffers hold the `n` bytes compared and
agree on them. -/
theorem memcmp_zero : ∀ (n : Nat) (a b : List Nat), memcmp a b n = some 0 →
    n ≤ a.length ∧ n ≤ b.length ∧ a.take n = b.take n := by
  intro n
  induction n with
  | zero => intro a b _; simp
  | succ n ih =>
    intro a b h
    cases a with
    | nil => simp [memcmp] at h
    | cons x a =>
      cases b with
      | nil => simp [memcmp] at h
      | cons y b =>
        simp only [memcmp] at h
        by_cases hxy : x = y
        · subst hxy
          rw [if_pos rfl] at h
          obtain ⟨h1, h2, h3⟩ := ih a b h
          exact ⟨by simp only [List.length_cons]; omega,
            by simp only [List.length_cons]; omega, by simp only [List.take_succ_cons, h3]⟩
        · rw [if_neg hxy] at h
          split_ifs at h <;> simp at h

/-- A readable range of 512-byte blocks is delivered whole by `disk_read`. -/
theorem disk_read_readable (pdisk : disk_t) (first n : Nat)
    (hblk : pdisk.size_of_block = 512) (hfirst : first < 4194304)
    (hr : sectors_readable pdisk first n) :
    disk_read pdisk (first : Int) (n : Int) = Res.ok ((n : Int), disk_sectors pdisk first n) ∧
    (disk_sectors pdisk first n).length = n * 512 := by
  obtain ⟨hn, hblocks, hlen⟩ := hr
  rw [hblk] at hlen
  have hcount : min n ((pdisk.disk.drop (first * 512)).length / 512) = n := by
    rw [List.length_drop]
    have : n ≤ (pdisk.disk.length - first * 512) / 512 := by omega
    omega
  constructor
  · unfold disk_read disk_sectors
    simp only [INT_LIMIT, hblk]
    rw [if_neg (by omega), if_neg (by omega), if_neg (by omega)]
    simp only [Int.toNat_ofNat]
    rw [hcount]
  · unfold disk_sectors
    rw [hblk, List.length_take, List.length_drop]
    omega

theorem le16_lt (b : List Nat) (off : Nat) (hb : ∀ x ∈ b, x < 256) : le16 b off < 65536 := by
  unfold le16
  have h : ∀ i, b.getD i 0 < 256 := by
    intro i
    rw [List.getD_eq_getElem?_getD]
    cases hi : b[i]? with
    | none => simp
    | some x => exact hb x (List.getElem?_mem hi)
  have h0 := h off
  have h1 := h (off + 1)
  omega

theorem le32_lt (b : List Nat) (off : Nat) (hb : ∀ x ∈ b, x < 256) :
    le32 b off < 4294967296 := by
  unfold le32
  have h : ∀ i, b.getD i 0 < 256 := by
    intro i
    rw [List.getD_eq_getElem?_getD]
    cases hi : b[i]? with
    | none => simp
    | some x => exact hb x (List.getElem?_mem hi)
  have h0 := h off
  have h1 := h (off + 1)
  have h2 := h (off + 2)
  have h3 := h (off + 3)
  omega

/-- A super-sector decoded from bytes has every field inside its C type. -/
theorem of_bytes_in_range (b : List Nat) (hb : ∀ x ∈ b, x < 256) :
    (fat_super_t.of_bytes b).in_range := by
  have h : ∀ i, b.getD i 0 < 256 := by
    intro i
    rw [List.getD_eq_getElem?_getD]
    cases hi : b[i]? with
    | none => simp
    | some x => exact hb x (List.getElem?_mem hi)
  unfold fat_super_t.in_range fat_super_t.of_bytes
  exact ⟨le16_lt b 11 hb, h 13, le16_lt b 14 hb, h 16, le16_lt b 17 hb, le16_lt b 19 hb,
    le16_lt b 22 hb, le32_lt b 32 hb⟩

/-- With non-zero divisors the geometry is defined and places the two FAT
copies from the reserved sectors on. -/
theorem calculate_volume_geometry_fat_positions (s : fat_super_t) (hr : s.in_range)
    (hb : s.bytes_per_sector ≠ 0) (hc : s.sectors_per_cluster ≠ 0) :
    ∃ g, calculate_volume_geometry s = Res.ok g ∧
      g.fat_1_position = s.reserved_sectors ∧
      g.fat_2_position = s.reserved_sectors + s.sectors_per_fat := by
  obtain ⟨h1, h2, h3, h4, h5, h6, h7, h8⟩ := hr
  unfold calculate_volume_geometry
  simp only []
  rw [if_neg hb, if_neg hc]
  refine ⟨_, rfl, ?_, ?_⟩
  · simp only [wrap32]; omega
  · simp only [wrap32]; omega

/-- When `read_fats` succeeds the two buffers it has filled are equal. -/
theorem read_fats_done_equal (pdisk : disk_t) (super : fat_super_t) (g : volume_geometry)
    (errno : Nat) (f1 f2 : List Nat)
    (h : read_fats pdisk super g errno = Step.done (f1, f2)) : f1 = f2 := by
  unfold read_fats at h
  split at h
  · exact absurd h (by simp)
  · simp only [] at h
    split at h
    · exact absurd h (by simp)
    · split at h
      · exact absurd h (by simp)
      · split at h
        · exact absurd h (by simp)
        · split at h
          · exact absurd h (by simp)
          · split at h
            · exact absurd h (by simp)
            · rename_i a1 a2 fat_1 hd1 hlen1 a3 a4 fat_2 hd2 hlen2 r hm
              split at h
              · exact absurd h (by simp)
              · rename_i hr0
                have hr : r = 0 := not_not.mp hr0
                subst hr
                obtain ⟨m1, m2, m3⟩ := memcmp_zero _ _ _ hm
                simp only [Step.done.injEq, Prod.mk.injEq] at h
                rw [← h.1, ← h.2]
                rw [List.take_of_length_le (by omega), List.take_of_length_le (by omega)] at m3
                exact m3
        · exact absurd h (by simp)
    · exact absurd h (by simp)

/-- A mounted volume holds two equal FAT buffers. -/
theorem fat_open_ok_fats_equal (pdisk : disk_t) (first_sector errno : Nat) (v : volume_t)
    (h : fat_open pdisk first_sector errno = Res.ok v) : v.fat_1 = v.fat_2 := by
  unfold fat_open at h
  split at h
  · exact absurd h (by simp)
  · exact absurd h (by simp)
  · simp only [] at h
    split at h
    · exact absurd h (by simp)
    · split at h
      · split at h
        · exact absurd h (by simp)
        · exact absurd h (by simp)
        · rename_i fat_1 fat_2 hfats
          have heq := read_fats_done_equal _ _ _ _ _ _ hfats
          split at h
          · exact absurd h (by simp)
          · exact absurd h (by simp)
          · split at h
            · exact absurd h (by simp)
            · exact absurd h (by simp)
            · split at h
              · simp only [Res.ok.injEq] at h
                rw [← h]
                exact heq
              · exact absurd h (by simp)
              · exact absurd h (by simp)
              · exact absurd h (by simp)
      · exact absurd h (by simp)

/-- With 512-byte sectors and both FAT regions readable, `read_fats` succeeds
when the two regions are equal and reports `CORRUPTED` when they differ. -/
theorem read_fats_spec (pdisk : disk_t) (super : fat_super_t) (g : volume_geometry)
    (errno : Nat) (hblk : pdisk.size_of_block = 512) (hr : super.in_range)
    (hbps : super.bytes_per_sector = 512)
    (hg1 : g.fat_1_position = super.reserved_sectors)
    (hg2 : g.fat_2_position = super.reserved_sectors + super.sectors_per_fat)
    (hr1 : sectors_readable pdisk super.reserved_sectors super.sectors_per_fat)
    (hr2 : sectors_readable pdisk (super.reserved_sectors + super.sectors_per_fat)
      super.sectors_per_fat) :
    read_fats pdisk super g errno =
      if disk_sectors pdisk super.reserved_sectors super.sectors_per_fat
          = disk_sectors pdisk (super.reserved_sectors + super.sectors_per_fat)
            super.sectors_per_fat
      then Step.done (disk_sectors pdisk super.reserved_sectors super.sectors_per_fat,
        disk_sectors pdisk (super.reserved_sectors + super.sectors_per_fat)
          super.sectors_per_fat)
      else Step.code CORRUPTED errno := by
  obtain ⟨h1, h2, h3, h4, h5, h6, h7, h8⟩ := hr
  obtain ⟨hd1, hl1⟩ := disk_read_readable pdisk super.reserved_sectors super.sectors_per_fat
    hblk (by omega) hr1
  obtain ⟨hd2, hl2⟩ := disk_read_readable pdisk
    (super.reserved_sectors + super.sectors_per_fat) super.sectors_per_fat hblk (by omega) hr2
  obtain ⟨r, hm, hiff⟩ := memcmp_spec (super.sectors_per_fat * 512) _ _
    (Nat.le_of_eq hl1.symm) (Nat.le_of_eq hl2.symm)
  rw [List.take_of_length_le (Nat.le_of_eq hl1), List.take_of_length_le (Nat.le_of_eq hl2)]
    at hiff
  unfold read_fats
  simp only [INT_LIMIT, hbps, hg1, hg2]
  have e1 : toInt32 super.reserved_sectors = (super.reserved_sectors : Int) :=
    toInt32_of_lt _ (by omega)
  have e2 : toInt32 (super.reserved_sectors + super.sectors_per_fat)
      = ((super.reserved_sectors + super.sectors_per_fat : Nat) : Int) :=
    toInt32_of_lt _ (by omega)
  rw [if_neg (by omega), e1, e2, hd1]
  simp only []
  rw [if_neg (by omega), hd2]
  simp only []
  rw [if_neg (by omega), hm]
  simp only []
  by_cases heq : disk_sectors pdisk super.reserved_sectors super.sectors_per_fat
      = disk_sectors pdisk (super.reserved_sectors + super.sectors_per_fat)
        super.sectors_per_fat
  · rw [if_neg (not_not.mpr (hiff.mpr heq)), if_pos heq]
  · rw [if_pos (fun h => heq (hiff.mp h)), if_neg heq]

/-- A readable sector 0 is decoded into the super-sector. -/
theorem read_super_sector_readable (pdisk : disk_t) (errno : Nat)
    (hblk : pdisk.size_of_block = 512) (h0 : sectors_readable pdisk 0 1) :
    read_super_sector pdisk errno
      = Step.done (fat_super_t.of_bytes (disk_sectors pdisk 0 1)) := by
  obtain ⟨hd0, hl0⟩ := disk_read_readable pdisk 0 1 hblk (by omega) h0
  unfold read_super_sector
  have e : disk_read pdisk 0 1 = Res.ok (((1 : Nat) : Int), disk_sectors pdisk 0 1) := hd0
  rw [e]
  simp only [sizeof_fat_super_t]
  rw [if_pos (by omega)]

/-- The super-sector decoded from a device of bytes is in range, and once it
is accepted (with a non-zero sector size) its geometry is defined. -/
theorem fat_open_geometry (pdisk : disk_t) (hbytes : ∀ b ∈ pdisk.disk, b < 256)
    (hvalid : validate_super_sector (fat_super_t.of_bytes (disk_sectors pdisk 0 1)) = 0)
    (hbps : (fat_super_t.of_bytes (disk_sectors pdisk 0 1)).bytes_per_sector ≠ 0) :
    (fat_super_t.of_bytes (disk_sectors pdisk 0 1)).in_range ∧
    ∃ g, calculate_volume_geometry (fat_super_t.of_bytes (disk_sectors pdisk 0 1)) = Res.ok g ∧
      g.fat_1_position = (fat_super_t.of_bytes (disk_sectors pdisk 0 1)).reserved_sectors ∧
      g.fat_2_position = (fat_super_t.of_bytes (disk_sectors pdisk 0 1)).reserved_sectors
        + (fat_super_t.of_bytes (disk_sectors pdisk 0 1)).sectors_per_fat := by
  have hrange : (fat_super_t.of_bytes (disk_sectors pdisk 0 1)).in_range := by
    apply of_bytes_in_range
    intro x hx
    exact hbytes x (List.mem_of_mem_drop (List.mem_of_mem_take hx))
  have hacc := validate_super_sector_zero_cluster _ hvalid
  exact ⟨hrange, calculate_volume_geometry_fat_positions _ hrange hbps (by omega)⟩

/-- Up to the loading of the FAT copies, `fat_open` on an accepted
super-sector is decided by `read_fats` when that step does not succeed. -/
theorem fat_open_of_read_fats (pdisk : disk_t) (first_sector errno : Nat)
    (super : fat_super_t) (g : volume_geometry)
    (hsuper : read_super_sector pdisk errno = Step.done super)
    (hvalid : validate_super_sector super = 0)
    (hg : calculate_volume_geometry super = Res.ok g) :
    fat_open pdisk first_sector errno =
      match read_fats pdisk super g errno with
      | Step.fault => Res.fault
      | Step.code err_code e => Res.error (handle_errno err_code e)
      | Step.done (fat_1, fat_2) =>
        match read_root_dir pdisk super g errno with
        | Step.fault => Res.fault
        | Step.code err_code e => Res.error (handle_errno err_code e)
        | Step.done root_directory =>
          match read_data_area pdisk super g errno with
          | Step.fault => Res.fault
          | Step.code err_code e => Res.error (handle_errno err_code e)
          | Step.done data_area =>
            match read_fat_data fat_1 g with
            | Res.ok fat_data =>
              Res.ok
                { super_sector := super
                  geometry := g
                  fat_1 := fat_1
                  fat_2 := fat_2
                  root_directory := root_directory
                  data_area := data_area
                  fat_data := fat_data }
            | Res.error e => Res.error e
            | Res.fault => Res.fault
            | Res.timeout => Res.timeout := by
  unfold fat_open
  rw [hsuper]
  simp only [hvalid, SUCCESS, ne_eq, not_true_eq_false, if_false, hg]

/-- A super-sector that fails validation makes `fat_open` return `NULL`
with the `errno` that `handle_errno` derives from the status of the
validation. -/
theorem fat_open_of_rejected (pdisk : disk_t) (first_sector errno : Nat)
    (super : fat_super_t)
    (hsuper : read_super_sector pdisk errno = Step.done super)
    (hvalid : validate_super_sector super ≠ 0) :
    fat_open pdisk first_sector errno
      = Res.error (handle_errno (validate_super_sector super) errno) := by
  unfold fat_open
  rw [hsuper]
  simp only [SUCCESS]
  rw [if_pos hvalid]

/-- The device made from an image of one all-zero block: block 0 is readable
and is the image. -/
theorem zero_image_block :
    (disk_open_from_file (List.replicate 512 0)).size_of_block = 512 ∧
    sectors_readable (disk_open_from_file (List.replicate 512 0)) 0 1 ∧
    disk_sectors (disk_open_from_file (List.replicate 512 0)) 0 1 = List.replicate 512 0 := by
  refine ⟨rfl, ?_, ?_⟩
  · simp only [sectors_readable, disk_open_from_file, calc_num_of_blocks,
      List.length_replicate]
    decide
  · simp only [disk_sectors, disk_open_from_file]
    rw [Nat.zero_mul, List.drop_zero, Nat.one_mul,
      List.take_of_length_le (by rw [List.length_replicate])]

/-- C3: on an image whose sector 0 is readable and all zero (so that
`sectors_per_cluster = 0` and validation fails with status 1), `fat_open`
returns `NULL` with `errno = ENOMEM`, whatever `errno` was before: status 1 is
`NOMEM`, not `CORRUPTED`, for `handle_errno`. -/
theorem fat_open_rejected_super_sector_sets_ENOMEM :
    sectors_readable (disk_open_from_file (List.replicate 512 0)) 0 1 ∧
    validate_super_sector (fat_super_t.of_bytes
      (disk_sectors (disk_open_from_file (List.replicate 512 0)) 0 1)) = 1 ∧
    (∀ errno, fat_open (disk_open_from_file (List.replicate 512 0)) 0 errno
      = Res.error ENOMEM) ∧
    ENOMEM ≠ EINVAL := by
  obtain ⟨hblk, h0, hsec⟩ := zero_image_block
  have hv : validate_super_sector (fat_super_t.of_bytes
      (disk_sectors (disk_open_from_file (List.replicate 512 0)) 0 1)) = 1 := by
    rw [hsec]
    decide
  refine ⟨h0, hv, fun errno => ?_, by decide⟩
  rw [fat_open_of_rejected _ 0 errno _ (read_super_sector_readable _ errno hblk h0)
    (by rw [hv]; decide), hv]
  rfl

/-- With sectors announced shorter than the 512-byte blocks of the device,
the first FAT block read does not fit its buffer. -/
theorem fat_open_short_sector_fault (pdisk : disk_t) (first_sector errno : Nat)
    (hblk : pdisk.size_of_block = 512)
    (hbytes : ∀ b ∈ pdisk.disk, b < 256)
    (h0 : sectors_readable pdisk 0 1)
    (hvalid : validate_super_sector (fat_super_t.of_bytes (disk_sectors pdisk 0 1)) = 0)
    (hbps0 : (fat_super_t.of_bytes (disk_sectors pdisk 0 1)).bytes_per_sector ≠ 0)
    (hbps : (fat_super_t.of_bytes (disk_sectors pdisk 0 1)).bytes_per_sector < 512)
    (hr1 : sectors_readable pdisk
      (fat_super_t.of_bytes (disk_sectors pdisk 0 1)).reserved_sectors
      (fat_super_t.of_bytes (disk_sectors pdisk 0 1)).sectors_per_fat) :
    fat_open pdisk first_sector errno = Res.fault := by
  obtain ⟨hrange, g, hg, hg1, -⟩ := fat_open_geometry pdisk hbytes hvalid hbps0
  rw [fat_open_of_read_fats pdisk first_sector errno _ g
    (read_super_sector_readable pdisk errno hblk h0) hvalid hg]
  generalize fat_super_t.of_bytes (disk_sectors pdisk 0 1) = super at hrange hg hg1 hbps hr1
  obtain ⟨h1, h2, h3, h4, h5, h6, h7, h8⟩ := hrange
  obtain ⟨hd1, hl1⟩ := disk_read_readable pdisk super.reserved_sectors super.sectors_per_fat
    hblk (by omega) hr1
  have hpos : 0 < super.sectors_per_fat := hr1.1
  have hprod : super.sectors_per_fat * super.bytes_per_sector < super.sectors_per_fat * 512 :=
    (Nat.mul_lt_mul_left hpos).mpr hbps
  have hfats : read_fats pdisk super g errno = Step.fault := by
    unfold read_fats
    simp only [INT_LIMIT, hg1]
    have hint : ¬ ((2147483648 : Int) ≤ (super.sectors_per_fat : Int) * super.bytes_per_sector) := by
      have : ((super.sectors_per_fat : Int) * super.bytes_per_sector)
          = ((super.sectors_per_fat * super.bytes_per_sector : Nat) : Int) := by push_cast; rfl
      rw [this]
      omega
    rw [if_neg hint, toInt32_of_lt _ (by omega), hd1]
    simp only []
    rw [if_pos (by omega)]
  rw [hfats]

/-- Two different buffers of the same length, compared over at least that
length, make `memcmp` return a non-zero value: the difference is met before
any byte outside them is read. -/
theorem memcmp_differ : ∀ (a b : List Nat) (n : Nat), a.length = b.length → a.length ≤ n →
    a ≠ b → ∃ r, memcmp a b n = some r ∧ r ≠ 0 := by
  intro a
  induction a with
  | nil =>
    intro b n hlen _ hne
    cases b with
    | nil => exact absurd rfl hne
    | cons y b => simp at hlen
  | cons x a ih =>
    intro b n hlen hn hne
    cases b with
    | nil => simp at hlen
    | cons y b =>
      cases n with
      | zero => simp at hn
      | succ m =>
        simp only [List.length_cons, Nat.add_right_cancel_iff] at hlen
        simp only [List.length_cons, Nat.add_le_add_iff_right] at hn
        by_cases hxy : x = y
        · subst hxy
          obtain ⟨r, hr, hr0⟩ := ih b m hlen hn (fun h => hne (by rw [h]))
          exact ⟨r, by simp [memcmp, hr], hr0⟩
        · refine ⟨if x < y then -1 else 1, by simp [memcmp, hxy], ?_⟩
          split_ifs <;> omega

/-- With sectors announced at least as long as the 512-byte blocks of the
device and both FAT regions readable, `read_fats` reports `CORRUPTED` when
the two regions differ. -/
theorem read_fats_mismatch (pdisk : disk_t) (super : fat_super_t) (g : volume_geometry)
    (errno : Nat) (hblk : pdisk.size_of_block = 512) (hr : super.in_range)
    (hbps : 512 ≤ super.bytes_per_sector)
    (hprod : super.sectors_per_fat * super.bytes_per_sector < 2147483648)
    (hg1 : g.fat_1_position = super.reserved_sectors)
    (hg2 : g.fat_2_position = super.reserved_sectors + super.sectors_per_fat)
    (hr1 : sectors_readable pdisk super.reserved_sectors super.sectors_per_fat)
    (hr2 : sectors_readable pdisk (super.reserved_sectors + super.sectors_per_fat)
      super.sectors_per_fat)
    (hdiff : disk_sectors pdisk super.reserved_sectors super.sectors_per_fat
      ≠ disk_sectors pdisk (super.reserved_sectors + super.sectors_per_fat)
        super.sectors_per_fat) :
    read_fats pdisk super g errno = Step.code CORRUPTED errno := by
  obtain ⟨h1, h2, h3, h4, h5, h6, h7, h8⟩ := hr
  obtain ⟨hd1, hl1⟩ := disk_read_readable pdisk super.reserved_sectors super.sectors_per_fat
    hblk (by omega) hr1
  obtain ⟨hd2, hl2⟩ := disk_read_readable pdisk
    (super.reserved_sectors + super.sectors_per_fat) super.sectors_per_fat hblk (by omega) hr2
  have hle : super.sectors_per_fat * 512 ≤ super.sectors_per_fat * super.bytes_per_sector :=
    Nat.mul_le_mul_left _ hbps
  obtain ⟨r, hm, hr0⟩ := memcmp_differ _ _
    (super.sectors_per_fat * super.bytes_per_sector) (hl1.trans hl2.symm)
    (by rw [hl1]; exact hle) hdiff
  have hint : ¬ ((2147483648 : Int)
      ≤ (super.sectors_per_fat : Int) * super.bytes_per_sector) := by
    have : ((super.sectors_per_fat : Int) * super.bytes_per_sector)
        = ((super.sectors_per_fat * super.bytes_per_sector : Nat) : Int) := by push_cast; rfl
    rw [this]
    omega
  have e1 : toInt32 super.reserved_sectors = (super.reserved_sectors : Int) :=
    toInt32_of_lt _ (by omega)
  have e2 : toInt32 (super.reserved_sectors + super.sectors_per_fat)
      = ((super.reserved_sectors + super.sectors_per_fat : Nat) : Int) :=
    toInt32_of_lt _ (by omega)
  unfold read_fats
  simp only [INT_LIMIT, hg1, hg2]
  rw [if_neg hint, e1, e2, hd1]
  simp only []
  rw [if_neg (by omega), hd2]
  simp only []
  rw [if_neg (by omega), hm]
  simp only []
  rw [if_pos hr0]

/-- The block counter of an opened device is a `uint16_t`. -/
theorem disk_open_from_file_num_lt (volume_file : List Nat) :
    (disk_open_from_file volume_file).num_of_blocks < 65536 := by
  simp only [disk_open_from_file, calc_num_of_blocks]
  exact Nat.mod_lt _ (by decide)

/-- Where the claim about differing FAT copies holds: for every device with
512-byte blocks (the block counter being a `uint16_t`) whose sector 0 is
readable and decodes to a super-sector that passes validation and announces
sectors of at least 512 bytes, and whose two FAT regions are readable: if the
`sectors_per_fat` sectors at `fat1_lba` differ from those at `fat2_lba`,
`fat_open` returns `NULL` with `errno = EINVAL`; and every volume `fat_open`
returns has equal FAT1 and FAT2 bytes. -/
theorem fat_open_reports_fat_mismatch (pdisk : disk_t) (first_sector errno : Nat)
    (hblk : pdisk.size_of_block = 512)
    (hnum : pdisk.num_of_blocks < 65536)
    (hbytes : ∀ b ∈ pdisk.disk, b < 256)
    (h0 : sectors_readable pdisk 0 1)
    (hvalid : validate_super_sector (fat_super_t.of_bytes (disk_sectors pdisk 0 1)) = 0)
    (hbps : 512 ≤ (fat_super_t.of_bytes (disk_sectors pdisk 0 1)).bytes_per_sector)
    (hr1 : sectors_readable pdisk
      (fat_super_t.of_bytes (disk_sectors pdisk 0 1)).reserved_sectors
      (fat_super_t.of_bytes (disk_sectors pdisk 0 1)).sectors_per_fat)
    (hr2 : sectors_readable pdisk
      ((fat_super_t.of_bytes (disk_sectors pdisk 0 1)).reserved_sectors
        + (fat_super_t.of_bytes (disk_sectors pdisk 0 1)).sectors_per_fat)
      (fat_super_t.of_bytes (disk_sectors pdisk 0 1)).sectors_per_fat) :
    (disk_sectors pdisk (fat_super_t.of_bytes (disk_sectors pdisk 0 1)).reserved_sectors
        (fat_super_t.of_bytes (disk_sectors pdisk 0 1)).sectors_per_fat
      ≠ disk_sectors pdisk
        ((fat_super_t.of_bytes (disk_sectors pdisk 0 1)).reserved_sectors
          + (fat_super_t.of_bytes (disk_sectors pdisk 0 1)).sectors_per_fat)
        (fat_super_t.of_bytes (disk_sectors pdisk 0 1)).sectors_per_fat →
      fat_open pdisk first_sector errno = Res.error EINVAL) ∧
    (∀ v, fat_open pdisk first_sector errno = Res.ok v → v.fat_1 = v.fat_2) := by
  refine ⟨?_, fun v hv => fat_open_ok_fats_equal pdisk first_sector errno v hv⟩
  intro hdiff
  obtain ⟨hrange, g, hg, hg1, hg2⟩ :=
    fat_open_geometry pdisk hbytes hvalid (by omega)
  have hprod : (fat_super_t.of_bytes (disk_sectors pdisk 0 1)).sectors_per_fat
      * (fat_super_t.of_bytes (disk_sectors pdisk 0 1)).bytes_per_sector < 2147483648 := by
    have hspf : (fat_super_t.of_bytes (disk_sectors pdisk 0 1)).sectors_per_fat ≤ 32767 := by
      have := hr2.2.1
      omega
    have hb : (fat_super_t.of_bytes (disk_sectors pdisk 0 1)).bytes_per_sector ≤ 65535 := by
      have := hrange.1
      omega
    have := Nat.mul_le_mul hspf hb
    omega
  rw [fat_open_of_read_fats pdisk first_sector errno _ g
    (read_super_sector_readable pdisk errno hblk h0) hvalid hg,
    read_fats_mismatch pdisk _ g errno hblk hrange hbps hprod hg1 hg2 hr1 hr2 hdiff]
  rfl

/-! ### The sample images -/

/-- Blocks 0, 1 and 2 of a device whose image starts with three 512-byte
blocks, and the number of bytes and blocks of the image. -/
theorem disk_open_from_file_blocks (b0 b1 b2 rest : List Nat)
    (h0 : b0.length = 512) (h1 : b1.length = 512) (h2 : b2.length = 512)
    (hrest : rest.length = 1024) :
    disk_sectors (disk_open_from_file (b0 ++ (b1 ++ (b2 ++ rest)))) 0 1 = b0 ∧
    disk_sectors (disk_open_from_file (b0 ++ (b1 ++ (b2 ++ rest)))) 1 1 = b1 ∧
    disk_sectors (disk_open_from_file (b0 ++ (b1 ++ (b2 ++ rest)))) 2 1 = b2 ∧
    (disk_open_from_file (b0 ++ (b1 ++ (b2 ++ rest)))).disk.length = 2560 ∧
    (disk_open_from_file (b0 ++ (b1 ++ (b2 ++ rest)))).num_of_blocks = 6 := by
  have hlen : (b0 ++ (b1 ++ (b2 ++ rest))).length = 2560 := by
    simp only [List.length_append, h0, h1, h2, hrest]
  refine ⟨?_, ?_, ?_, hlen, ?_⟩
  · simp only [disk_sectors, disk_open_from_file]
    rw [Nat.zero_mul, List.drop_zero, Nat.one_mul, List.take_left' h0]
  · simp only [disk_sectors, disk_open_from_file]
    rw [Nat.one_mul, List.drop_left' h0, List.take_left' h1]
  · simp only [disk_sectors, disk_open_from_file]
    rw [Nat.one_mul, ← List.append_assoc, List.drop_left' (by rw [List.length_append, h0, h1]),
      List.take_left' h2]
  · simp only [disk_open_from_file, calc_num_of_blocks, hlen]

theorem boot_sector_length (l h : Nat) : (boot_sector l h).length = 512 := by
  simp only [boot_sector, List.length_append, List.length_cons, List.length_nil,
    List.length_replicate]

theorem fat_sector_marked_length : fat_sector_marked.length = 512 := by
  simp only [fat_sector_marked, List.length_append, List.length_cons, List.length_nil,
    List.length_replicate]

theorem fat_sector_marked_ne : List.replicate 512 0 ≠ fat_sector_marked := by
  intro h
  have h2 : (List.replicate 512 0)[300]? = fat_sector_marked[300]? := by rw [h]
  unfold fat_sector_marked at h2
  rw [List.getElem?_replicate, if_pos (by omega),
    List.getElem?_append_left (by simp only [List.length_append, List.length_replicate,
      List.length_cons, List.length_nil]; omega),
    List.getElem?_append_right (by simp only [List.length_replicate]; omega),
    List.length_replicate] at h2
  simp at h2

theorem fat_sector_marked_take :
    (List.replicate 512 0).take 256 = fat_sector_marked.take 256 := by
  unfold fat_sector_marked
  rw [List.append_assoc, List.take_append_of_le_length (by rw [List.length_replicate]; omega),
    List.take_replicate, List.take_replicate]
  rfl

/-- Every entry of the sample image with 512-byte sectors is a byte. -/
theorem image_512_bytes : ∀ b ∈ (disk_open_from_file image_512).disk, b < 256 := by
  intro b hb
  have hb2 : b ∈ image_512 := hb
  simp only [image_512, boot_sector, fat_sector_marked, List.mem_append,
    List.mem_cons, List.mem_replicate, List.mem_singleton, List.not_mem_nil, or_false] at hb2
  omega

/-- Every entry of the sample image with 256-byte sectors is a byte. -/
theorem image_256_bytes : ∀ b ∈ (disk_open_from_file image_256).disk, b < 256 := by
  intro b hb
  have hb2 : b ∈ image_256 := hb
  simp only [image_256, boot_sector, fat_sector_marked, List.mem_append,
    List.mem_cons, List.mem_replicate, List.mem_singleton, List.not_mem_nil, or_false] at hb2
  omega

/-- The sample image with 512-byte sectors: decoded super-sector, readable
FAT blocks, and the difference between them. -/
theorem image_512_facts :
    (disk_open_from_file image_512).size_of_block = 512 ∧
    sectors_readable (disk_open_from_file image_512) 0 1 ∧
    fat_super_t.of_bytes (disk_sectors (disk_open_from_file image_512) 0 1)
      = { bytes_per_sector := 512, sectors_per_cluster := 1, reserved_sectors := 1,
          fat_count := 2, root_dir_capacity := 8, logical_sectors16 := 5,
          sectors_per_fat := 1, logical_sectors32 := 0 } ∧
    sectors_readable (disk_open_from_file image_512) 1 1 ∧
    sectors_readable (disk_open_from_file image_512) (1 + 1) 1 ∧
    disk_sectors (disk_open_from_file image_512) 1 1
      ≠ disk_sectors (disk_open_from_file image_512) (1 + 1) 1 := by
  obtain ⟨e0, e1, e2, hlen, hnum⟩ := disk_open_from_file_blocks (boot_sector 0 2)
    (List.replicate 512 0) fat_sector_marked (List.replicate 1024 0)
    (boot_sector_length 0 2) (List.length_replicate _ _) fat_sector_marked_length
    (List.length_replicate _ _)
  have hblk : (disk_open_from_file image_512).size_of_block = 512 := rfl
  refine ⟨hblk, ?_, ?_, ?_, ?_, ?_⟩
  · unfold sectors_readable
    rw [hblk]
    unfold image_512
    rw [hlen, hnum]
    decide
  · unfold image_512
    rw [e0]
    decide
  · unfold sectors_readable
    rw [hblk]
    unfold image_512
    rw [hlen, hnum]
    decide
  · unfold sectors_readable
    rw [hblk]
    unfold image_512
    rw [hlen, hnum]
    decide
  · unfold image_512
    rw [e1, e2]
    exact fat_sector_marked_ne

/-- The sample image with 256-byte sectors: decoded super-sector, readable
FAT blocks, and the difference between them. -/
theorem image_256_facts :
    (disk_open_from_file image_256).size_of_block = 512 ∧
    sectors_readable (disk_open_from_file image_256) 0 1 ∧
    fat_super_t.of_bytes (disk_sectors (disk_open_from_file image_256) 0 1)
      = { bytes_per_sector := 256, sectors_per_cluster := 1, reserved_sectors := 1,
          fat_count := 2, root_dir_capacity := 8, logical_sectors16 := 5,
          sectors_per_fat := 1, logical_sectors32 := 0 } ∧
    sectors_readable (disk_open_from_file image_256) 1 1 ∧
    sectors_readable (disk_open_from_file image_256) (1 + 1) 1 ∧
    disk_sectors (disk_open_from_file image_256) 1 1
      ≠ disk_sectors (disk_open_from_file image_256) (1 + 1) 1 ∧
    (disk_sectors (disk_open_from_file image_256) 1 1).take 256
      = (disk_sectors (disk_open_from_file image_256) (1 + 1) 1).take 256 := by
  obtain ⟨e0, e1, e2, hlen, hnum⟩ := disk_open_from_file_blocks (boot_sector 0 1)
    (List.replicate 512 0) fat_sector_marked (List.replicate 1024 0)
    (boot_sector_length 0 1) (List.length_replicate _ _) fat_sector_marked_length
    (List.length_replicate _ _)
  have hblk : (disk_open_from_file image_256).size_of_block = 512 := rfl
  refine ⟨hblk, ?_, ?_, ?_, ?_, ?_, ?_⟩
  · unfold sectors_readable
    rw [hblk]
    unfold image_256
    rw [hlen, hnum]
    decide
  · unfold image_256
    rw [e0]
    decide
  · unfold sectors_readable
    rw [hblk]
    unfold image_256
    rw [hlen, hnum]
    decide
  · unfold sectors_readable
    rw [hblk]
    unfold image_256
    rw [hlen, hnum]
    decide
  · unfold image_256
    rw [e1, e2]
    exact fat_sector_marked_ne
  · unfold image_256
    rw [e1, e2]
    exact fat_sector_marked_take

/-- Witness for `fat_open_reports_fat_mismatch`: the five-block image with
512-byte sectors whose FAT2 block differs from FAT1 at offset 300. -/
theorem fat_open_reports_fat_mismatch_witness :
    sectors_readable (disk_open_from_file image_512) 1 1 ∧
    sectors_readable (disk_open_from_file image_512) (1 + 1) 1 ∧
    disk_sectors (disk_open_from_file image_512) 1 1
      ≠ disk_sectors (disk_open_from_file image_512) (1 + 1) 1 ∧
    fat_open (disk_open_from_file image_512) 0 0 = Res.error EINVAL :=
  ⟨image_512_facts.2.2.2.1, image_512_facts.2.2.2.2.1, image_512_facts.2.2.2.2.2,
    (fat_open_reports_fat_mismatch (disk_open_from_file image_512) 0 0 rfl
      (disk_open_from_file_num_lt image_512) image_512_bytes
      image_512_facts.2.1
      (by rw [image_512_facts.2.2.1]; decide)
      (by rw [image_512_facts.2.2.1])
      (by rw [image_512_facts.2.2.1]; exact image_512_facts.2.2.2.1)
      (by rw [image_512_facts.2.2.1]; exact image_512_facts.2.2.2.2.1)).1
      (by rw [image_512_facts.2.2.1]; exact image_512_facts.2.2.2.2.2)⟩

/-- C4: on the five-block image that announces 256-byte sectors the
mismatch of the FAT copies is not reported. Its super-sector passes
validation, both FAT regions (block 1 and block 2) are readable and differ
(at offset 300), yet `fat_open` does not return `NULL` with `EINVAL`:
`read_fats` gives each FAT buffer `1 * 256` bytes while `disk_read` writes a
512-byte block into it, past its end, and `memcmp` is asked about the first
256 bytes only, which are equal. -/
theorem fat_open_short_sectors_hide_fat_mismatch :
    sectors_readable (disk_open_from_file image_256) 0 1 ∧
    validate_super_sector
      (fat_super_t.of_bytes (disk_sectors (disk_open_from_file image_256) 0 1)) = 0 ∧
    (fat_super_t.of_bytes (disk_sectors (disk_open_from_file image_256) 0 1)).reserved_sectors
      = 1 ∧
    (fat_super_t.of_bytes (disk_sectors (disk_open_from_file image_256) 0 1)).sectors_per_fat
      = 1 ∧
    sectors_readable (disk_open_from_file image_256) 1 1 ∧
    sectors_readable (disk_open_from_file image_256) (1 + 1) 1 ∧
    disk_sectors (disk_open_from_file image_256) 1 1
      ≠ disk_sectors (disk_open_from_file image_256) (1 + 1) 1 ∧
    (disk_sectors (disk_open_from_file image_256) 1 1).take 256
      = (disk_sectors (disk_open_from_file image_256) (1 + 1) 1).take 256 ∧
    fat_open (disk_open_from_file image_256) 0 0 = Res.fault ∧
    fat_open (disk_open_from_file image_256) 0 0 ≠ Res.error EINVAL := by
  obtain ⟨hblk, h0, hsup, hr1, hr2, hne, hsame⟩ := image_256_facts
  have hfault : fat_open (disk_open_from_file image_256) 0 0 = Res.fault :=
    fat_open_short_sector_fault (disk_open_from_file image_256) 0 0 hblk image_256_bytes h0
      (by rw [hsup]; decide) (by rw [hsup]; decide) (by rw [hsup]; decide)
      (by rw [hsup]; exact hr1)
  refine ⟨h0, by rw [hsup]; decide, by rw [hsup], by rw [hsup], hr1, hr2, hne, hsame,
    hfault, ?_⟩
  rw [hfault]
  exact fun h => Res.noConfusion h

/-! ### Names, times and the geometry of an accepted super-sector -/

/-- C11: for the name field `A` + seven spaces + `C` + two spaces (base `A`,
extension `C`), `make_name` and `fill_name` give `A`, not `A.C`: the test for
an empty extension looks at `file_name[9]`, the second extension byte. -/
theorem make_name_drops_one_letter_extension :
    entry_A_C.file_name.length = 11 ∧
    make_name entry_A_C.file_name = [65] ∧
    (fill_name blank_dir_entry entry_A_C).name = [65] ∧
    reconstructed_name entry_A_C.file_name = [65, 46, 67] := by
  decide

theorem extract_bits_low (t : Nat) : extract_bits t 5 1 = t % 32 := by
  unfold extract_bits
  rw [Nat.one_shiftLeft, Nat.shiftRight_zero, Nat.and_comm]
  exact Nat.and_pow_two_sub_one_eq_mod t 5

/-- C19: the decoded hour and minute are bits 11..15 and 5..10 of the stored
time, but the decoded second is bits 0..4 as stored, not doubled: for every
stored time `t` it is `t mod 32`, and the time 13:37:42, stored with the
seconds field 21, is decoded as 13:37:21. -/
theorem fill_time_keeps_stored_seconds :
    (∀ (entry : dir_entry_t) (sfn : fat_sfn_t), sfn.file_creation_time < 65536 →
      (fill_time entry sfn).creation_time.second = sfn.file_creation_time % 32) ∧
    entry_timed.file_creation_time = 13 * 2048 + 37 * 32 + 21 ∧
    (fill_time blank_dir_entry entry_timed).creation_time
      = { second := 21, minute := 37, hour := 13 } ∧
    (21 : Nat) ≠ 21 * 2 := by
  refine ⟨?_, by decide, by decide, by decide⟩
  intro entry sfn ht
  show extract_bits sfn.file_creation_time 5 1 % 65536 = sfn.file_creation_time % 32
  rw [extract_bits_low]
  omega

/-- C16: the super-sector with `bytes_per_sector = 0` (and otherwise the
fields of the sample image) is accepted by `validate_super_sector`, and
`calculate_volume_geometry` divides by zero on it. -/
theorem calculate_volume_geometry_faults_on_accepted_super_sector :
    zero_sector_size_super.in_range ∧
    validate_super_sector zero_sector_size_super = 0 ∧
    calculate_volume_geometry zero_sector_size_super = Res.fault := by
  decide

/-! ### Directory handles -/

/-- The loop of `dir_open` over entries that are all inside the root
directory buffer appends the decoded listed entries found before the end
marker. -/
theorem dir_open_loop_spec (root_directory : List fat_sfn_t) :
    ∀ (n i : Nat) (content : List dir_entry_t), i + n ≤ root_directory.length →
      dir_open_loop root_directory n i content =
        Res.ok (content ++
          ((((root_directory.drop i).take n).takeWhile
            (fun sfn => sfn.file_name.getD 0 0 ≠ 0)).filter root_entry_listed).map
            (fill_dir_entry blank_dir_entry)) := by
  intro n
  induction n with
  | zero =>
    intro i content _
    simp only [dir_open_loop, List.take_zero, List.takeWhile_nil, List.filter_nil,
      List.map_nil, List.append_nil]
  | succ n ih =>
    intro i content hlen
    have hi : i < root_directory.length := by omega
    have hdrop : root_directory.drop i = root_directory[i] :: root_directory.drop (i + 1) :=
      List.drop_eq_getElem_cons hi
    simp only [dir_open_loop]
    rw [List.getElem?_eq_getElem hi, hdrop, List.take_succ_cons]
    simp only []
    by_cases h0 : root_directory[i].file_name.getD 0 0 = 0
    · rw [if_pos h0, List.takeWhile_cons_of_neg (by
        simp only [ne_eq, h0, not_true_eq_false, decide_False, Bool.false_eq_true,
          not_false_eq_true])]
      simp only [List.filter_nil, List.map_nil, List.append_nil]
    · rw [if_neg h0, List.takeWhile_cons_of_pos (by
        simp only [ne_eq, h0, not_false_eq_true, decide_True])]
      by_cases hlabel : (root_directory[i].file_attribute &&& FAT_ATTRIB_LABEL) ≠ 0
      · have hnot : ¬ (root_entry_listed root_directory[i] = true) := by
          unfold root_entry_listed
          simp only [decide_eq_true_eq, not_and]
          intro _ _ h8
          exact hlabel h8
        rw [if_pos hlabel, ih (i + 1) content (by omega), List.filter_cons_of_neg hnot]
      · rw [if_neg hlabel]
        have hl : (root_directory[i].file_attribute &&& 0x08) = 0 := not_not.mp hlabel
        have hlfn : root_directory[i].file_attribute ≠ 0x0F := by
          intro h15
          rw [h15] at hl
          exact absurd hl (by decide)
        by_cases hdel : root_directory[i].file_name.getD 0 0 = 0xe5
        · have hnot : ¬ (root_entry_listed root_directory[i] = true) := by
            unfold root_entry_listed
            simp only [decide_eq_true_eq, not_and]
            intro hne
            exact absurd hdel hne
          rw [if_pos hdel, ih (i + 1) content (by omega), List.filter_cons_of_neg hnot]
        · have hyes : root_entry_listed root_directory[i] = true := by
            unfold root_entry_listed
            simp only [decide_eq_true_eq]
            exact ⟨hdel, hlfn, hl⟩
          rw [if_neg hdel, ih (i + 1) _ (by omega), List.filter_cons_of_pos hyes,
            List.map_cons, List.append_assoc, List.singleton_append]

theorem extract_bits_eq (n k p : Nat) : extract_bits n k p = n / 2 ^ (p - 1) % 2 ^ k := by
  unfold extract_bits
  rw [Nat.one_shiftLeft, Nat.shiftRight_eq_div_pow, Nat.and_comm]
  exact Nat.and_pow_two_sub_one_eq_mod _ k

theorem fill_attributes_eq (entry : dir_entry_t) (sfn : fat_sfn_t) :
    fill_attributes entry sfn =
      { entry with
        is_archived := sfn.file_attribute / 32 % 2
        is_readonly := sfn.file_attribute % 2
        is_system := sfn.file_attribute / 4 % 2
        is_hidden := sfn.file_attribute / 2 % 2
        is_directory := sfn.file_attribute / 16 % 2 } := by
  have hb : ∀ x : Nat, x % 2 = 0 ∨ x % 2 = 1 := fun x => by omega
  have p1 : extract_bits sfn.file_attribute 1 1 = sfn.file_attribute % 2 := by
    rw [extract_bits_eq]; norm_num
  have p2 : extract_bits sfn.file_attribute 1 2 = sfn.file_attribute / 2 % 2 := by
    rw [extract_bits_eq]; norm_num
  have p3 : extract_bits sfn.file_attribute 1 3 = sfn.file_attribute / 4 % 2 := by
    rw [extract_bits_eq]; norm_num
  have p5 : extract_bits sfn.file_attribute 1 5 = sfn.file_attribute / 16 % 2 := by
    rw [extract_bits_eq]; norm_num
  have p6 : extract_bits sfn.file_attribute 1 6 = sfn.file_attribute / 32 % 2 := by
    rw [extract_bits_eq]; norm_num
  unfold fill_attributes clear_attributes
  rw [p1, p2, p3, p5, p6]
  rcases hb sfn.file_attribute with h1 | h1 <;>
  rcases hb (sfn.file_attribute / 2) with h2 | h2 <;>
  rcases hb (sfn.file_attribute / 4) with h3 | h3 <;>
  rcases hb (sfn.file_attribute / 16) with h4 | h4 <;>
  rcases hb (sfn.file_attribute / 32) with h5 | h5 <;>
  simp only [h1, h2, h3, h4, h5, ne_eq, not_true_eq_false, if_false, one_ne_zero,
    not_false_eq_true, if_true]

theorem fill_name_eq (entry : dir_entry_t) (sfn : fat_sfn_t) :
    fill_name entry sfn = { entry with name := make_name sfn.file_name } := by
  unfold fill_name make_name
  simp only []
  split_ifs <;> rfl

/-- Every field of a slot is overwritten by `fill_dir_entry`, with the
values of the reference snapshot. -/
theorem fill_dir_entry_eq (entry : dir_entry_t) (sfn : fat_sfn_t) :
    fill_dir_entry entry sfn = root_entry_snapshot sfn := by
  have d1 : extract_bits sfn.file_creation_date 5 1 % 65536 = sfn.file_creation_date % 32 := by
    rw [extract_bits_eq]; norm_num; omega
  have d2 : extract_bits sfn.file_creation_date 4 6 % 65536
      = sfn.file_creation_date / 32 % 16 := by
    rw [extract_bits_eq]; norm_num; omega
  have d3 : (extract_bits sfn.file_creation_date 7 10 + 1980) % 65536
      = sfn.file_creation_date / 512 % 128 + 1980 := by
    rw [extract_bits_eq]; norm_num; omega
  have t1 : extract_bits sfn.file_creation_time 5 12 % 65536
      = sfn.file_creation_time / 2048 % 32 := by
    rw [extract_bits_eq]; norm_num; omega
  have t2 : extract_bits sfn.file_creation_time 6 6 % 65536
      = sfn.file_creation_time / 32 % 64 := by
    rw [extract_bits_eq]; norm_num; omega
  have t3 : extract_bits sfn.file_creation_time 5 1 % 65536 = sfn.file_creation_time % 32 := by
    rw [extract_bits_eq]; norm_num; omega
  unfold fill_dir_entry fill_time fill_date
  rw [fill_attributes_eq, fill_name_eq, d1, d2, d3, t1, t2, t3]
  rfl

theorem takeWhile_eq_strip (l : List Nat) (h : 32 ∉ strip_trailing_spaces l) :
    l.takeWhile (fun c => c ≠ 32) = strip_trailing_spaces l := by
  have hsplit : l = strip_trailing_spaces l
      ++ (l.reverse.takeWhile (fun c => c = 32)).reverse := by
    unfold strip_trailing_spaces
    rw [← List.reverse_append, List.takeWhile_append_dropWhile, List.reverse_reverse]
  have ht : ∀ x ∈ (l.reverse.takeWhile (fun c => c = 32)).reverse, x = 32 := by
    intro x hx
    have := List.mem_takeWhile_imp (List.mem_reverse.mp hx)
    simpa using this
  generalize strip_trailing_spaces l = s at h hsplit
  generalize (l.reverse.takeWhile (fun c => c = 32)).reverse = t at ht hsplit
  subst hsplit
  rw [List.takeWhile_append_of_pos (fun a ha => by
    simp only [ne_eq, decide_not, Bool.not_eq_true', decide_eq_false_iff_not]
    intro h32; subst h32; exact h ha)]
  cases t with
  | nil => simp
  | cons x t =>
    have hx : x = 32 := ht x (List.mem_cons_self _ _)
    subst hx
    simp

theorem strip_trailing_spaces_three (a b c : Nat) :
    strip_trailing_spaces [a, b, c] =
      if c ≠ 32 then [a, b, c] else if b ≠ 32 then [a, b] else if a ≠ 32 then [a] else [] := by
  unfold strip_trailing_spaces
  by_cases hc : c = 32 <;> by_cases hb : b = 32 <;> by_cases ha : a = 32 <;>
    simp [List.dropWhile, hc, hb, ha]

theorem make_name_regular (file_name : List Nat) (h : name_field_regular file_name) :
    make_name file_name = reconstructed_name file_name := by
  obtain ⟨hlen, hbase, hext, hone⟩ := h
  have hcond : file_name.getD 9 0 = 32
      ↔ strip_trailing_spaces ((file_name.drop 8).take 3) = [] := by
    match file_name, hlen with
    | [n0, n1, n2, n3, n4, n5, n6, n7, a, b, c], _ =>
      simp only [List.drop_succ_cons, List.drop_zero, List.take_succ_cons, List.take_zero,
        strip_trailing_spaces_three] at hext hone ⊢
      have hget : [n0, n1, n2, n3, n4, n5, n6, n7, a, b, c].getD 9 0 = b := rfl
      rw [hget]
      by_cases hc : c = 32 <;> by_cases hb : b = 32 <;> by_cases ha : a = 32 <;>
        simp [hc, hb, ha] at hext hone ⊢
  have e1 := takeWhile_eq_strip _ hbase
  have e2 := takeWhile_eq_strip _ hext
  unfold make_name reconstructed_name
  simp only []
  rw [e1, e2]
  by_cases hg : file_name.getD 9 0 = 32
  · rw [if_pos hg, if_pos (hcond.mp hg)]
  · rw [if_neg hg, if_neg (fun h => hg (hcond.mpr h))]

/-- C12: for every volume whose root directory buffer holds its
`root_dir_capacity` entries, `dir_open(volume, "\\")` returns a handle whose
`content` is, in on-disk order, the snapshots of the root entries with index
below `root_dir_capacity` that precede the first entry whose first name byte
is `0x00` and are neither deleted (`0xE5`), nor long-name fragments
(attribute `0x0F`), nor volume labels (attribute bit `0x08`);
`num_of_elements` is their count and `current` is 0. The snapshot of an
entry holds its size, the five flags of its attribute byte, its date and its
time as `root_entry_snapshot` spells them out, and the name `make_name`
builds, which for a regular name field is the reconstructed 8.3 name of the
specification. -/
theorem dir_open_lists_root_entries (pvolume : volume_t)
    (hcap : pvolume.super_sector.root_dir_capacity ≤ pvolume.root_directory.length) :
    dir_open pvolume [92] = Res.ok
      { content := (listed_entries pvolume.root_directory
          pvolume.super_sector.root_dir_capacity).map root_entry_snapshot
        current := 0
        num_of_elements := ((listed_entries pvolume.root_directory
          pvolume.super_sector.root_dir_capacity).length : Int) } ∧
    (∀ sfn : fat_sfn_t, name_field_regular sfn.file_name →
      (root_entry_snapshot sfn).name = reconstructed_name sfn.file_name) := by
  constructor
  · have hmap : fill_dir_entry blank_dir_entry = root_entry_snapshot :=
      funext (fill_dir_entry_eq blank_dir_entry)
    unfold dir_open
    rw [if_neg (by decide),
      dir_open_loop_spec pvolume.root_directory pvolume.super_sector.root_dir_capacity 0 []
        (by omega), hmap]
    simp only [List.drop_zero, List.nil_append, List.length_map, listed_entries]
  · intro sfn hreg
    exact make_name_regular sfn.file_name hreg

/-- Witness for `dir_open_lists_root_entries`: the listing of the dated
listing volume is `NOTES.MD` (6 bytes, read-only and archived, 2021-03-15,
13:37 with the seconds field 21) and the directory `SUB`. -/
theorem dir_open_lists_root_entries_witness :
    dated_listing_volume.super_sector.root_dir_capacity
      ≤ dated_listing_volume.root_directory.length ∧
    listed_entries dated_listing_volume.root_directory
      dated_listing_volume.super_sector.root_dir_capacity = [entry_dated, entry_SUB] ∧
    dir_open dated_listing_volume [92] = Res.ok
      { content :=
          [{ name := [78, 79, 84, 69, 83, 46, 77, 68], size := 6, is_archived := 1,
             is_readonly := 1, is_system := 0, is_hidden := 0, is_directory := 0,
             creation_date := { year := 2021, month := 3, day := 15 },
             creation_time := { second := 21, minute := 37, hour := 13 } },
           { name := [83, 85, 66], size := 0, is_archived := 0,
             is_readonly := 0, is_system := 0, is_hidden := 0, is_directory := 1,
             creation_date := { year := 1980, month := 0, day := 0 },
             creation_time := { second := 0, minute := 0, hour := 0 } }]
        current := 0
        num_of_elements := 2 } ∧
    name_field_regular entry_dated.file_name ∧
    reconstructed_name entry_dated.file_name = [78, 79, 84, 69, 83, 46, 77, 68] :=
  ⟨by decide, by decide,
    (dir_open_lists_root_entries dated_listing_volume (by decide)).1.trans (by decide),
    by decide, by decide⟩

/-- Successive calls of `dir_read` from cursor `c`: call number `k + 1`
returns 0 and hands out entry `c + k`. -/
theorem dir_read_calls_spec (content : List dir_entry_t) (hint : content.length < 2147483648) :
    ∀ (k c : Nat) (pentry : dir_entry_t), c + k < content.length →
      ∃ entry, content[c + k]? = some entry ∧
        dir_read_calls k
            { content := content, current := (c : Int),
              num_of_elements := (content.length : Int) } pentry
          = Res.ok (0, { content := content, current := ((c + k + 1 : Nat) : Int),
                         num_of_elements := (content.length : Int) }, entry) := by
  intro k
  induction k with
  | zero =>
    intro c pentry hc
    refine ⟨content[c], List.getElem?_eq_getElem (by omega), ?_⟩
    simp only [dir_read_calls, dir_read, INT_LIMIT, Nat.add_zero]
    rw [if_neg (by omega), if_neg (by omega), Int.toNat_ofNat,
      List.getElem?_eq_getElem (by omega)]
    simp only []
    rw [if_neg (by omega)]
    rfl
  | succ k ih =>
    intro c pentry hc
    obtain ⟨entry, hget, hrun⟩ := ih (c + 1) content[c] (by omega)
    refine ⟨entry, by rw [← hget]; congr 1; omega, ?_⟩
    simp only [dir_read_calls, dir_read, INT_LIMIT]
    rw [if_neg (by omega), if_neg (by omega), Int.toNat_ofNat,
      List.getElem?_eq_getElem (by omega)]
    simp only []
    rw [if_neg (by omega)]
    simp only []
    have e1 : ((c : Int) + 1) = ((c + 1 : Nat) : Int) := by push_cast; rfl
    rw [e1, hrun]
    have e2 : c + 1 + k + 1 = c + (k + 1) + 1 := by omega
    rw [e2]

/-- C13: for every directory handle holding `n` entries with cursor 0, the
`i`-th call of `dir_read` (`1 ≤ i ≤ n`) returns 0, writes `content[i - 1]` to
the out-entry and leaves the cursor at `i`; a call made when the cursor equals
`n` returns 1 and leaves the handle and the out-entry unchanged; so, with no
entries, the first call returns 1. -/
theorem dir_read_enumerates_then_exhausted (content : List dir_entry_t)
    (pentry : dir_entry_t) (hint : content.length < 2147483648) :
    (∀ i, 1 ≤ i → i ≤ content.length →
      ∃ entry, content[i - 1]? = some entry ∧
        dir_read_calls (i - 1)
            { content := content, current := 0, num_of_elements := (content.length : Int) }
            pentry
          = Res.ok (0, { content := content, current := (i : Int),
                         num_of_elements := (content.length : Int) }, entry)) ∧
    (∀ out_entry : dir_entry_t,
      dir_read { content := content, current := (content.length : Int),
                 num_of_elements := (content.length : Int) } out_entry
        = Res.ok (1, { content := content, current := (content.length : Int),
                       num_of_elements := (content.length : Int) }, out_entry)) ∧
    (content = [] →
      dir_read { content := content, current := 0,
                 num_of_elements := (content.length : Int) } pentry
        = Res.ok (1, { content := content, current := 0,
                       num_of_elements := (content.length : Int) }, pentry)) := by
  refine ⟨?_, ?_, ?_⟩
  · intro i h1 hin
    obtain ⟨entry, hget, hrun⟩ := dir_read_calls_spec content hint (i - 1) 0 pentry (by omega)
    rw [Nat.zero_add] at hget
    refine ⟨entry, hget, ?_⟩
    have e0 : ((0 : Nat) : Int) = 0 := rfl
    have e1 : 0 + (i - 1) + 1 = i := by omega
    rw [e0, e1] at hrun
    exact hrun
  · intro out_entry
    simp only [dir_read, if_true]
  · intro hnil
    subst hnil
    rfl

/-- Witness for `dir_read_enumerates_then_exhausted`: the entries that
`dir_open` lists on the listing volume; the second call hands out `SUB`. -/
theorem dir_read_enumerates_then_exhausted_witness :
    listing_content.length = 2 ∧
    ∃ entry, listing_content[2 - 1]? = some entry ∧
      dir_read_calls (2 - 1)
          { content := listing_content, current := 0,
            num_of_elements := (listing_content.length : Int) } blank_dir_entry
        = Res.ok (0, { content := listing_content, current := ((2 : Nat) : Int),
                       num_of_elements := (listing_content.length : Int) }, entry) :=
  ⟨by decide,
    (dir_read_enumerates_then_exhausted listing_content blank_dir_entry (by decide)).1 2
      (by decide) (by decide)⟩

/-! ### Position and contents after a read -/

/-- The outer loop of `file_read` on a position inside the payload: the
counter grows by the number of whole elements left (at most `n`) and the
position moves over `n` elements or, if they do not fit, to the end of the
file. -/
theorem file_read_elems_position (data : List Nat) (sz es : Nat)
    (hdata : sz ≤ data.length) (hint : sz < 2147483648) (hes : 1 ≤ es) :
    ∀ (n i p : Nat) (ptr : List Nat) (r : Nat), p ≤ sz → r + (sz - p) < 2147483648 →
      (n = 0 ∨ i + n + es ≤ ptr.length + 1) →
      ∃ ptr1, ptr1.length = ptr.length ∧
        file_read_elems data (sz : Int) es n i (p : Int) ptr (r : Int)
          = Res.ok (((r + min n ((sz - p) / es) : Nat) : Int),
              ((min (p + n * es) sz : Nat) : Int), ptr1) := by
  intro n
  induction n with
  | zero =>
    intro i p ptr r hp _ _
    refine ⟨ptr, rfl, ?_⟩
    simp only [file_read_elems, Nat.zero_mul, Nat.add_zero, Nat.zero_min, Nat.min_eq_left hp]
  | succ n ih =>
    intro i p ptr r hp hr hroom
    have hmul : (n + 1) * es = n * es + es := Nat.succ_mul n es
    simp only [file_read_elems]
    by_cases heq : p = sz
    · subst heq
      refine ⟨ptr, rfl, ?_⟩
      rw [if_pos rfl, Nat.sub_self, Nat.zero_div, Nat.min_zero, Nat.add_zero,
        Nat.min_eq_right (Nat.le_add_right _ _)]
    · have hlt : p < sz := by omega
      rw [if_neg (by omega)]
      obtain ⟨ptr1, hl1, hrun⟩ :=
        file_read_bytes_spec data sz i hdata hint es 0 p ptr hp (by omega)
      rw [hrun]
      by_cases hfit : p + es ≤ sz
      · have hdiv : (sz - p) / es = (sz - (p + es)) / es + 1 := by
          rw [Nat.div_eq (sz - p) es, if_pos ⟨by omega, by omega⟩]
          congr 2
          omega
        simp only [hfit, decide_True, INT_LIMIT]
        rw [if_neg (by omega), Nat.min_eq_left hfit]
        obtain ⟨ptr2, hl2, hrun2⟩ :=
          ih (i + 1) (p + es) ptr1 (r + 1) hfit (by omega) (by omega)
        refine ⟨ptr2, by rw [hl2, hl1], ?_⟩
        have e1 : ((r : Int) + 1) = ((r + 1 : Nat) : Int) := by push_cast; rfl
        rw [e1, hrun2, hdiv, hmul]
        congr 3
        · omega
        · congr 1
          omega
      · have hdiv : (sz - p) / es = 0 := Nat.div_eq_of_lt (by omega)
        simp only [hfit, decide_False]
        refine ⟨ptr1, hl1, ?_⟩
        rw [hdiv, hmul, Nat.min_zero, Nat.add_zero, Nat.min_eq_right (by omega),
          Nat.min_eq_right (by omega)]

/-- The outer loop of `file_read` for elements of one byte: the bytes read
are stored in consecutive cells from cell `i`, and the cells before are kept. -/
theorem file_read_elems_one_byte (data : List Nat) (sz : Nat)
    (hdata : sz ≤ data.length) (hint : sz < 2147483648) :
    ∀ (n i p : Nat) (ptr : List Nat) (r : Nat), p ≤ sz → r + (sz - p) < 2147483648 →
      i + n ≤ ptr.length →
      ∃ ptr1, ptr1.length = ptr.length ∧
        file_read_elems data (sz : Int) 1 n i (p : Int) ptr (r : Int)
          = Res.ok (((r + min n (sz - p) : Nat) : Int), ((min (p + n) sz : Nat) : Int), ptr1) ∧
        (∀ m, m < i → ptr1[m]? = ptr[m]?) ∧
        (∀ m, m < min n (sz - p) → ptr1[i + m]? = data[p + m]?) := by
  intro n
  induction n with
  | zero =>
    intro i p ptr r hp _ _
    refine ⟨ptr, rfl, ?_, fun m _ => rfl, fun m hm => by omega⟩
    simp only [file_read_elems, Nat.add_zero, Nat.zero_min, Nat.min_eq_left hp]
  | succ n ih =>
    intro i p ptr r hp hr hroom
    simp only [file_read_elems]
    by_cases heq : p = sz
    · subst heq
      refine ⟨ptr, rfl, ?_, fun m _ => rfl, fun m hm => by omega⟩
      rw [if_pos rfl, Nat.sub_self, Nat.min_zero, Nat.add_zero,
        Nat.min_eq_right (Nat.le_add_right _ _)]
    · have hlt : p < sz := by omega
      have hin : p < data.length := by omega
      rw [if_neg (by omega)]
      simp only [file_read_bytes, INT_LIMIT]
      rw [if_neg (by omega), if_neg (by omega), Int.toNat_ofNat, List.getElem?_eq_getElem hin]
      simp only [Nat.add_zero]
      rw [if_neg (by omega), if_neg (by omega)]
      simp only []
      rw [if_neg (by omega)]
      obtain ⟨ptr2, hl2, hrun2, hkeep, hnew⟩ :=
        ih (i + 1) (p + 1) (ptr.set i data[p]) (r + 1) (by omega) (by omega)
          (by rw [List.length_set]; omega)
      have e1 : ((r : Int) + 1) = ((r + 1 : Nat) : Int) := by push_cast; rfl
      have e2 : ((p : Int) + 1) = ((p + 1 : Nat) : Int) := by push_cast; rfl
      refine ⟨ptr2, by rw [hl2, List.length_set], ?_, ?_, ?_⟩
      · rw [e1, e2, hrun2]
        congr 3
        · omega
        · congr 1
          omega
      · intro m hm
        rw [hkeep m (by omega), List.getElem?_set_ne (by omega)]
      · intro m hm
        cases m with
        | zero =>
          rw [Nat.add_zero, Nat.add_zero, hkeep i (by omega),
            List.getElem?_set_self (by omega), List.getElem?_eq_getElem hin]
        | succ m =>
          have := hnew m (by omega)
          rw [show i + (m + 1) = i + 1 + m by omega, show p + (m + 1) = p + 1 + m by omega]
          exact this

/-- C20 (as amended): for every file handle with `0 ≤ pos ≤ size` whose
buffer holds the `size` payload bytes, every element size `sz ≥ 1` and every
count `n` (the destination having room for `n * sz` bytes), `file_read`
returns `k = min n ((size - pos) / sz)` and leaves the position at
`min (pos + n * sz) size`: at `pos + k * sz` when the `n` elements fit, and
at the end of the file otherwise, the bytes of a trailing partial element
being consumed. -/
theorem file_read_position_after (ptr : List Nat) (size nmemb : Nat) (stream : file_t)
    (hpos : 0 ≤ stream.curr_position) (hle : stream.curr_position ≤ stream.size)
    (hint : stream.size < 2147483648)
    (hdata : stream.size ≤ stream.data.length)
    (hsz : 1 ≤ size) (hroom : nmemb * size ≤ ptr.length) :
    (∃ ptr1,
      file_read ptr size nmemb stream =
        Res.ok (((min nmemb ((stream.size - stream.curr_position).toNat / size) : Nat) : Int),
          ptr1,
          { stream with
            curr_position :=
              min (stream.curr_position + ((nmemb * size : Nat) : Int)) stream.size })) ∧
    (stream.curr_position + ((nmemb * size : Nat) : Int) ≤ stream.size →
      min (stream.curr_position + ((nmemb * size : Nat) : Int)) stream.size
        = stream.curr_position
          + ((min nmemb ((stream.size - stream.curr_position).toNat / size) * size : Nat)
            : Int)) := by
  obtain ⟨data, pos, sz⟩ := stream
  simp only at hpos hle hint hdata ⊢
  obtain ⟨p, rfl⟩ := Int.eq_ofNat_of_zero_le hpos
  obtain ⟨s, rfl⟩ := Int.eq_ofNat_of_zero_le (le_trans hpos hle)
  have hps : p ≤ s := by omega
  have hs : s < 2147483648 := by omega
  have hd : s ≤ data.length := by omega
  have hroom2 : nmemb = 0 ∨ 0 + nmemb + size ≤ ptr.length + 1 := by
    rcases Nat.eq_zero_or_pos nmemb with h0 | h0
    · exact Or.inl h0
    · right
      obtain ⟨a, rfl⟩ : ∃ a, nmemb = a + 1 := ⟨nmemb - 1, by omega⟩
      obtain ⟨b, rfl⟩ : ∃ b, size = b + 1 := ⟨size - 1, by omega⟩
      have : (a + 1) * (b + 1) = a * b + a + b + 1 := by ring
      have hab : 0 ≤ a * b := Nat.zero_le _
      omega
  obtain ⟨ptr1, -, hrun⟩ :=
    file_read_elems_position data s size hd hs hsz nmemb 0 p ptr 0 hps (by omega) hroom2
  have hsub : ((s : Int) - (p : Int)).toNat = s - p := by omega
  have hmin : min ((p : Int) + ((nmemb * size : Nat) : Int)) (s : Int)
      = ((min (p + nmemb * size) s : Nat) : Int) := by
    push_cast
    rfl
  constructor
  · refine ⟨ptr1, ?_⟩
    unfold file_read
    simp only [hsub]
    have e0 : ((0 : Nat) : Int) = 0 := rfl
    rw [e0] at hrun
    rw [hrun, hmin]
    simp
  · intro hfit
    have hfit2 : p + nmemb * size ≤ s := by
      have : ((p + nmemb * size : Nat) : Int) ≤ (s : Int) := by push_cast; exact hfit
      omega
    have hk : nmemb ≤ (s - p) / size := by
      rw [Nat.le_div_iff_mul_le (by omega)]
      omega
    rw [hsub, Nat.min_eq_left hk, Int.min_def, if_pos hfit]

/-- Witness for `file_read_position_after`: three 3-byte elements asked of
the 10-byte file at position 2. -/
theorem file_read_position_after_witness :
    ∃ ptr1,
      file_read (List.replicate 9 0) 3 3 ten_byte_file =
        Res.ok (((min 3 ((ten_byte_file.size - ten_byte_file.curr_position).toNat / 3) : Nat)
          : Int), ptr1,
          { ten_byte_file with
            curr_position :=
              min (ten_byte_file.curr_position + ((3 * 3 : Nat) : Int)) ten_byte_file.size }) :=
  (file_read_position_after (List.replicate 9 0) 3 3 ten_byte_file
    (by decide) (by decide) (by decide) (by decide) (by decide) (by decide)).1

/-- C20, as stated, fails on the 10-byte file at position 2: asked for three
3-byte elements, `file_read` returns 2 and leaves the position at 10, the end
of the file, not at `2 + 2 * 3 = 8`; the two bytes of the partial third
element are consumed. -/
theorem file_read_consumes_partial_element :
    (0 ≤ ten_byte_file.curr_position ∧ ten_byte_file.curr_position ≤ ten_byte_file.size) ∧
    file_read (List.replicate 9 0) 3 3 ten_byte_file =
      Res.ok (2, [3, 6, 9, 10, 0, 0, 0, 0, 0], { ten_byte_file with curr_position := 10 }) ∧
    (10 : Int) ≠ ten_byte_file.curr_position + 2 * 3 := by
  decide

/-- C15: for every file handle with `size ≥ 0` whose buffer holds the `size`
payload bytes, whatever its position, and every destination with room for
`size` bytes: `file_seek(f, 0, SEEK_SET)` returns 0 and moves the position
to 0; the following `file_read(dst, 1, size, f)` returns `size`, leaves
`dst[0 .. size)` equal to the payload and the position at `size`; and every
`file_read` after that returns 0 and changes nothing. -/
theorem seek_start_then_read_whole_file (ptr : List Nat) (stream : file_t) (errno : Nat)
    (hsize : 0 ≤ stream.size) (hint : stream.size < 2147483648)
    (hdata : stream.size ≤ stream.data.length)
    (hroom : stream.size ≤ ptr.length) :
    file_seek stream 0 SEEK_SET errno
      = Res.ok (0, { stream with curr_position := 0 }, errno) ∧
    (∃ ptr1,
      file_read ptr 1 stream.size.toNat { stream with curr_position := 0 }
        = Res.ok (stream.size, ptr1, { stream with curr_position := stream.size }) ∧
      ptr1.length = ptr.length ∧
      ∀ m, m < stream.size.toNat → ptr1[m]? = stream.data[m]?) ∧
    (∀ (ptr2 : List Nat) (size2 nmemb2 : Nat),
      file_read ptr2 size2 nmemb2 { stream with curr_position := stream.size }
        = Res.ok (0, ptr2, { stream with curr_position := stream.size })) := by
  obtain ⟨data, pos, sz⟩ := stream
  simp only at hsize hint hdata hroom ⊢
  obtain ⟨s, rfl⟩ := Int.eq_ofNat_of_zero_le hsize
  have hs : s < 2147483648 := by omega
  have hd : s ≤ data.length := by omega
  refine ⟨?_, ?_, ?_⟩
  · simp only [file_seek, SEEK_SET, SEEK_CUR, SEEK_END]
    rw [if_neg (by decide), if_pos trivial, if_neg (by omega)]
  · obtain ⟨ptr1, hl, hrun, -, hnew⟩ :=
      file_read_elems_one_byte data s hd hs s 0 0 ptr 0 (by omega) (by omega) (by omega)
    refine ⟨ptr1, ?_, hl, ?_⟩
    · unfold file_read
      simp only [Int.toNat_ofNat]
      have e0 : ((0 : Nat) : Int) = 0 := rfl
      rw [e0] at hrun
      rw [hrun]
      simp
    · intro m hm
      have := hnew m (by simpa using hm)
      simpa using this
  · intro ptr2 size2 nmemb2
    unfold file_read
    cases nmemb2 with
    | zero => simp [file_read_elems]
    | succ n => simp [file_read_elems]

/-- Witness for `seek_start_then_read_whole_file`: the 10-byte file at
position 2 and a destination of 10 bytes. -/
theorem seek_start_then_read_whole_file_witness :
    file_seek ten_byte_file 0 SEEK_SET 0
      = Res.ok (0, { ten_byte_file with curr_position := 0 }, 0) ∧
    file_read (List.replicate 10 0) 1 10 { ten_byte_file with curr_position := 0 }
      = Res.ok (10, [1, 2, 3, 4, 5, 6, 7, 8, 9, 10],
          { ten_byte_file with curr_position := 10 }) ∧
    (∃ ptr1,
      file_read (List.replicate 10 0) 1 ten_byte_file.size.toNat
          { ten_byte_file with curr_position := 0 }
        = Res.ok (ten_byte_file.size, ptr1,
            { ten_byte_file with curr_position := ten_byte_file.size }) ∧
      ptr1.length = (List.replicate 10 0).length ∧
      ∀ m, m < ten_byte_file.size.toNat → ptr1[m]? = ten_byte_file.data[m]?) :=
  ⟨by decide, by decide,
    (seek_start_then_read_whole_file (List.replicate 10 0) ten_byte_file 0
      (by decide) (by decide) (by decide) (by decide)).2.1⟩

/-! ### The end of a chain -/

/-- Invariant of the chain walk on a chain that reaches the sentinel
`fat_data[1]` after `m` clusters, with at least `m` clusters of bytes still
to read: the walk copies the `m` clusters, stores the terminating zero and
returns, whatever number of bytes remains. -/
theorem file_open_walk_stops_spec (pvolume : volume_t) (first s sentinel cb m : Nat)
    (hcbdef : cb = pvolume.super_sector.bytes_per_sector
      * pvolume.super_sector.sectors_per_cluster)
    (hsent : pvolume.fat_data[1]? = some sentinel)
    (h32 : pvolume.data_area.length ≤ 4294967296)
    (hchain : ∀ t, t < m →
      ∃ c, cluster_chain pvolume.fat_data first t = some c ∧ c ≠ sentinel ∧ 2 ≤ c)
    (hend : cluster_chain pvolume.fat_data first m = some sentinel)
    (hms : m * cb ≤ s)
    (hdata : ∀ t r c, t < m → r < cb →
      cluster_chain pvolume.fat_data first t = some c →
      (c - 2) * cb + r < pvolume.data_area.length) :
    ∀ (fuel t c : Nat) (data : List Nat), t ≤ m →
      cluster_chain pvolume.fat_data first t = some c →
      data.length = t * cb → m - t < fuel →
      ∃ out, file_open_walk pvolume fuel (s - t * cb) c data = Res.ok out ∧
        out.length = m * cb + 1 ∧
        (∀ k, k < data.length → out[k]? = data[k]?) ∧
        out[m * cb]? = some 0 ∧
        (∀ t1 r c1, t ≤ t1 → t1 < m → r < cb →
          cluster_chain pvolume.fat_data first t1 = some c1 →
          out[t1 * cb + r]? = pvolume.data_area[(c1 - 2) * cb + r]?) := by
  intro fuel
  induction fuel with
  | zero => intro t c data _ _ _ hf; exact absurd hf (Nat.not_lt_zero _)
  | succ fuel ih =>
    intro t c data htm hct hlen hf
    have hsucc : (t + 1) * cb = t * cb + cb := Nat.succ_mul t cb
    simp only [file_open_walk]
    rw [hsent]
    simp only []
    by_cases hlt : t < m
    · obtain ⟨c2, hc2, hne, hge⟩ := hchain t hlt
      rw [hct] at hc2
      have hcc : c2 = c := (Option.some.inj hc2).symm
      subst hcc
      have hmul : (t + 1) * cb ≤ m * cb := Nat.mul_le_mul_right cb hlt
      rw [if_pos hne, ← hcbdef, if_pos (show s - t * cb ≥ cb by omega)]
      obtain ⟨bs, hbs, hbl, hbget⟩ := copy_cluster_bytes_spec pvolume c2 hge h32 cb 0
        (fun r hr => by
          rw [← hcbdef, Nat.zero_add]
          exact hdata t r c2 hlt hr hct)
      obtain ⟨nx, hnx⟩ : ∃ nx, cluster_chain pvolume.fat_data first (t + 1) = some nx := by
        by_cases hlast : t + 1 < m
        · obtain ⟨c3, hc3, -, -⟩ := hchain (t + 1) hlast
          exact ⟨c3, hc3⟩
        · have : t + 1 = m := by omega
          rw [this]
          exact ⟨sentinel, hend⟩
      have hnx2 : get_next_cluster pvolume c2 = some nx := by
        simp only [cluster_chain, hct] at hnx
        exact hnx
      rw [hbs, hnx2]
      simp only []
      have hrem : s - t * cb - cb = s - (t + 1) * cb := by omega
      obtain ⟨out, hout, hol, hkeep, hzero, hlater⟩ :=
        ih (t + 1) nx (data ++ bs) (by omega) hnx (by simp [hlen, hbl, hsucc]) (by omega)
      rw [hrem]
      refine ⟨out, hout, hol, ?_, hzero, ?_⟩
      · intro k hk
        rw [hkeep k (by simp; omega), List.getElem?_append_left hk]
      · intro t1 r c1 ht1 ht1m hr hc1
        by_cases heq : t1 = t
        · subst heq
          rw [hct] at hc1
          have hcc : c1 = c2 := (Option.some.inj hc1).symm
          subst hcc
          rw [hkeep (t1 * cb + r) (by simp; omega),
            List.getElem?_append_right (by omega), hlen, Nat.add_sub_cancel_left,
            hbget r hr, ← hcbdef, Nat.zero_add]
        · exact hlater t1 r c1 (by omega) ht1m hr hc1
    · have htm2 : t = m := by omega
      subst htm2
      rw [hct] at hend
      have hcs : c = sentinel := Option.some.inj hend
      rw [if_neg (not_not.mpr hcs)]
      refine ⟨data ++ [0], rfl, by simp; omega, ?_, ?_, ?_⟩
      · intro k hk
        rw [List.getElem?_append_left hk]
      · rw [← hlen, List.getElem?_append_right (Nat.le_refl _)]
        simp
      · intro t1 r c1 ht1 ht1m _ _
        omega

/-- C18 (as amended): let a lookup in a volume return a root entry that is a
regular file, and let its cluster chain reach the value stored in FAT entry 1
(the sentinel the walk compares with) after `m` clusters, each numbered from
2 and lying in the data area, with `m * cb ≤ size`. Then the chain walk of
`file_open` stops there: the payload holds the bytes of those `m` clusters
and the terminating zero, nothing is copied for the sentinel and no further
FAT entry is followed, even if bytes of the reported size remain uncopied. -/
theorem file_open_stops_at_sentinel (pvolume : volume_t) (file_name : List Nat)
    (idx : Nat) (file_entry : fat_sfn_t) (sentinel fuel m : Nat)
    (hfound : search_for_file pvolume file_name = Res.ok (some (idx, file_entry)))
    (hreg : (file_entry.file_attribute &&& FAT_ATTRIB_LABEL) = 0 ∧
      (file_entry.file_attribute &&& FAT_ATTRIB_DIR) = 0)
    (hsize : file_entry.file_size + 1 < 2147483648)
    (hsent : pvolume.fat_data[1]? = some sentinel)
    (h32 : pvolume.data_area.length ≤ 4294967296)
    (hchain : ∀ t, t < m →
      ∃ c, cluster_chain pvolume.fat_data file_entry.file_first_low t = some c ∧
        c ≠ sentinel ∧ 2 ≤ c)
    (hend : cluster_chain pvolume.fat_data file_entry.file_first_low m = some sentinel)
    (hms : m * (pvolume.super_sector.bytes_per_sector
      * pvolume.super_sector.sectors_per_cluster) ≤ file_entry.file_size)
    (hdata : ∀ t r c, t < m →
      r < pvolume.super_sector.bytes_per_sector * pvolume.super_sector.sectors_per_cluster →
      cluster_chain pvolume.fat_data file_entry.file_first_low t = some c →
      (c - 2) * (pvolume.super_sector.bytes_per_sector
        * pvolume.super_sector.sectors_per_cluster) + r < pvolume.data_area.length)
    (hfuel : m < fuel) :
    ∃ f, file_open pvolume fuel file_name = Res.ok f ∧
      f.size = file_entry.file_size ∧ f.curr_position = 0 ∧
      f.data.length = m * (pvolume.super_sector.bytes_per_sector
        * pvolume.super_sector.sectors_per_cluster) + 1 ∧
      f.data[m * (pvolume.super_sector.bytes_per_sector
        * pvolume.super_sector.sectors_per_cluster)]? = some 0 ∧
      ∀ t r c, t < m →
        r < pvolume.super_sector.bytes_per_sector * pvolume.super_sector.sectors_per_cluster →
        cluster_chain pvolume.fat_data file_entry.file_first_low t = some c →
        f.data[t * (pvolume.super_sector.bytes_per_sector
            * pvolume.super_sector.sectors_per_cluster) + r]?
          = pvolume.data_area[(c - 2) * (pvolume.super_sector.bytes_per_sector
            * pvolume.super_sector.sectors_per_cluster) + r]? := by
  generalize hcbdef : pvolume.super_sector.bytes_per_sector
      * pvolume.super_sector.sectors_per_cluster = cb at hms hdata ⊢
  generalize hs : file_entry.file_size = s at hsize hms ⊢
  obtain ⟨out, hout, hol, -, hzero, hlater⟩ :=
    file_open_walk_stops_spec pvolume file_entry.file_first_low s sentinel cb m hcbdef.symm
      hsent h32 hchain hend hms hdata fuel 0 file_entry.file_first_low [] (Nat.zero_le _) rfl
      (by simp) (by omega)
  rw [Nat.zero_mul, Nat.sub_zero] at hout
  have hopen : file_open pvolume fuel file_name
      = Res.ok { data := out, curr_position := 0, size := (s : Int) } := by
    unfold file_open
    rw [hfound]
    simp only []
    unfold file_open_entry
    rw [if_neg (by rw [hreg.1, hreg.2]; simp), hs, toInt32_of_lt s (by omega)]
    simp only [INT_LIMIT]
    rw [if_neg (by omega), if_neg (by omega), if_neg (by omega),
      Nat.mod_eq_of_lt (by omega), hout]
  exact ⟨_, hopen, rfl, rfl, hol, hzero,
    fun t r c ht hr hc => hlater t r c (Nat.zero_le _) ht hr hc⟩

/-- Witness for `file_open_stops_at_sentinel`: `B.BIN` (6 bytes) on the
volume whose chain ends after the first 4-byte cluster; the payload holds 4
bytes and the terminating zero. -/
theorem file_open_stops_at_sentinel_witness :
    file_open short_chain_volume 2 [66, 46, 66, 73, 78] =
      Res.ok { data := [11, 12, 13, 14, 0], curr_position := 0, size := 6 } ∧
    ∃ f, file_open short_chain_volume 2 [66, 46, 66, 73, 78] = Res.ok f ∧
      f.size = entry_B_BIN.file_size ∧ f.curr_position = 0 ∧
      f.data.length = 1 * (short_chain_volume.super_sector.bytes_per_sector
        * short_chain_volume.super_sector.sectors_per_cluster) + 1 ∧
      f.data[1 * (short_chain_volume.super_sector.bytes_per_sector
        * short_chain_volume.super_sector.sectors_per_cluster)]? = some 0 ∧
      ∀ t r c, t < 1 →
        r < short_chain_volume.super_sector.bytes_per_sector
          * short_chain_volume.super_sector.sectors_per_cluster →
        cluster_chain short_chain_volume.fat_data entry_B_BIN.file_first_low t = some c →
        f.data[t * (short_chain_volume.super_sector.bytes_per_sector
            * short_chain_volume.super_sector.sectors_per_cluster) + r]?
          = short_chain_volume.data_area[(c - 2)
            * (short_chain_volume.super_sector.bytes_per_sector
              * short_chain_volume.super_sector.sectors_per_cluster) + r]? :=
  ⟨by decide,
    file_open_stops_at_sentinel short_chain_volume [66, 46, 66, 73, 78] 1 entry_B_BIN 0xFFF 2 1
      (by decide) (by decide) (by decide) (by decide) (by decide)
      (fun t ht => by
        have ht0 : t = 0 := by omega
        subst ht0
        exact ⟨2, by decide, by decide, by decide⟩)
      (by decide) (by decide)
      (fun t r c ht hr hc => by
        have ht0 : t = 0 := by omega
        subst ht0
        have hc2 : c = 2 := by
          have : cluster_chain short_chain_volume.fat_data entry_B_BIN.file_first_low 0
              = some 2 := by decide
          rw [this] at hc
          exact (Option.some.inj hc).symm
        subst hc2
        have hr4 : r < 4 := hr
        show (2 - 2) * (4 * 1) + r < 12
        omega)
      (by decide)⟩

/-- C18, as stated, fails on the volume whose FAT entry 1 holds `0xFFF` while
the chain of `B.BIN` (6 bytes, 4-byte clusters) ends with the end-of-chain
value `0xFF8` after cluster 2: the walk does not stop at `0xFF8`; with 2
bytes still to copy it takes `0xFF8` for the next cluster and reads the data
area at `(0xFF8 - 2) * 4`, far outside it. -/
theorem file_open_walk_passes_other_end_marker :
    marker_volume.fat_data[1]? = some 0xFFF ∧
    cluster_chain marker_volume.fat_data entry_B_BIN.file_first_low 1 = some 0xFF8 ∧
    (0xFF8 ≤ 0xFF8 ∧ 0xFF8 ≤ 0xFFF) ∧
    file_open_walk marker_volume 1 2 0xFF8 [11, 12, 13, 14] = Res.fault ∧
    file_open_walk marker_volume 1 2 0xFF8 [11, 12, 13, 14]
      ≠ Res.ok ([11, 12, 13, 14] ++ [0]) ∧
    file_open marker_volume 5 [66, 46, 66, 73, 78] = Res.fault := by
  decide

/-! ### What a successful mount implies -/

/-- A successful `disk_read` was asked for at least one block from a
non-negative block number, and delivers bytes of the image. -/
theorem disk_read_ok (pdisk : disk_t) (first_sector sectors_to_read : Int)
    (r : Int × List Nat) (h : disk_read pdisk first_sector sectors_to_read = Res.ok r) :
    0 < sectors_to_read ∧ 0 ≤ first_sector ∧ ∀ x ∈ r.2, x ∈ pdisk.disk := by
  unfold disk_read at h
  split at h
  · exact absurd h (by simp)
  · rename_i hargs
    split at h
    · exact absurd h (by simp)
    · split at h
      · exact absurd h (by simp)
      · simp only [Res.ok.injEq] at h
        refine ⟨by omega, by omega, ?_⟩
        intro x hx
        rw [← h] at hx
        exact List.mem_of_mem_drop (List.mem_of_mem_take hx)

/-- The loading steps behind a mounted volume. -/
theorem fat_open_ok_steps (pdisk : disk_t) (first_sector errno : Nat) (v : volume_t)
    (h : fat_open pdisk first_sector errno = Res.ok v) :
    read_super_sector pdisk errno = Step.done v.super_sector ∧
    validate_super_sector v.super_sector = 0 ∧
    calculate_volume_geometry v.super_sector = Res.ok v.geometry ∧
    read_fats pdisk v.super_sector v.geometry errno = Step.done (v.fat_1, v.fat_2) ∧
    read_root_dir pdisk v.super_sector v.geometry errno = Step.done v.root_directory ∧
    read_data_area pdisk v.super_sector v.geometry errno = Step.done v.data_area ∧
    read_fat_data v.fat_1 v.geometry = Res.ok v.fat_data := by
  unfold fat_open at h
  cases hs : read_super_sector pdisk errno with
  | fault => rw [hs] at h; exact absurd h (by simp)
  | code c e => rw [hs] at h; exact absurd h (by simp)
  | done super =>
    rw [hs] at h
    simp only [] at h
    by_cases hv : validate_super_sector super ≠ SUCCESS
    · rw [if_pos hv] at h; exact absurd h (by simp)
    · rw [if_neg hv] at h
      have hv0 : validate_super_sector super = 0 := not_not.mp hv
      cases hg : calculate_volume_geometry super with
      | error e => rw [hg] at h; exact absurd h (by simp)
      | fault => rw [hg] at h; exact absurd h (by simp)
      | timeout => rw [hg] at h; exact absurd h (by simp)
      | ok g =>
        rw [hg] at h
        simp only [] at h
        cases hf : read_fats pdisk super g errno with
        | fault => rw [hf] at h; exact absurd h (by simp)
        | code c e => rw [hf] at h; exact absurd h (by simp)
        | done fats =>
          obtain ⟨fat_1, fat_2⟩ := fats
          rw [hf] at h
          simp only [] at h
          cases hr : read_root_dir pdisk super g errno with
          | fault => rw [hr] at h; exact absurd h (by simp)
          | code c e => rw [hr] at h; exact absurd h (by simp)
          | done root =>
            rw [hr] at h
            simp only [] at h
            cases hd : read_data_area pdisk super g errno with
            | fault => rw [hd] at h; exact absurd h (by simp)
            | code c e => rw [hd] at h; exact absurd h (by simp)
            | done area =>
              rw [hd] at h
              simp only [] at h
              cases ht : read_fat_data fat_1 g with
              | error e => rw [ht] at h; exact absurd h (by simp)
              | fault => rw [ht] at h; exact absurd h (by simp)
              | timeout => rw [ht] at h; exact absurd h (by simp)
              | ok table =>
                rw [ht] at h
                simp only [Res.ok.injEq] at h
                subst h
                exact ⟨rfl, hv0, hg, hf, hr, hd, ht⟩

/-- The layout computed from a super-sector in range, whenever it is
computed. -/
theorem calculate_volume_geometry_layout (s : fat_super_t) (g : volume_geometry)
    (hr : s.in_range) (hg : calculate_volume_geometry s = Res.ok g) :
    g.fat_1_position = s.reserved_sectors ∧
    g.fat_2_position = s.reserved_sectors + s.sectors_per_fat ∧
    g.rootdir_position = s.reserved_sectors + s.fat_count * s.sectors_per_fat ∧
    g.rootdir_size ≤ s.root_dir_capacity * 32 + 1 ∧
    g.cluster2_position = s.reserved_sectors + s.fat_count * s.sectors_per_fat
      + g.rootdir_size ∧
    g.volume_size < 4294967296 ∧
    g.user_space = wrap32 ((g.volume_size : Int) - s.reserved_sectors
      - s.fat_count * s.sectors_per_fat - g.rootdir_size) := by
  obtain ⟨h1, h2, h3, h4, h5, h6, h7, h8⟩ := hr
  have hp : s.fat_count * s.sectors_per_fat ≤ 255 * 65535 :=
    Nat.mul_le_mul (by omega) (by omega)
  have hq : s.root_dir_capacity * 32 / s.bytes_per_sector ≤ s.root_dir_capacity * 32 :=
    Nat.div_le_self _ _
  unfold calculate_volume_geometry at hg
  simp only [sizeof_fat_sfn_t] at hg
  split at hg
  · exact absurd hg (by simp)
  · split at hg
    · exact absurd hg (by simp)
    · simp only [Res.ok.injEq] at hg
      subst hg
      simp only []
      have hprod : ((s.fat_count : Int) * (s.sectors_per_fat : Int))
          = ((s.fat_count * s.sectors_per_fat : Nat) : Int) := by push_cast; rfl
      rw [hprod]
      generalize s.fat_count * s.sectors_per_fat = p at hp ⊢
      generalize s.root_dir_capacity * 32 / s.bytes_per_sector = q at hq ⊢
      generalize s.root_dir_capacity * 32 % s.bytes_per_sector = r
      have hrs : (if r ≠ 0 then wrap32 (((wrap32 (q : Int) : Nat) : Int) + 1)
          else wrap32 (q : Int)) ≤ s.root_dir_capacity * 32 + 1 := by
        split_ifs <;> (unfold wrap32; omega)
      generalize (if r ≠ 0 then wrap32 (((wrap32 (q : Int) : Nat) : Int) + 1)
          else wrap32 (q : Int)) = c at hrs ⊢
      refine ⟨?_, ?_, ?_, hrs, ?_, ?_, trivial⟩
      · unfold wrap32; omega
      · unfold wrap32; omega
      · unfold wrap32; omega
      · unfold wrap32; omega
      · split_ifs <;> omega

theorem toInt32_pos (n : Nat) (hn : n < 4294967296) (h : 0 < toInt32 n) :
    0 < n ∧ n < 2147483648 := by
  unfold toInt32 at h
  rw [Nat.mod_eq_of_lt hn] at h
  split_ifs at h <;> omega

/-- A decoded super-sector is in range. -/
theorem read_super_sector_in_range (pdisk : disk_t) (errno : Nat) (super : fat_super_t)
    (hbytes : ∀ b ∈ pdisk.disk, b < 256)
    (h : read_super_sector pdisk errno = Step.done super) : super.in_range := by
  unfold read_super_sector at h
  cases hd : disk_read pdisk 0 1 with
  | error e => rw [hd] at h; exact absurd h (by simp)
  | fault => rw [hd] at h; exact absurd h (by simp)
  | timeout => rw [hd] at h; exact absurd h (by simp)
  | ok r =>
    obtain ⟨count, bytes⟩ := r
    rw [hd] at h
    simp only [] at h
    split at h
    · simp only [Step.done.injEq] at h
      rw [← h]
      apply of_bytes_in_range
      intro x hx
      exact hbytes x ((disk_read_ok pdisk 0 1 _ hd).2.2 x hx)
    · exact absurd h (by simp)

/-- `read_fats` only succeeds with at least one sector per FAT. -/
theorem read_fats_done_sectors (pdisk : disk_t) (super : fat_super_t) (g : volume_geometry)
    (errno : Nat) (fats : List Nat × List Nat)
    (h : read_fats pdisk super g errno = Step.done fats) : 0 < super.sectors_per_fat := by
  unfold read_fats at h
  split at h
  · exact absurd h (by simp)
  · simp only [] at h
    cases hd : disk_read pdisk (toInt32 g.fat_1_position) (super.sectors_per_fat : Int) with
    | error e => rw [hd] at h; exact absurd h (by simp)
    | fault => rw [hd] at h; exact absurd h (by simp)
    | timeout => rw [hd] at h; exact absurd h (by simp)
    | ok r =>
      have := (disk_read_ok pdisk _ _ r hd).1
      omega

/-- `read_root_dir` only succeeds with a positive `int` number of sectors. -/
theorem read_root_dir_done_sectors (pdisk : disk_t) (super : fat_super_t)
    (g : volume_geometry) (errno : Nat) (root : List fat_sfn_t)
    (h : read_root_dir pdisk super g errno = Step.done root) : 0 < toInt32 g.rootdir_size := by
  unfold read_root_dir at h
  simp only [] at h
  cases hd : disk_read pdisk (toInt32 g.rootdir_position) (toInt32 g.rootdir_size) with
  | error e => rw [hd] at h; exact absurd h (by simp)
  | fault => rw [hd] at h; exact absurd h (by simp)
  | timeout => rw [hd] at h; exact absurd h (by simp)
  | ok r => exact (disk_read_ok pdisk _ _ r hd).1

/-- `read_data_area` only succeeds with a positive `int` number of sectors. -/
theorem read_data_area_done_sectors (pdisk : disk_t) (super : fat_super_t)
    (g : volume_geometry) (errno : Nat) (area : List Nat)
    (h : read_data_area pdisk super g errno = Step.done area) : 0 < toInt32 g.user_space := by
  unfold read_data_area at h
  simp only [] at h
  cases hd : disk_read pdisk (toInt32 g.cluster2_position) (toInt32 g.user_space) with
  | error e => rw [hd] at h; exact absurd h (by simp)
  | fault => rw [hd] at h; exact absurd h (by simp)
  | timeout => rw [hd] at h; exact absurd h (by simp)
  | ok r => exact (disk_read_ok pdisk _ _ r hd).1

/-- C14: for every volume that `fat_open` mounts from a device of bytes, the
geometry satisfies `fat1_lba < fat2_lba ≤ rootdir_lba < data_lba ≤
volume_sectors`. -/
theorem fat_open_geometry_ordered (pdisk : disk_t) (first_sector errno : Nat) (v : volume_t)
    (hbytes : ∀ b ∈ pdisk.disk, b < 256)
    (h : fat_open pdisk first_sector errno = Res.ok v) :
    v.geometry.fat_1_position < v.geometry.fat_2_position ∧
    v.geometry.fat_2_position ≤ v.geometry.rootdir_position ∧
    v.geometry.rootdir_position < v.geometry.cluster2_position ∧
    v.geometry.cluster2_position ≤ v.geometry.volume_size := by
  obtain ⟨hsup, hvalid, hg, hfats, hroot, harea, -⟩ :=
    fat_open_ok_steps pdisk first_sector errno v h
  have hrange := read_super_sector_in_range pdisk errno _ hbytes hsup
  obtain ⟨l1, l2, l3, l4, l5, l6, l7⟩ :=
    calculate_volume_geometry_layout _ _ hrange hg
  have hspf := read_fats_done_sectors _ _ _ _ _ hfats
  have hrs := read_root_dir_done_sectors _ _ _ _ _ hroot
  have hus := read_data_area_done_sectors _ _ _ _ _ harea
  have hacc := (validate_super_sector_zero_count _ hvalid)
  obtain ⟨h1, h2, h3, h4, h5, h6, h7, h8⟩ := hrange
  have hp : v.super_sector.fat_count * v.super_sector.sectors_per_fat ≤ 255 * 65535 :=
    Nat.mul_le_mul (by omega) (by omega)
  have hp2 : v.super_sector.sectors_per_fat
      ≤ v.super_sector.fat_count * v.super_sector.sectors_per_fat :=
    Nat.le_mul_of_pos_left _ (by omega)
  have hprod : ((v.super_sector.fat_count : Int) * (v.super_sector.sectors_per_fat : Int))
      = ((v.super_sector.fat_count * v.super_sector.sectors_per_fat : Nat) : Int) := by
    push_cast; rfl
  rw [hprod] at l7
  generalize v.super_sector.fat_count * v.super_sector.sectors_per_fat = p at *
  have hrs2 := toInt32_pos _ (by omega) hrs
  have hus0 : v.geometry.user_space < 4294967296 := by
    rw [l7]; unfold wrap32; omega
  have hus2 := toInt32_pos _ hus0 hus
  rw [l7] at hus2
  unfold wrap32 at hus2
  refine ⟨by omega, by omega, by omega, ?_⟩
  rw [l5]
  omega

/-! ### A volume that mounts -/

/-- With 512-byte sectors and a readable root-directory region,
`read_root_dir` delivers the records of that region. -/
theorem read_root_dir_readable (pdisk : disk_t) (super : fat_super_t) (g : volume_geometry)
    (errno : Nat) (hblk : pdisk.size_of_block = 512) (hbps : super.bytes_per_sector = 512)
    (hpos : g.rootdir_position < 4194304) (hsize : g.rootdir_size < 4194304)
    (hr : sectors_readable pdisk g.rootdir_position g.rootdir_size) :
    read_root_dir pdisk super g errno
      = Step.done (root_entries (disk_sectors pdisk g.rootdir_position g.rootdir_size)) := by
  obtain ⟨hd, hl⟩ := disk_read_readable pdisk g.rootdir_position g.rootdir_size hblk hpos hr
  unfold read_root_dir
  rw [toInt32_of_lt _ (by omega), toInt32_of_lt _ (by omega), hd, hbps]
  simp only []
  have hw : wrap32 ((g.rootdir_size : Int) * ((512 : Nat) : Int)) = g.rootdir_size * 512 := by
    have : ((g.rootdir_size : Int) * ((512 : Nat) : Int))
        = ((g.rootdir_size * 512 : Nat) : Int) := by push_cast; rfl
    rw [this, wrap32_of_lt _ (by omega)]
  rw [hw, hl, if_neg (by omega)]

/-- With 512-byte sectors and a readable data region, `read_data_area`
delivers the bytes of that region. -/
theorem read_data_area_readable (pdisk : disk_t) (super : fat_super_t) (g : volume_geometry)
    (errno : Nat) (hblk : pdisk.size_of_block = 512) (hbps : super.bytes_per_sector = 512)
    (hpos : g.cluster2_position < 4194304) (hsize : g.user_space < 4194304)
    (hr : sectors_readable pdisk g.cluster2_position g.user_space) :
    read_data_area pdisk super g errno
      = Step.done (disk_sectors pdisk g.cluster2_position g.user_space) := by
  obtain ⟨hd, hl⟩ := disk_read_readable pdisk g.cluster2_position g.user_space hblk hpos hr
  unfold read_data_area
  rw [toInt32_of_lt _ (by omega), toInt32_of_lt _ (by omega), hd, hbps]
  simp only []
  have hw : wrap32 ((g.user_space : Int) * ((512 : Nat) : Int)) = g.user_space * 512 := by
    have : ((g.user_space : Int) * ((512 : Nat) : Int))
        = ((g.user_space * 512 : Nat) : Int) := by push_cast; rfl
    rw [this, wrap32_of_lt _ (by omega)]
  rw [hw, hl, if_neg (by omega)]

/-- Blocks 3 and 4 of a device whose image is five 512-byte blocks. -/
theorem disk_open_from_file_last_blocks (b0 b1 b2 b3 b4 : List Nat)
    (h0 : b0.length = 512) (h1 : b1.length = 512) (h2 : b2.length = 512)
    (h3 : b3.length = 512) (h4 : b4.length = 512) :
    disk_sectors (disk_open_from_file (b0 ++ (b1 ++ (b2 ++ (b3 ++ b4))))) 3 1 = b3 ∧
    disk_sectors (disk_open_from_file (b0 ++ (b1 ++ (b2 ++ (b3 ++ b4))))) 4 1 = b4 := by
  constructor
  · simp only [disk_sectors, disk_open_from_file]
    rw [Nat.one_mul, ← List.append_assoc b1, ← List.append_assoc b0,
      List.drop_left' (by rw [List.length_append, List.length_append, h0, h1, h2]),
      List.take_left' h3]
  · simp only [disk_sectors, disk_open_from_file]
    rw [Nat.one_mul, ← List.append_assoc b2, ← List.append_assoc b1, ← List.append_assoc b0,
      List.drop_left' (by
        rw [List.length_append, List.length_append, List.length_append, h0, h1, h2, h3]),
      ← h4, List.take_length]

theorem fat_sector_chain_length : fat_sector_chain.length = 512 := by
  simp only [fat_sector_chain, List.length_append, List.length_cons, List.length_nil,
    List.length_replicate]

theorem root_sector_sample_length : root_sector_sample.length = 512 := by
  simp only [root_sector_sample, List.length_append, List.length_cons, List.length_nil,
    List.length_replicate]

theorem data_sector_sample_length : data_sector_sample.length = 512 := by
  simp only [data_sector_sample, List.length_append, List.length_cons, List.length_nil,
    List.length_replicate]

/-- Every entry of the mountable sample image is a byte. -/
theorem image_mounted_bytes : ∀ b ∈ (disk_open_from_file image_mounted).disk, b < 256 := by
  intro b hb
  have hb2 : b ∈ image_mounted := hb
  simp only [image_mounted, boot_sector, fat_sector_chain, root_sector_sample,
    data_sector_sample, List.mem_append, List.mem_cons, List.mem_replicate,
    List.mem_singleton, List.not_mem_nil, or_false] at hb2
  omega

/-- With `total_clusters = 2` the table is decoded from the first three
bytes of the FAT. -/
theorem read_fat_data_first_pair (b0 b1 b2 : Nat) (rest : List Nat) (g : volume_geometry)
    (ht : g.total_clusters = 2) :
    read_fat_data (b0 :: b1 :: b2 :: rest) g
      = Res.ok [(((b1 &&& 0x0F) <<< 8) ||| b0) % 65536,
          ((b2 <<< 4) ||| ((b1 &&& 0xF0) >>> 4)) % 65536] := by
  unfold read_fat_data
  rw [ht]
  simp [read_fat_data_loop]

/-- The table that `read_fat_data` returns has at most `total_clusters`
slots, so it has no slot for the indices `total_clusters` and
`total_clusters + 1`. -/
theorem read_fat_data_length_le (fat_1 : List Nat) (g : volume_geometry) (slots : List Nat)
    (h : read_fat_data fat_1 g = Res.ok slots) :
    slots.length ≤ g.total_clusters ∧ slots[g.total_clusters]? = none ∧
    slots[g.total_clusters + 1]? = none := by
  unfold read_fat_data at h
  cases hl : read_fat_data_loop fat_1 g.total_clusters g.total_clusters 0 0 [] with
  | error e => rw [hl] at h; exact absurd h (by simp)
  | fault => rw [hl] at h; exact absurd h (by simp)
  | timeout => rw [hl] at h; exact absurd h (by simp)
  | ok r =>
    rw [hl] at h
    simp only [] at h
    split at h
    · exact absurd h (by simp)
    · simp only [Res.ok.injEq] at h
      subst h
      have hle : r.length ≤ g.total_clusters := by omega
      exact ⟨hle, List.getElem?_eq_none (by omega), List.getElem?_eq_none (by omega)⟩

/-- The sample image mounts: `fat_open` returns `mounted_sample`. -/
theorem image_mounted_opens :
    fat_open (disk_open_from_file image_mounted) 0 0 = Res.ok mounted_sample := by
  have hrest : (root_sector_sample ++ data_sector_sample).length = 1024 := by
    rw [List.length_append, root_sector_sample_length, data_sector_sample_length]
  obtain ⟨e0, e1, e2, hlen, hnum⟩ := disk_open_from_file_blocks (boot_sector 0 2)
    fat_sector_chain fat_sector_chain (root_sector_sample ++ data_sector_sample)
    (boot_sector_length 0 2) fat_sector_chain_length fat_sector_chain_length hrest
  obtain ⟨e3, e4⟩ := disk_open_from_file_last_blocks (boot_sector 0 2)
    fat_sector_chain fat_sector_chain root_sector_sample data_sector_sample
    (boot_sector_length 0 2) fat_sector_chain_length fat_sector_chain_length
    root_sector_sample_length data_sector_sample_length
  have hblk : (disk_open_from_file image_mounted).size_of_block = 512 := rfl
  have hread : ∀ first, first + 1 ≤ 5 →
      sectors_readable (disk_open_from_file image_mounted) first 1 := by
    intro first hfirst
    unfold sectors_readable
    rw [hblk]
    unfold image_mounted
    rw [hlen, hnum]
    omega
  have hsuper : fat_super_t.of_bytes (disk_sectors (disk_open_from_file image_mounted) 0 1)
      = mounted_sample.super_sector := by
    unfold image_mounted
    rw [e0]
    decide
  have hsup : read_super_sector (disk_open_from_file image_mounted) 0
      = Step.done mounted_sample.super_sector := by
    rw [read_super_sector_readable _ 0 hblk (hread 0 (by omega)), hsuper]
  have hgeo : calculate_volume_geometry mounted_sample.super_sector
      = Res.ok mounted_sample.geometry := by decide
  have hfats : read_fats (disk_open_from_file image_mounted) mounted_sample.super_sector
      mounted_sample.geometry 0 = Step.done (fat_sector_chain, fat_sector_chain) := by
    rw [read_fats_spec (disk_open_from_file image_mounted) mounted_sample.super_sector
      mounted_sample.geometry 0 hblk (by decide) rfl rfl rfl (hread 1 (by omega))
      (hread 2 (by omega))]
    have s1 : disk_sectors (disk_open_from_file image_mounted)
        mounted_sample.super_sector.reserved_sectors
        mounted_sample.super_sector.sectors_per_fat = fat_sector_chain := by
      unfold image_mounted; exact e1
    have s2 : disk_sectors (disk_open_from_file image_mounted)
        (mounted_sample.super_sector.reserved_sectors
          + mounted_sample.super_sector.sectors_per_fat)
        mounted_sample.super_sector.sectors_per_fat = fat_sector_chain := by
      unfold image_mounted; exact e2
    rw [s1, s2, if_pos rfl]
  have hroot : read_root_dir (disk_open_from_file image_mounted) mounted_sample.super_sector
      mounted_sample.geometry 0 = Step.done (root_entries root_sector_sample) := by
    rw [read_root_dir_readable _ _ _ 0 hblk rfl (by decide) (by decide) (hread 3 (by omega))]
    have s3 : disk_sectors (disk_open_from_file image_mounted)
        mounted_sample.geometry.rootdir_position mounted_sample.geometry.rootdir_size
        = root_sector_sample := by
      unfold image_mounted; exact e3
    rw [s3]
  have harea : read_data_area (disk_open_from_file image_mounted) mounted_sample.super_sector
      mounted_sample.geometry 0 = Step.done data_sector_sample := by
    rw [read_data_area_readable _ _ _ 0 hblk rfl (by decide) (by decide) (hread 4 (by omega))]
    have s4 : disk_sectors (disk_open_from_file image_mounted)
        mounted_sample.geometry.cluster2_position mounted_sample.geometry.user_space
        = data_sector_sample := by
      unfold image_mounted; exact e4
    rw [s4]
  have hdec : read_fat_data fat_sector_chain mounted_sample.geometry
      = Res.ok [0xFF8, 0xFFF] := by
    have hcons : fat_sector_chain = 0xF8 :: 0xFF :: 0xFF :: List.replicate 509 0 := by
      simp only [fat_sector_chain, List.cons_append, List.nil_append]
    rw [hcons, read_fat_data_first_pair _ _ _ _ _ rfl]
    decide
  rw [fat_open_of_read_fats _ 0 0 _ _ hsup (by decide) hgeo, hfats]
  simp only []
  rw [hroot]
  simp only []
  rw [harea]
  simp only []
  rw [hdec]
  rfl

/-- Witness for `fat_open_geometry_ordered`: the sample image mounts, and
its regions lie at sectors 1, 2, 3 and 4 of a volume of 5 sectors. -/
theorem fat_open_geometry_ordered_witness :
    (∀ b ∈ (disk_open_from_file image_mounted).disk, b < 256) ∧
    fat_open (disk_open_from_file image_mounted) 0 0 = Res.ok mounted_sample ∧
    mounted_sample.geometry.fat_1_position < mounted_sample.geometry.fat_2_position ∧
    mounted_sample.geometry.fat_2_position ≤ mounted_sample.geometry.rootdir_position ∧
    mounted_sample.geometry.rootdir_position < mounted_sample.geometry.cluster2_position ∧
    mounted_sample.geometry.cluster2_position ≤ mounted_sample.geometry.volume_size :=
  ⟨image_mounted_bytes, image_mounted_opens,
    fat_open_geometry_ordered (disk_open_from_file image_mounted) 0 0 mounted_sample
      image_mounted_bytes image_mounted_opens⟩

/-! ### The size of the decoded table -/

/-- C17: the decoded table does not cover the cluster indices
`[0, total_clusters + 1]`. The sample image mounts with `total_clusters = 2`
and a table of two slots, so `get_next_cluster` has no slot for cluster 2,
the only data cluster of the volume. With `total_clusters = 3` the decoding
loop writes four slots, one more than `read_fat_data` allocated. -/
theorem read_fat_data_table_too_short :
    fat_open (disk_open_from_file image_mounted) 0 0 = Res.ok mounted_sample ∧
    mounted_sample.geometry.total_clusters = 2 ∧
    mounted_sample.fat_data.length = 2 ∧
    (2 ≤ 2 ∧ 2 < mounted_sample.geometry.total_clusters + 2) ∧
    get_next_cluster mounted_sample 2 = none ∧
    read_fat_data_loop [0xF8, 0xFF, 0xFF, 0, 0, 0] 3 3 0 0 []
      = Res.ok [0xFF8, 0xFFF, 0, 0] ∧
    read_fat_data [0xF8, 0xFF, 0xFF, 0, 0, 0] (geometry_with_total 3) = Res.fault :=
  ⟨image_mounted_opens, rfl, rfl, by decide, rfl, by decide, by decide⟩

/-! ### A failed seek -/

/-- C21: a failing `file_seek` leaves the handle unchanged. Whatever `errno`
holds on entry, each of the four rejections (a `whence` that is none of
`SEEK_SET`, `SEEK_CUR`, `SEEK_END`; a target above `size` for `SEEK_SET` and
`SEEK_CUR`; a target below 0 for `SEEK_END`) returns -1, sets `errno` and
returns the handle as it was. Every call that returns is either such a
rejection (-1, handle unchanged, `errno` set to `EINVAL` or `ENXIO`) or an
accepted seek (the new position is returned, `errno`, `size` and the payload
are untouched); so a call that returns -1 has left the handle unchanged,
unless it is an accepted seek to position -1. When `errno` is neither
`EINVAL` nor `ENXIO` on entry, a call that leaves one of the two in `errno`
is a rejection. -/
theorem file_seek_failure_leaves_handle (stream : file_t) (offset whence : Int)
    (errno : Nat) :
    ((whence ≠ SEEK_SET ∧ whence ≠ SEEK_CUR ∧ whence ≠ SEEK_END) →
      file_seek stream offset whence errno = Res.ok (-1, stream, EINVAL)) ∧
    (whence = SEEK_SET → offset > stream.size →
      file_seek stream offset whence errno = Res.ok (-1, stream, ENXIO)) ∧
    (whence = SEEK_CUR →
      -INT_LIMIT ≤ offset + stream.curr_position ∧ offset + stream.curr_position < INT_LIMIT →
      offset + stream.curr_position > stream.size →
      file_seek stream offset whence errno = Res.ok (-1, stream, ENXIO)) ∧
    (whence = SEEK_END →
      -INT_LIMIT ≤ stream.size + offset ∧ stream.size + offset < INT_LIMIT →
      stream.size + offset < 0 →
      file_seek stream offset whence errno = Res.ok (-1, stream, ENXIO)) ∧
    (∀ (r : Int) (s : file_t) (e : Nat),
      file_seek stream offset whence errno = Res.ok (r, s, e) →
      (r = -1 ∧ s = stream ∧ (e = EINVAL ∨ e = ENXIO)) ∨
      (r = s.curr_position ∧ e = errno ∧ s.size = stream.size ∧ s.data = stream.data ∧
        (whence = SEEK_SET ∨ whence = SEEK_CUR ∨ whence = SEEK_END))) ∧
    (∀ (r : Int) (s : file_t) (e : Nat),
      file_seek stream offset whence errno = Res.ok (r, s, e) → r = -1 →
      (s.curr_position = stream.curr_position ∧ s.size = stream.size ∧
        s.data = stream.data) ∨
      (s = { stream with curr_position := -1 } ∧ e = errno)) ∧
    (∀ (r : Int) (s : file_t) (e : Nat), errno ≠ EINVAL → errno ≠ ENXIO →
      file_seek stream offset whence errno = Res.ok (r, s, e) → e = EINVAL ∨ e = ENXIO →
      r = -1 ∧ s = stream ∧ s.curr_position = stream.curr_position ∧
        s.size = stream.size ∧ s.data = stream.data) := by
  have hcases : ∀ (r : Int) (s : file_t) (e : Nat),
      file_seek stream offset whence errno = Res.ok (r, s, e) →
      (r = -1 ∧ s = stream ∧ (e = EINVAL ∨ e = ENXIO)) ∨
      (r = s.curr_position ∧ e = errno ∧ s = { stream with curr_position := r } ∧
        (whence = SEEK_SET ∨ whence = SEEK_CUR ∨ whence = SEEK_END)) := by
    intro r s e h
    unfold file_seek at h
    split_ifs at h with hw h1 h2 h3 h4 h5 h6 h7 <;>
      simp only [Res.ok.injEq, Prod.mk.injEq, reduceCtorEq] at h
    all_goals obtain ⟨rfl, rfl, rfl⟩ := h
    · exact Or.inl ⟨rfl, rfl, Or.inl rfl⟩
    · exact Or.inl ⟨rfl, rfl, Or.inr rfl⟩
    · exact Or.inr ⟨rfl, rfl, rfl, Or.inl h1⟩
    · exact Or.inl ⟨rfl, rfl, Or.inr rfl⟩
    · exact Or.inr ⟨rfl, rfl, rfl, Or.inr (Or.inl (by assumption))⟩
    · exact Or.inl ⟨rfl, rfl, Or.inr rfl⟩
    · refine Or.inr ⟨rfl, rfl, rfl, Or.inr (Or.inr ?_)⟩
      by_contra hne
      exact hw ⟨by assumption, by assumption, hne⟩
  refine ⟨?_, ?_, ?_, ?_, ?_, ?_, ?_⟩
  · intro hw
    unfold file_seek
    rw [if_pos hw]
  · intro hw ho
    subst hw
    unfold file_seek
    rw [if_neg (by decide), if_pos rfl, if_pos ho]
  · intro hw hfit ho
    subst hw
    unfold file_seek
    rw [if_neg (by decide), if_neg (by decide), if_pos rfl, if_neg (by omega), if_pos ho]
  · intro hw hfit ho
    subst hw
    unfold file_seek
    rw [if_neg (by decide), if_neg (by decide), if_neg (by decide), if_neg (by omega),
      if_pos ho]
  · intro r s e h
    rcases hcases r s e h with hrej | ⟨hr, he, hs, hw⟩
    · exact Or.inl hrej
    · refine Or.inr ⟨hr, he, ?_, ?_, hw⟩
      · rw [hs]
      · rw [hs]
  · intro r s e h hr
    rcases hcases r s e h with ⟨-, hs, -⟩ | ⟨-, he, hs, -⟩
    · left
      rw [hs]
      exact ⟨rfl, rfl, rfl⟩
    · right
      rw [hr] at hs
      exact ⟨hs, he⟩
  · intro r s e he1 he2 h he
    rcases hcases r s e h with ⟨hr, hs, -⟩ | ⟨-, he3, -, -⟩
    · subst hs
      exact ⟨hr, rfl, rfl, rfl, rfl⟩
    · rw [he3] at he
      rcases he with he | he
      · exact absurd he he1
      · exact absurd he he2

/-- Witness for `file_seek_failure_leaves_handle`: on the 10-byte file at
position 2, `SEEK_SET` to 11 is rejected with `ENXIO` whatever `errno` held
(here `ENXIO`, left by an earlier rejected seek), and the handle is as
before. -/
theorem file_seek_failure_leaves_handle_witness :
    (11 : Int) > ten_byte_file.size ∧
    file_seek ten_byte_file 11 SEEK_SET ENXIO = Res.ok (-1, ten_byte_file, ENXIO) :=
  ⟨by decide,
    (file_seek_failure_leaves_handle ten_byte_file 11 SEEK_SET ENXIO).2.1 rfl (by decide)⟩

/-! ### Termination of the chain walk -/

/-- A copy loop that succeeds delivers as many bytes as it was asked for. -/
theorem copy_cluster_bytes_length (pvolume : volume_t) (c : Nat) :
    ∀ (count i : Nat) (bs : List Nat),
      copy_cluster_bytes pvolume c count i = some bs → bs.length = count := by
  intro count
  induction count with
  | zero =>
    intro i bs h
    simp only [copy_cluster_bytes, Option.some.injEq] at h
    rw [← h]
    rfl
  | succ n ih =>
    intro i bs h
    simp only [copy_cluster_bytes] at h
    cases hb : pvolume.data_area[cluster_byte_index pvolume c i]? with
    | none => rw [hb] at h; exact absurd h (by simp)
    | some b =>
      rw [hb] at h
      simp only [] at h
      cases hrest : copy_cluster_bytes pvolume c n (i + 1) with
      | none => rw [hrest] at h; exact absurd h (by simp)
      | some rest =>
        rw [hrest] at h
        simp only [Option.some.injEq] at h
        rw [← h, List.length_cons, ih (i + 1) rest hrest]

/-- With clusters of at least one byte, the walk over any table ends within
`s / cb + 1` iterations, and a payload it returns holds at most `s` copied
bytes before the terminating zero. -/
theorem file_open_walk_bounded (pvolume : volume_t)
    (hcb : 1 ≤ pvolume.super_sector.bytes_per_sector
      * pvolume.super_sector.sectors_per_cluster) :
    ∀ (fuel s cluster : Nat) (data : List Nat),
      s / (pvolume.super_sector.bytes_per_sector
        * pvolume.super_sector.sectors_per_cluster) < fuel →
      file_open_walk pvolume fuel s cluster data ≠ Res.timeout ∧
      ∀ out, file_open_walk pvolume fuel s cluster data = Res.ok out →
        ∃ copied, out = data ++ copied ++ [0] ∧ copied.length ≤ s := by
  generalize hcbdef : pvolume.super_sector.bytes_per_sector
    * pvolume.super_sector.sectors_per_cluster = cb at hcb
  intro fuel
  induction fuel with
  | zero =>
    intro s cluster data hf
    exact absurd hf (Nat.not_lt_zero _)
  | succ n ih =>
    intro s cluster data hf
    simp only [file_open_walk, hcbdef]
    cases hs1 : pvolume.fat_data[1]? with
    | none => exact ⟨by simp, fun out h => absurd h (by simp)⟩
    | some sentinel =>
      simp only []
      by_cases hne : cluster ≠ sentinel
      · rw [if_pos hne]
        by_cases hge : s ≥ cb
        · rw [if_pos hge]
          cases hcopy : copy_cluster_bytes pvolume cluster cb 0 with
          | none => exact ⟨by simp, fun out h => absurd h (by simp)⟩
          | some bytes =>
            simp only []
            cases hnext : get_next_cluster pvolume cluster with
            | none => exact ⟨by simp, fun out h => absurd h (by simp)⟩
            | some next =>
              simp only []
              have hlen := copy_cluster_bytes_length pvolume cluster cb 0 bytes hcopy
              have hdiv : (s - cb) / cb < n := by
                have h1 : s = (s - cb) + cb := by omega
                have h2 : ((s - cb) + cb) / cb = (s - cb) / cb + 1 :=
                  Nat.add_div_right _ (by omega)
                rw [h1, h2] at hf
                omega
              obtain ⟨ht, hout⟩ := ih (s - cb) next (data ++ bytes) hdiv
              refine ⟨ht, fun out h => ?_⟩
              obtain ⟨copied, hc1, hc2⟩ := hout out h
              refine ⟨bytes ++ copied, ?_, ?_⟩
              · rw [hc1]
                simp only [List.append_assoc]
              · rw [List.length_append, hlen]
                omega
        · rw [if_neg hge]
          cases hcopy : copy_cluster_bytes pvolume cluster s 0 with
          | none => exact ⟨by simp, fun out h => absurd h (by simp)⟩
          | some bytes =>
            simp only []
            have hlen := copy_cluster_bytes_length pvolume cluster s 0 bytes hcopy
            refine ⟨by simp, fun out h => ?_⟩
            simp only [Res.ok.injEq] at h
            exact ⟨bytes, h.symm, by omega⟩
      · rw [if_neg hne]
        refine ⟨by simp, fun out h => ?_⟩
        simp only [Res.ok.injEq] at h
        refine ⟨[], ?_, by simp⟩
        rw [← h, List.append_nil]

/-- When the clusters the table leads to stay inside a set of clusters that
lie in the data area and have a table entry, the walk returns a payload
within `s / cb + 1` iterations, whether or not it reaches the value of table
entry 1. -/
theorem file_open_walk_returns (pvolume : volume_t) (sentinel : Nat) (good : Nat → Prop)
    (hcb : 1 ≤ pvolume.super_sector.bytes_per_sector
      * pvolume.super_sector.sectors_per_cluster)
    (h32 : pvolume.data_area.length ≤ 4294967296)
    (hsent : pvolume.fat_data[1]? = some sentinel)
    (hgood : ∀ c, good c → c ≠ sentinel →
      2 ≤ c ∧
      (c - 2) * (pvolume.super_sector.bytes_per_sector
        * pvolume.super_sector.sectors_per_cluster)
        + pvolume.super_sector.bytes_per_sector * pvolume.super_sector.sectors_per_cluster
        ≤ pvolume.data_area.length ∧
      ∃ next, pvolume.fat_data[c]? = some next ∧ good next) :
    ∀ (fuel s cluster : Nat) (data : List Nat),
      s / (pvolume.super_sector.bytes_per_sector
        * pvolume.super_sector.sectors_per_cluster) < fuel →
      good cluster →
      ∃ copied, file_open_walk pvolume fuel s cluster data = Res.ok (data ++ copied ++ [0]) ∧
        copied.length ≤ s := by
  intro fuel
  induction fuel with
  | zero =>
    intro s cluster data hf
    exact absurd hf (Nat.not_lt_zero _)
  | succ n ih =>
    intro s cluster data hf hg
    simp only [file_open_walk, hsent]
    by_cases hne : cluster ≠ sentinel
    · rw [if_pos hne]
      obtain ⟨hc2, hin, next, hnext, hgnext⟩ := hgood cluster hg hne
      by_cases hge : s ≥ pvolume.super_sector.bytes_per_sector
          * pvolume.super_sector.sectors_per_cluster
      · rw [if_pos hge]
        obtain ⟨bytes, hcopy, hlen, -⟩ := copy_cluster_bytes_spec pvolume cluster hc2 h32
          (pvolume.super_sector.bytes_per_sector * pvolume.super_sector.sectors_per_cluster) 0
          (fun r hr => by omega)
        rw [hcopy]
        simp only []
        have hn2 : get_next_cluster pvolume cluster = some next := hnext
        rw [hn2]
        simp only []
        have hdiv : (s - pvolume.super_sector.bytes_per_sector
            * pvolume.super_sector.sectors_per_cluster)
            / (pvolume.super_sector.bytes_per_sector
              * pvolume.super_sector.sectors_per_cluster) < n := by
          generalize pvolume.super_sector.bytes_per_sector
            * pvolume.super_sector.sectors_per_cluster = cb at hcb hge hf ⊢
          have h1 : s = (s - cb) + cb := by omega
          have h2 : ((s - cb) + cb) / cb = (s - cb) / cb + 1 :=
            Nat.add_div_right _ (by omega)
          rw [h1, h2] at hf
          omega
        obtain ⟨copied, hrun, hcl⟩ := ih _ next (data ++ bytes) hdiv hgnext
        refine ⟨bytes ++ copied, ?_, ?_⟩
        · rw [hrun]
          simp only [List.append_assoc]
        · rw [List.length_append, hlen]
          omega
      · rw [if_neg hge]
        obtain ⟨bytes, hcopy, hlen, -⟩ := copy_cluster_bytes_spec pvolume cluster hc2 h32 s 0
          (fun r hr => by omega)
        rw [hcopy]
        exact ⟨bytes, rfl, by omega⟩
    · rw [if_neg hne]
      exact ⟨[], by rw [List.append_nil], by simp⟩

/-- C22: in every volume whose clusters have `cb ≥ 1` bytes, for every
decoded table, every first cluster and every size `s`, the chain walk of
`file_open` ends within `s / cb + 1` iterations (it never uses up a budget
of more than `s / cb` iterations), and a payload it returns holds at most
`s` copied bytes before the terminating zero; `file_open_entry` inherits the
bound. When the clusters the table leads to stay inside a set of clusters
that lie in the data area and have a table entry (a cycle included), the
walk does return a payload within that number of iterations. -/
theorem file_open_walk_terminates (pvolume : volume_t) (fuel s cluster : Nat)
    (data : List Nat)
    (hcb : 1 ≤ pvolume.super_sector.bytes_per_sector
      * pvolume.super_sector.sectors_per_cluster)
    (hfuel : s / (pvolume.super_sector.bytes_per_sector
      * pvolume.super_sector.sectors_per_cluster) < fuel) :
    file_open_walk pvolume fuel s cluster data ≠ Res.timeout ∧
    (∀ out, file_open_walk pvolume fuel s cluster data = Res.ok out →
      ∃ copied, out = data ++ copied ++ [0] ∧ copied.length ≤ s) ∧
    (∀ (sentinel : Nat) (good : Nat → Prop),
      pvolume.data_area.length ≤ 4294967296 →
      pvolume.fat_data[1]? = some sentinel →
      (∀ c, good c → c ≠ sentinel →
        2 ≤ c ∧
        (c - 2) * (pvolume.super_sector.bytes_per_sector
          * pvolume.super_sector.sectors_per_cluster)
          + pvolume.super_sector.bytes_per_sector * pvolume.super_sector.sectors_per_cluster
          ≤ pvolume.data_area.length ∧
        ∃ next, pvolume.fat_data[c]? = some next ∧ good next) →
      good cluster →
      ∃ copied, file_open_walk pvolume fuel s cluster data = Res.ok (data ++ copied ++ [0]) ∧
        copied.length ≤ s) ∧
    (∀ (file_entry : fat_sfn_t) (budget : Nat),
      file_entry.file_size % 4294967296 / (pvolume.super_sector.bytes_per_sector
        * pvolume.super_sector.sectors_per_cluster) < budget →
      file_open_entry pvolume budget file_entry ≠ Res.timeout) := by
  refine ⟨(file_open_walk_bounded pvolume hcb fuel s cluster data hfuel).1,
    (file_open_walk_bounded pvolume hcb fuel s cluster data hfuel).2, ?_, ?_⟩
  · intro sentinel good h32 hsent hgood hg
    exact file_open_walk_returns pvolume sentinel good hcb h32 hsent hgood fuel s cluster
      data hfuel hg
  · intro file_entry budget hb
    have hw := (file_open_walk_bounded pvolume hcb budget
      (file_entry.file_size % 4294967296) file_entry.file_first_low [] hb).1
    unfold file_open_entry
    simp only []
    split_ifs
    all_goals try simp only [ne_eq, reduceCtorEq, not_false_eq_true]
    cases hrun : file_open_walk pvolume budget (file_entry.file_size % 4294967296)
        file_entry.file_first_low [] with
    | ok out => simp
    | error e => simp
    | fault => simp
    | timeout => exact absurd hrun hw

/-- Witness for `file_open_walk_terminates`: with 4-byte clusters and the
cyclic table 2 → 3 → 2, a walk for 10 bytes from cluster 2 ends within
`10 / 4 + 1 = 3` iterations with the bytes of clusters 2, 3 and the first
two bytes of cluster 2 again. -/
theorem file_open_walk_terminates_witness :
    1 ≤ cyclic_volume.super_sector.bytes_per_sector
      * cyclic_volume.super_sector.sectors_per_cluster ∧
    10 / (cyclic_volume.super_sector.bytes_per_sector
      * cyclic_volume.super_sector.sectors_per_cluster) < 3 ∧
    file_open_walk cyclic_volume 3 10 2 [] ≠ Res.timeout ∧
    (∃ copied, file_open_walk cyclic_volume 3 10 2 [] = Res.ok ([] ++ copied ++ [0]) ∧
      copied.length ≤ 10) ∧
    file_open_walk cyclic_volume 3 10 2 []
      = Res.ok [11, 12, 13, 14, 21, 22, 23, 24, 11, 12, 0] :=
  ⟨by decide, by decide,
    (file_open_walk_terminates cyclic_volume 3 10 2 [] (by decide) (by decide)).1,
    (file_open_walk_terminates cyclic_volume 3 10 2 [] (by decide) (by decide)).2.2.1
      0xFFF (fun c => c = 2 ∨ c = 3) (by decide) rfl
      (fun c hc _ => by
        rcases hc with rfl | rfl
        · exact ⟨by decide, by decide, 3, rfl, Or.inr rfl⟩
        · exact ⟨by decide, by decide, 2, rfl, Or.inl rfl⟩)
      (Or.inl rfl),
    by decide⟩

end Fat12
